import Mathlib

/-!
Shallow embedding of the bidirectional cloud-sync engine of the Workout-App
repository (source: the supabaseSync module and the Dexie schema in db.ts).

Local collections (Dexie tables) are lists of records with an explicit
auto-increment counter per table that the sync code adds to.  The remote
(Supabase) store is a set of tables modelled as lists of rows plus a counter
for DB-generated row ids.  Every network call is assumed to reach the store;
for the deletion-flush path, where the claims are about error handling, the
outcome of each remote call is supplied by an explicit oracle.  Timestamps
(JS Date / ISO strings) are modelled as naturals; an authenticated session is
assumed, so the current user id is a plain parameter.
-/

namespace WorkoutApp

/-- JS `a || b` on an optional string: `undefined`/`null` and the empty
string are falsy. -/
def jsOr (a : Option String) (b : String) : String :=
  match a with
  | some s => if s = "" then b else s
  | none => b

/-- JS `toLowerCase()`, modelled character-wise (`String.toLower` itself is
defined by position-based recursion that the kernel cannot evaluate). -/
def lowerStr (s : String) : String :=
  { data := s.data.map Char.toLower }

/-- Lookup in a JS `Map` built with `new Map(pairs)`: later pairs overwrite
earlier ones, so the value of the last pair with the wanted key wins. -/
def jsGet {β : Type} (l : List (String × β)) (k : String) : Option β :=
  (l.reverse.find? (fun p => p.1 == k)).map (fun p => p.2)

-- ## Local (Dexie) data model, from db.ts

structure Exercise where
  id : Nat
  name : String
  muscleGroups : List String
  equipment : String
deriving DecidableEq, Repr

inductive WorkoutStatus where
  | active
  | completed
deriving DecidableEq, Repr

structure Workout where
  id : Nat
  name : String
  startTime : Nat
  endTime : Option Nat
  status : WorkoutStatus
  synced : Bool
deriving DecidableEq, Repr

structure WorkoutSet where
  id : Nat
  workoutId : String
  exerciseId : String
  instanceId : String
  setNumber : Nat
  weight : Nat
  reps : Nat
  rpe : Option Nat
  completed : Bool
  timestamp : Nat
deriving DecidableEq, Repr

structure TemplateSet where
  targetWeight : Nat
  targetReps : Nat
deriving DecidableEq, Repr

structure TemplateExercise where
  exerciseId : String
  exerciseName : Option String
  instanceId : Option String
  sets : List TemplateSet
deriving DecidableEq, Repr

structure WorkoutTemplate where
  id : Nat
  name : String
  exercises : List TemplateExercise
  createdAt : Nat
  lastUsed : Option Nat
  synced : Bool
deriving DecidableEq, Repr

structure ScheduledWorkout where
  id : Nat
  templateId : Nat
  templateName : String
  date : String
  notes : Option String
  exercises : List TemplateExercise
  completed : Bool
  synced : Bool
deriving DecidableEq, Repr

inductive DeletedItemType where
  | template
  | scheduled_workout
  | exercise
deriving DecidableEq, Repr

structure DeletedItem where
  id : Nat
  type : DeletedItemType
  localId : Nat
  name : Option String
  date : Option String
  deletedAt : Nat
deriving DecidableEq, Repr

/-- The four localStorage keys the settings sync reads and writes.
`muscleGroups` and `equipment` are stored as JSON arrays (the JSON encoding
round-trips, so they are modelled as parsed lists); the rest-timer keys are
stored as strings, with the numeric default modelled as the parsed number. -/
structure LocalSettings where
  muscleGroups : Option (List String)
  equipment : Option (List String)
  restTimerEnabled : Option String
  restTimerDefault : Option Nat
deriving DecidableEq, Repr

structure LocalDB where
  exercises : List Exercise
  exercisesNextId : Nat
  workouts : List Workout
  sets : List WorkoutSet
  templates : List WorkoutTemplate
  templatesNextId : Nat
  scheduledWorkouts : List ScheduledWorkout
  scheduledNextId : Nat
  deletedItems : List DeletedItem
  settings : LocalSettings
deriving DecidableEq, Repr

-- ## Remote (Supabase) data model

/-- The `muscle_group` column is JSONB and may hold either a proper array or
a legacy single string / null, which is why the download code checks
`Array.isArray`. -/
inductive MuscleGroupField where
  | arr (groups : List String)
  | single (s : Option String)
deriving DecidableEq, Repr

structure RemoteExercise where
  id : Nat
  local_id : String
  name : String
  muscle_group : MuscleGroupField
  equipment : Option String
  deleted : Bool
deriving DecidableEq, Repr

structure RemoteTemplate where
  id : Nat
  local_id : String
  user_id : String
  name : String
  exercises : List TemplateExercise
  created_at : Nat
  updated_at : Option Nat
deriving DecidableEq, Repr

structure RemoteScheduledWorkout where
  id : Nat
  local_id : String
  user_id : String
  template_name : String
  date : String
  notes : Option String
  exercises : List TemplateExercise
  completed : Bool
deriving DecidableEq, Repr

structure RemoteWorkout where
  local_id : String
  name : String
  start_time : Nat
  end_time : Option Nat
deriving DecidableEq, Repr

structure RemoteWorkoutSet where
  workout_local_id : String
  exercise_id : Nat
  set_number : Nat
  weight : Nat
  reps : Nat
  rpe : Option Nat
  completed : Bool
  timestamp : Nat
deriving DecidableEq, Repr

structure RemoteUserSettings where
  id : Nat
  user_id : String
  muscle_groups : Option (List String)
  equipment : Option (List String)
  rest_timer_enabled : Bool
  rest_timer_seconds : Nat
  updated_at : Nat
deriving DecidableEq, Repr

structure RemoteDB where
  exercises : List RemoteExercise
  templates : List RemoteTemplate
  scheduledWorkouts : List RemoteScheduledWorkout
  workouts : List RemoteWorkout
  workoutSets : List RemoteWorkoutSet
  userSettings : List RemoteUserSettings
  nextId : Nat
deriving DecidableEq, Repr

structure World where
  db : LocalDB
  remote : RemoteDB
deriving DecidableEq, Repr

-- ## Name-resolution layer (convertExercisesToNamesForCloud / FromCloud)

/-- `convertExercisesToNamesForCloud`: attach `exerciseName` to every entry,
looked up from the local catalog by id; `idToName.get(ex.exerciseId) ||
'Unknown Exercise'` falls back both when the id is unknown and when the
stored name is the empty string (JS falsiness of `''`). -/
def convertExercisesToNamesForCloud (localExercises : List Exercise)
    (exercises : List TemplateExercise) : List TemplateExercise :=
  let idToName := localExercises.map (fun e => (toString e.id, e.name))
  exercises.map (fun ex =>
    { ex with exerciseName := some (jsOr (jsGet idToName ex.exerciseId) "Unknown Exercise") })

/-- `convertExercisesFromCloud`: when a (non-empty) `exerciseName` came from
the cloud, replace `exerciseId` by the id of the local exercise whose name
matches case-insensitively; otherwise keep the entry as-is. -/
def convertExercisesFromCloud (localExercises : List Exercise)
    (exercises : List TemplateExercise) : List TemplateExercise :=
  let nameToId := localExercises.map (fun e => (lowerStr e.name, toString e.id))
  exercises.map (fun ex =>
    match ex.exerciseName with
    | some n =>
      if n = "" then ex
      else
        match jsGet nameToId (lowerStr n) with
        | some localId => { ex with exerciseId := localId }
        | none => ex
    | none => ex)

-- ## Sorting (Dexie sortBy / Supabase order)

/-- Stable insertion into a list sorted by the strict precedence test `lt`. -/
def insertSortedBy {α : Type} (lt : α → α → Bool) (a : α) : List α → List α
  | [] => [a]
  | b :: l => if lt a b then a :: b :: l else b :: insertSortedBy lt a l

/-- Stable sort by the strict precedence test `lt` (elements comparing equal
keep their relative order). -/
def sortBy {α : Type} (lt : α → α → Bool) : List α → List α
  | [] => []
  | a :: l => insertSortedBy lt a (sortBy lt l)

-- ## cleanupOldWorkouts

/-- Deletion body of `cleanupOldWorkouts` for one stale workout: remove its
sets and the workout itself, unless its id is falsy (0). -/
def cleanupDeleteStep (db : LocalDB) (w : Workout) : LocalDB :=
  if w.id = 0 then db
  else
    { db with
      sets := db.sets.filter (fun s => !(s.workoutId == toString w.id)),
      workouts := db.workouts.filter (fun x => !(x.id == w.id)) }

/-- `cleanupOldWorkouts(keepCount)`: keep only the `keepCount` completed
workouts with the latest `endTime`; delete the rest together with their sets.
The Dexie query sorts completed workouts by `endTime` descending; the guard
`if (workout.id)` skips a workout whose id is falsy (0). -/
def cleanupOldWorkouts (keepCount : Nat) (db : LocalDB) : LocalDB :=
  let allWorkouts :=
    sortBy (fun a b => (b.endTime.getD 0) < (a.endTime.getD 0))
      (db.workouts.filter (fun w => w.status == .completed))
  if keepCount < allWorkouts.length then
    let workoutsToDelete := allWorkouts.drop keepCount
    workoutsToDelete.foldl cleanupDeleteStep db
  else db

-- ## Exercise sync

/-- Remote upsert on the `exercises` table with `onConflict: 'local_id'`
(`local_id` carries a unique index): update the row with that tag if present,
else insert a fresh row; returns the durable row id. -/
def upsertRemoteExercise (lid : String) (name : String) (mg : MuscleGroupField)
    (equipment : Option String) (r : RemoteDB) : RemoteDB × Nat :=
  match r.exercises.find? (fun e => e.local_id == lid) with
  | some row =>
    ({ r with exercises := r.exercises.map (fun e =>
        if e.local_id = lid then
          { e with name := name, muscle_group := mg, equipment := equipment }
        else e) },
      row.id)
  | none =>
    ({ r with
        exercises := r.exercises ++
          [{ id := r.nextId, local_id := lid, name := name, muscle_group := mg,
             equipment := equipment, deleted := false }],
        nextId := r.nextId + 1 },
      r.nextId)

/-- Loop body of `syncExercises` for one local exercise. -/
def syncExercisesStep (acc : RemoteDB × Nat) (e : Exercise) : RemoteDB × Nat :=
  let r := (upsertRemoteExercise (toString e.id) e.name
    (.arr e.muscleGroups) (some e.equipment) acc.1).1
  (r, acc.2 + 1)

/-- `syncExercises`: upsert every local exercise to the cloud, keyed by the
device-local id tag. -/
def syncExercises (w : World) : World × (Nat × Nat) :=
  let folded := w.db.exercises.foldl syncExercisesStep (w.remote, 0)
  ({ w with remote := folded.1 }, (folded.2, 0))

/-- `Array.isArray(muscle_group) ? muscle_group : [muscle_group || 'Other']`. -/
def normalizeCloudMG : MuscleGroupField → List String
  | .arr l => l
  | .single s => [jsOr s "Other"]

/-- Merge-loop body of `fetchExercisesFromSupabase` for one cloud exercise;
`localByName` is the snapshot lookup map keyed by lowercased name. -/
def fetchExercisesStep (localByName : List (String × Exercise))
    (db : LocalDB) (ce : RemoteExercise) : LocalDB :=
  match jsGet localByName (lowerStr ce.name) with
  | none =>
    { db with
      exercises := db.exercises ++
        [{ id := db.exercisesNextId, name := ce.name,
           muscleGroups := normalizeCloudMG ce.muscle_group,
           equipment := jsOr ce.equipment "Other" }],
      exercisesNextId := db.exercisesNextId + 1 }
  | some le =>
    let cloudMG := normalizeCloudMG ce.muscle_group
    if le.muscleGroups ≠ cloudMG ∨ ce.equipment ≠ some le.equipment then
      { db with exercises := db.exercises.map (fun e =>
          if e.id = le.id then
            { e with muscleGroups := cloudMG,
                     equipment := jsOr ce.equipment le.equipment }
          else e) }
    else db

/-- `fetchExercisesFromSupabase`: pull non-soft-deleted cloud exercises
(ordered by name), add the ones with no case-insensitive local name match,
and update muscle groups / equipment of matched ones when they differ. -/
def fetchExercisesFromSupabase (w : World) : World :=
  let data := sortBy (fun a b => decide (a.name < b.name))
    (w.remote.exercises.filter (fun e => !e.deleted))
  if data.isEmpty then w
  else
    let localExercises := w.db.exercises
    let localByName := localExercises.map (fun e => (lowerStr e.name, e))
    let db := data.foldl (fetchExercisesStep localByName) w.db
    { w with db := db }

/-- `getSupabaseExerciseId`: resolve a local exercise id to the durable cloud
row id, upserting the exercise first when it is not in the cloud yet. -/
def getSupabaseExerciseId (localExerciseId : String) (w : World) :
    World × Option Nat :=
  match w.remote.exercises.find? (fun e => e.local_id == localExerciseId) with
  | some row => (w, some row.id)
  | none =>
    match w.db.exercises.find? (fun e => toString e.id == localExerciseId) with
    | none => (w, none)
    | some le =>
      let (r, rid) := upsertRemoteExercise localExerciseId le.name
        (.arr le.muscleGroups) (some le.equipment) w.remote
      ({ w with remote := r }, some rid)

-- ## Single-workout sync

/-- Outcomes of the two fallible remote calls in `syncToSupabase`, per
workout id (`true` = the call reports an error). -/
structure WorkoutSyncOracle where
  workoutUpsertError : Nat → Bool
  setsInsertError : Nat → Bool

def noWorkoutErrors : WorkoutSyncOracle :=
  { workoutUpsertError := fun _ => false, setsInsertError := fun _ => false }

/-- Remote upsert on `workouts` with `onConflict: 'local_id'`. -/
def upsertRemoteWorkout (wk : Workout) (r : RemoteDB) : RemoteDB :=
  match r.workouts.find? (fun x => x.local_id == toString wk.id) with
  | some _ =>
    { r with workouts := r.workouts.map (fun x =>
        if x.local_id = toString wk.id then
          { x with name := wk.name, start_time := wk.startTime,
                   end_time := wk.endTime }
        else x) }
  | none =>
    { r with workouts := r.workouts ++
        [{ local_id := toString wk.id, name := wk.name,
           start_time := wk.startTime, end_time := wk.endTime }] }

/-- Body of the set-payload loop in `syncToSupabase`: resolve the cloud
exercise id (possibly upserting the exercise) and append the set row, or
skip the set when the id does not resolve. -/
def buildSetsStep (workoutId : Nat)
    (acc : World × List RemoteWorkoutSet) (s : WorkoutSet) :
    World × List RemoteWorkoutSet :=
  match getSupabaseExerciseId s.exerciseId acc.1 with
  | (w', none) => (w', acc.2)
  | (w', some eid) =>
    (w', acc.2 ++
      [{ workout_local_id := toString workoutId, exercise_id := eid,
         set_number := s.setNumber, weight := s.weight, reps := s.reps,
         rpe := s.rpe, completed := s.completed,
         timestamp := s.timestamp }])

/-- `syncToSupabase(workoutId)`: upload one workout and its sets; on success
mark it synced locally and prune local history to the 5 most recent completed
workouts. Returns `false` when the workout or its sets are missing, no set
resolves to a cloud exercise, or a remote call errors. -/
def syncToSupabase (o : WorkoutSyncOracle) (workoutId : Nat) (w : World) :
    World × Bool :=
  match w.db.workouts.find? (fun wk => wk.id == workoutId) with
  | none => (w, false)
  | some workout =>
    let sets := w.db.sets.filter (fun s => s.workoutId == toString workoutId)
    if sets.isEmpty then (w, false)
    else if o.workoutUpsertError workoutId then (w, false)
    else
      let remote1 := upsertRemoteWorkout workout w.remote
      let remaining := remote1.workoutSets.filter
        (fun s => !(s.workout_local_id == toString workout.id))
      let remote2 := { remote1 with workoutSets := remaining }
      let built := sets.foldl (buildSetsStep workout.id) ({ w with remote := remote2 }, [])
      let w3 := built.1
      let setsToInsert := built.2
      if setsToInsert.isEmpty then (w3, false)
      else if o.setsInsertError workoutId then (w3, false)
      else
        let w4 := { w3 with remote := { w3.remote with
          workoutSets := w3.remote.workoutSets ++ setsToInsert } }
        let db1 := { w4.db with workouts := w4.db.workouts.map (fun wk =>
          if wk.id = workoutId then { wk with synced := true } else wk) }
        ({ w4 with db := cleanupOldWorkouts 5 db1 }, true)

/-- Loop body of `syncAllPendingWorkouts` for one completed workout; the
`if (workout.id)` guard skips a falsy (0) id. -/
def syncPendingStep (o : WorkoutSyncOracle) (forceAll : Bool)
    (acc : World × (Nat × Nat)) (wk : Workout) : World × (Nat × Nat) :=
  if wk.id = 0 then acc
  else
    let unmarked := acc.1.db.workouts.map
      (fun x => if x.id = wk.id then { x with synced := false } else x)
    let before :=
      if forceAll then { acc.1 with db := { acc.1.db with workouts := unmarked } }
      else acc.1
    match syncToSupabase o wk.id before with
    | (w', true) => (w', (acc.2.1 + 1, acc.2.2))
    | (w', false) => (w', (acc.2.1, acc.2.2 + 1))

/-- `syncAllPendingWorkouts(forceAll)`: sync exercises first, then every
completed workout not yet marked synced (all of them when `forceAll`). -/
def syncAllPendingWorkouts (o : WorkoutSyncOracle) (forceAll : Bool)
    (w : World) : World × (Nat × Nat) :=
  let w1 := (syncExercises w).1
  let completedWorkouts := w1.db.workouts.filter (fun wk => wk.status == .completed)
  let workoutsToSync :=
    if forceAll then completedWorkouts
    else completedWorkouts.filter (fun wk => !wk.synced)
  workoutsToSync.foldl (syncPendingStep o forceAll) (w1, (0, 0))

-- ## Template sync

/-- Loop body of `syncTemplatesToSupabase` for one local template. -/
def syncTemplatesStep (user : String) (now : Nat)
    (acc : World × (Nat × Nat)) (t : WorkoutTemplate) : World × (Nat × Nat) :=
  let wrld := acc.1
  let existing := wrld.remote.templates.filter
    (fun r => r.user_id == user && r.name == t.name)
  let exercisesWithNames :=
    convertExercisesToNamesForCloud wrld.db.exercises t.exercises
  let wrld1 : World :=
    match existing with
    | first :: rest =>
      let updated := wrld.remote.templates.map (fun r =>
        if r.id = first.id then
          { r with local_id := toString t.id,
                   exercises := exercisesWithNames,
                   updated_at := some now }
        else r)
      let afterDup :=
        if rest.isEmpty then updated
        else updated.filter (fun r => !((rest.map (fun e => e.id)).contains r.id))
      { wrld with remote := { wrld.remote with templates := afterDup } }
    | [] =>
      let row : RemoteTemplate :=
        { id := wrld.remote.nextId, local_id := toString t.id,
          user_id := user, name := t.name,
          exercises := exercisesWithNames, created_at := now,
          updated_at := some now }
      { wrld with remote := { wrld.remote with
          templates := wrld.remote.templates ++ [row],
          nextId := wrld.remote.nextId + 1 } }
  let marked := wrld1.db.templates.map (fun x =>
    if x.id = t.id then { x with synced := true } else x)
  ({ wrld1 with db := { wrld1.db with templates := marked } },
    (acc.2.1 + 1, acc.2.2))

/-- `syncTemplatesToSupabase`: for each local template, look up remote rows
by the natural key (this user, exact template name); update the first match
(rewriting the `local_id` tag and `updated_at` to the current time) and
delete the remaining duplicates, or insert when there is no match; finally
mark the local template synced.  The remote `created_at` of an inserted row
is the DB default (the current time). -/
def syncTemplatesToSupabase (user : String) (now : Nat) (w : World) :
    World × (Nat × Nat) :=
  w.db.templates.foldl (syncTemplatesStep user now) (w, (0, 0))

/-- Fetch order for templates: `updated_at` descending; a null `updated_at`
sorts first (Postgres DESC defaults to NULLS FIRST). -/
def tmplFetchBefore (a b : RemoteTemplate) : Bool :=
  match a.updated_at, b.updated_at with
  | none, some _ => true
  | none, none => false
  | some _, none => false
  | some x, some y => y < x

/-- Merge-loop body of `fetchTemplatesFromSupabase` for one cloud row;
`localByName` is the lookup map built once from the pre-fetch snapshot. -/
def fetchTemplatesStep (localByName : List (String × WorkoutTemplate))
    (db : LocalDB) (ct : RemoteTemplate) : LocalDB :=
  match jsGet localByName (lowerStr ct.name) with
  | none =>
    let mapped := convertExercisesFromCloud db.exercises ct.exercises
    { db with
      templates := db.templates ++
        [{ id := db.templatesNextId, name := ct.name, exercises := mapped,
           createdAt := ct.created_at, lastUsed := ct.updated_at,
           synced := false }],
      templatesNextId := db.templatesNextId + 1 }
  | some lt =>
    let cloudUpdated := ct.updated_at.getD ct.created_at
    let localUpdated := lt.lastUsed.getD lt.createdAt
    if localUpdated < cloudUpdated then
      let mapped := convertExercisesFromCloud db.exercises ct.exercises
      { db with templates := db.templates.map (fun x =>
          if x.id = lt.id then
            { x with exercises := mapped, lastUsed := some cloudUpdated }
          else x) }
    else db

/-- Remote-deletion pass body for templates: drop a snapshot-synced local
template whose stringified id is not among the fetched `local_id` tags. -/
def tmplRemoteDeletionStep (cloudIds : List String)
    (db : LocalDB) (t : WorkoutTemplate) : LocalDB :=
  if cloudIds.contains (toString t.id) then db
  else { db with templates := db.templates.filter (fun x => !(x.id == t.id)) }

/-- `fetchTemplatesFromSupabase`: download this user's template rows; add
rows with no case-insensitive local name match, overwrite a matched local
template when the cloud timestamp (`updated_at`, falling back to
`created_at`) is strictly newer than the local one (`lastUsed`, falling back
to `createdAt`); then delete any local template marked synced whose
stringified id is absent from the fetched rows' `local_id` tags.  When the
fetch returns no rows the function returns before the deletion pass. -/
def fetchTemplatesFromSupabase (user : String) (w : World) : World :=
  let data := sortBy tmplFetchBefore
    (w.remote.templates.filter (fun r => r.user_id == user))
  if data.isEmpty then w
  else
    let localTemplates := w.db.templates
    let localByName := localTemplates.map (fun t => (lowerStr t.name, t))
    let db1 := data.foldl (fetchTemplatesStep localByName) w.db
    let cloudIds := data.map (fun t => t.local_id)
    let localSyncedTemplates := localTemplates.filter (fun t => t.synced)
    let db2 := localSyncedTemplates.foldl (tmplRemoteDeletionStep cloudIds) db1
    { w with db := db2 }

-- ## Scheduled-workout sync

/-- Loop body of `syncScheduledWorkoutsToSupabase` for one record. -/
def syncScheduledStep (user : String)
    (acc : World × (Nat × Nat)) (s : ScheduledWorkout) : World × (Nat × Nat) :=
  let wrld := acc.1
  let existing := wrld.remote.scheduledWorkouts.filter
    (fun r => r.user_id == user && r.date == s.date &&
      r.template_name == s.templateName)
  let exercisesWithNames :=
    convertExercisesToNamesForCloud wrld.db.exercises s.exercises
  let wrld1 : World :=
    match existing with
    | first :: rest =>
      let updated := wrld.remote.scheduledWorkouts.map (fun r =>
        if r.id = first.id then
          { r with local_id := toString s.id, notes := s.notes,
                   exercises := exercisesWithNames,
                   completed := s.completed }
        else r)
      let afterDup :=
        if rest.isEmpty then updated
        else updated.filter (fun r => !((rest.map (fun e => e.id)).contains r.id))
      { wrld with remote := { wrld.remote with scheduledWorkouts := afterDup } }
    | [] =>
      let row : RemoteScheduledWorkout :=
        { id := wrld.remote.nextId, local_id := toString s.id,
          user_id := user, template_name := s.templateName, date := s.date,
          notes := s.notes, exercises := exercisesWithNames,
          completed := s.completed }
      { wrld with remote := { wrld.remote with
          scheduledWorkouts := wrld.remote.scheduledWorkouts ++ [row],
          nextId := wrld.remote.nextId + 1 } }
  let marked := wrld1.db.scheduledWorkouts.map (fun x =>
    if x.id = s.id then { x with synced := true } else x)
  ({ wrld1 with db := { wrld1.db with scheduledWorkouts := marked } },
    (acc.2.1 + 1, acc.2.2))

/-- `syncScheduledWorkoutsToSupabase`: upsert by the natural key (this user,
date, exact template name) with the same first-match-update /
delete-the-duplicates / otherwise-insert shape as templates; no timestamp
column is written. -/
def syncScheduledWorkoutsToSupabase (user : String) (w : World) :
    World × (Nat × Nat) :=
  w.db.scheduledWorkouts.foldl (syncScheduledStep user) (w, (0, 0))

/-- Merge-loop body of `fetchScheduledWorkoutsFromSupabase` for one cloud
row; `localByDateName` is the snapshot lookup map keyed by date plus
lowercased template name. -/
def fetchScheduledStep (localByDateName : List (String × ScheduledWorkout))
    (db : LocalDB) (cw : RemoteScheduledWorkout) : LocalDB :=
  let key := cw.date ++ "-" ++ lowerStr cw.template_name
  match jsGet localByDateName key with
  | none =>
    let mapped := convertExercisesFromCloud db.exercises cw.exercises
    { db with
      scheduledWorkouts := db.scheduledWorkouts ++
        [{ id := db.scheduledNextId, templateId := 0,
           templateName := cw.template_name, date := cw.date,
           notes := cw.notes, exercises := mapped,
           completed := cw.completed, synced := false }],
      scheduledNextId := db.scheduledNextId + 1 }
  | some lw =>
    if cw.exercises ≠ lw.exercises then
      let mapped := convertExercisesFromCloud db.exercises cw.exercises
      { db with scheduledWorkouts := db.scheduledWorkouts.map (fun x =>
          if x.id = lw.id then
            { x with exercises := mapped, notes := cw.notes,
                     completed := cw.completed }
          else x) }
    else db

/-- Remote-deletion pass body for scheduled workouts. -/
def schedRemoteDeletionStep (cloudIds : List String)
    (db : LocalDB) (s : ScheduledWorkout) : LocalDB :=
  if cloudIds.contains (toString s.id) then db
  else
    { db with scheduledWorkouts :=
        db.scheduledWorkouts.filter (fun x => !(x.id == s.id)) }

/-- `fetchScheduledWorkoutsFromSupabase`: download this user's scheduled
workouts (ordered by date); add rows whose `(date, lowercased template
name)` key has no local match; overwrite a matched record (exercises, notes,
completed) whenever the serialized cloud exercises differ from the local
ones; then delete any local record marked synced whose stringified id is
absent from the fetched rows' `local_id` tags.  Unlike the template fetch
there is no empty-data early return before the deletion pass. -/
def fetchScheduledWorkoutsFromSupabase (user : String) (w : World) : World :=
  let data := sortBy (fun a b => decide (a.date < b.date))
    (w.remote.scheduledWorkouts.filter (fun r => r.user_id == user))
  let localScheduled := w.db.scheduledWorkouts
  let localByDateName := localScheduled.map
    (fun s => (s.date ++ "-" ++ lowerStr s.templateName, s))
  let db1 := data.foldl (fetchScheduledStep localByDateName) w.db
  let cloudIds := data.map (fun s => s.local_id)
  let localSyncedScheduled := localScheduled.filter (fun s => s.synced)
  let db2 := localSyncedScheduled.foldl (schedRemoteDeletionStep cloudIds) db1
  { w with db := db2 }

-- ## User-settings sync

/-- `syncUserSettingsToSupabase`: push the localStorage settings; `.single()`
on the existence query yields a row only when exactly one matches, so with
zero matches (and also with an anomalous several) the insert branch runs. -/
def syncUserSettingsToSupabase (user : String) (now : Nat) (w : World) : World :=
  let s := w.db.settings
  let enabled := s.restTimerEnabled == some "true"
  let seconds := s.restTimerDefault.getD 90
  match w.remote.userSettings.filter (fun r => r.user_id == user) with
  | [row] =>
    let updated := w.remote.userSettings.map (fun r =>
      if r.id = row.id then
        { r with user_id := user, muscle_groups := s.muscleGroups,
                 equipment := s.equipment, rest_timer_enabled := enabled,
                 rest_timer_seconds := seconds, updated_at := now }
      else r)
    { w with remote := { w.remote with userSettings := updated } }
  | _ =>
    let row : RemoteUserSettings :=
      { id := w.remote.nextId, user_id := user,
        muscle_groups := s.muscleGroups, equipment := s.equipment,
        rest_timer_enabled := enabled, rest_timer_seconds := seconds,
        updated_at := now }
    { w with remote := { w.remote with
        userSettings := w.remote.userSettings ++ [row],
        nextId := w.remote.nextId + 1 } }

/-- `fetchUserSettingsFromSupabase`: apply the (unique) cloud settings row to
localStorage; the list-valued keys are written only when non-null, the
rest-timer keys always (they are non-null columns). -/
def fetchUserSettingsFromSupabase (user : String) (w : World) : World :=
  match w.remote.userSettings.filter (fun r => r.user_id == user) with
  | [row] =>
    let s0 := w.db.settings
    let s1 := if row.muscle_groups.isSome
      then { s0 with muscleGroups := row.muscle_groups } else s0
    let s2 := if row.equipment.isSome
      then { s1 with equipment := row.equipment } else s1
    let s3 := { s2 with
      restTimerEnabled := some (if row.rest_timer_enabled then "true" else "false"),
      restTimerDefault := some row.rest_timer_seconds }
    { w with db := { w.db with settings := s3 } }
  | _ => w

-- ## Local duplicate cleanup

/-- Walk a list keeping a set of already-seen keys; return the ids of the
records whose key was seen before (the later duplicates). -/
def collectDupIds {α : Type} (key : α → String) (getId : α → Nat) :
    List α → List String → List Nat
  | [], _ => []
  | t :: rest, seen =>
    if seen.contains (key t) then getId t :: collectDupIds key getId rest seen
    else collectDupIds key getId rest (key t :: seen)

/-- `cleanupLocalDuplicates`: drop local templates sharing a lowercased name
and scheduled workouts sharing a `(date, lowercased name)` key, keeping the
first of each. -/
def cleanupLocalDuplicates (w : World) : World :=
  let templateIdsToDelete :=
    collectDupIds (fun t => lowerStr t.name) (fun t => t.id) w.db.templates []
  let db1 :=
    if templateIdsToDelete.isEmpty then w.db
    else { w.db with templates :=
      w.db.templates.filter (fun t => !(templateIdsToDelete.contains t.id)) }
  let scheduledIdsToDelete :=
    collectDupIds (fun s => s.date ++ "-" ++ lowerStr s.templateName)
      (fun s => s.id) db1.scheduledWorkouts []
  let db2 :=
    if scheduledIdsToDelete.isEmpty then db1
    else { db1 with scheduledWorkouts :=
      db1.scheduledWorkouts.filter (fun s => !(scheduledIdsToDelete.contains s.id)) }
  { w with db := db2 }

-- ## Tombstone flush

/-- Outcome (`none` = success, `some code` = error) of each remote delete or
soft-delete call the tombstone flush can make, per tombstone. -/
structure DeletionOracle where
  templateDeleteError : DeletedItem → Option String
  scheduledDeleteError : DeletedItem → Option String
  exerciseDeleteError : DeletedItem → Option String
  exerciseSoftDeleteError : DeletedItem → Option String

def noDeletionErrors : DeletionOracle :=
  { templateDeleteError := fun _ => none, scheduledDeleteError := fun _ => none,
    exerciseDeleteError := fun _ => none, exerciseSoftDeleteError := fun _ => none }

/-- Loop body of `syncDeletionsToSupabase` for one tombstone. -/
def syncDeletionsStep (o : DeletionOracle) (user : String)
    (acc : World × (Nat × Nat)) (item : DeletedItem) : World × (Nat × Nat) :=
  let wrld := acc.1
  let removeTombstone := fun (x : World) =>
    { x with db := { x.db with deletedItems :=
        x.db.deletedItems.filter (fun d => !(d.id == item.id)) } }
  match item.type with
        | .template =>
          match o.templateDeleteError item with
          | some _ => (wrld, (acc.2.1, acc.2.2 + 1))
          | none =>
            let kept := wrld.remote.templates.filter
              (fun t => !(t.user_id == user && t.local_id == toString item.localId))
            let r := { wrld.remote with templates := kept }
            (removeTombstone { wrld with remote := r }, (acc.2.1 + 1, acc.2.2))
        | .scheduled_workout =>
          match o.scheduledDeleteError item with
          | some _ => (wrld, (acc.2.1, acc.2.2 + 1))
          | none =>
            let kept := wrld.remote.scheduledWorkouts.filter
              (fun t => !(t.user_id == user && t.local_id == toString item.localId))
            let r := { wrld.remote with scheduledWorkouts := kept }
            (removeTombstone { wrld with remote := r }, (acc.2.1 + 1, acc.2.2))
        | .exercise =>
          match o.exerciseDeleteError item with
          | none =>
            let kept := wrld.remote.exercises.filter
              (fun e => !(e.local_id == toString item.localId))
            let r := { wrld.remote with exercises := kept }
            (removeTombstone { wrld with remote := r }, (acc.2.1 + 1, acc.2.2))
          | some code =>
            if code = "23503" then
              match o.exerciseSoftDeleteError item with
              | none =>
                let flagged := wrld.remote.exercises.map
                  (fun e => if e.local_id = toString item.localId
                    then { e with deleted := true } else e)
                let r := { wrld.remote with exercises := flagged }
                (removeTombstone { wrld with remote := r }, (acc.2.1 + 1, acc.2.2))
              | some _ => (wrld, (acc.2.1, acc.2.2 + 1))
            else (wrld, (acc.2.1, acc.2.2 + 1))

/-- `syncDeletionsToSupabase`: flush every tombstone.  Templates and
scheduled workouts are deleted remotely by `(user_id, local_id)`; exercises
are hard-deleted by `local_id`, falling back to a soft delete (set the
`deleted` flag) when the hard delete fails with the foreign-key violation
code 23503.  The tombstone is removed exactly when the remote operation
reports no error; on error it stays for the next flush. -/
def syncDeletionsToSupabase (o : DeletionOracle) (user : String) (w : World) :
    World × (Nat × Nat) :=
  let deletedItems := w.db.deletedItems
  if deletedItems.isEmpty then (w, (0, 0))
  else deletedItems.foldl (syncDeletionsStep o user) (w, (0, 0))

-- ## Orchestrator

/-- `fullCloudSync`: tombstone flush, then settings, exercises, templates,
scheduled workouts (upload then download each), workout history upload, and
the local duplicate sweep, in source order.  All remote calls succeed in
this deterministic embedding; `now` is the clock the run observes. -/
def fullCloudSync (user : String) (now : Nat) (w : World) : World :=
  let w1 := (syncDeletionsToSupabase noDeletionErrors user w).1
  let w2 := syncUserSettingsToSupabase user now w1
  let w3 := fetchUserSettingsFromSupabase user w2
  let w4 := (syncExercises w3).1
  let w5 := fetchExercisesFromSupabase w4
  let w6 := (syncTemplatesToSupabase user now w5).1
  let w7 := fetchTemplatesFromSupabase user w6
  let w8 := (syncScheduledWorkoutsToSupabase user w7).1
  let w9 := fetchScheduledWorkoutsFromSupabase user w8
  let w10 := (syncAllPendingWorkouts noWorkoutErrors false w9).1
  cleanupLocalDuplicates w10

-- ## Definitions supporting the claim statements

/-- What the cloud-outbound converter guarantees for one payload entry: its
`exerciseName` is the (non-empty) name of a catalog exercise with this
stringified id, or else the fixed fallback string. -/
def payloadNameOk (cat : List Exercise) (ex : TemplateExercise) : Prop :=
  (∃ e ∈ cat, toString e.id = ex.exerciseId ∧ e.name ≠ "" ∧ ex.exerciseName = some e.name) ∨
    ex.exerciseName = some "Unknown Exercise"

instance (cat : List Exercise) (ex : TemplateExercise) :
    Decidable (payloadNameOk cat ex) := by
  unfold payloadNameOk
  infer_instance

/-- Well-formedness of the remote template table: DB-generated row ids are
distinct and below the id counter. -/
def remoteTmplInv (rdb : RemoteDB) : Prop :=
  ((rdb.templates.map (fun r => r.id)).Nodup) ∧
    ∀ r ∈ rdb.templates, r.id < rdb.nextId

instance (rdb : RemoteDB) : Decidable (remoteTmplInv rdb) := by
  unfold remoteTmplInv
  infer_instance

/-- Concrete world for the C7 witness: two remote duplicates of template "A"
for the same user. -/
def c7World : World :=
  { db := { exercises := [], exercisesNextId := 1, workouts := [], sets := [],
            templates := [{ id := 1, name := "A", exercises := [],
                            createdAt := 0, lastUsed := none, synced := false }],
            templatesNextId := 2, scheduledWorkouts := [], scheduledNextId := 1,
            deletedItems := [],
            settings := { muscleGroups := none, equipment := none,
                          restTimerEnabled := none, restTimerDefault := none } },
    remote := { exercises := [],
                templates := [{ id := 1, local_id := "9", user_id := "u",
                                name := "A", exercises := [], created_at := 0,
                                updated_at := some 0 },
                              { id := 2, local_id := "8", user_id := "u",
                                name := "A", exercises := [], created_at := 0,
                                updated_at := some 0 }],
                scheduledWorkouts := [], workouts := [], workoutSets := [],
                userSettings := [], nextId := 3 } }

/-- The local write `db.workouts.update(workoutId, { synced: true })` that a
successful single-workout sync performs before pruning history. -/
def markWorkoutSynced (workoutId : Nat) (db : LocalDB) : LocalDB :=
  { db with workouts := db.workouts.map (fun wk =>
      if wk.id = workoutId then { wk with synced := true } else wk) }

/-- The effective outcome of flushing one tombstone: for exercises, a hard
delete failing with code 23503 falls through to the soft delete, whose
outcome then decides; any other error, or a failing soft delete, is the
effective error. -/
def tombstoneError (o : DeletionOracle) (item : DeletedItem) : Option String :=
  match item.type with
  | .template => o.templateDeleteError item
  | .scheduled_workout => o.scheduledDeleteError item
  | .exercise =>
    match o.exerciseDeleteError item with
    | none => none
    | some code =>
      if code = "23503" then o.exerciseSoftDeleteError item else some code

/-- Concrete world for C9: the template "Push Day" was deleted locally (only
its tombstone remains, recording local id 1), while the remote row for the
same user carries the tag of another device (`local_id` 2). -/
def c9World : World :=
  { db := { exercises := [], exercisesNextId := 1, workouts := [], sets := [],
            templates := [], templatesNextId := 2, scheduledWorkouts := [],
            scheduledNextId := 1,
            deletedItems := [{ id := 1, type := .template, localId := 1,
                               name := some "Push Day", date := none,
                               deletedAt := 0 }],
            settings := { muscleGroups := none, equipment := none,
                          restTimerEnabled := none, restTimerDefault := none } },
    remote := { exercises := [],
                templates := [{ id := 1, local_id := "2", user_id := "u",
                                name := "Push Day", exercises := [],
                                created_at := 0, updated_at := none }],
                scheduledWorkouts := [], workouts := [], workoutSets := [],
                userSettings := [], nextId := 2 } }

/-- Oracle for the C1 witness: the flush of tombstone 1 fails remotely with
a transient error, tombstone 2 succeeds, and the exercise tombstone 3 hits
the referential-integrity code and soft-deletes successfully. -/
def c1Oracle : DeletionOracle :=
  { templateDeleteError := fun item => if item.id = 1 then some "500" else none,
    scheduledDeleteError := fun _ => none,
    exerciseDeleteError := fun _ => some "23503",
    exerciseSoftDeleteError := fun _ => none }

/-- Concrete world for the C1 witness: three pending tombstones. -/
def c1World : World :=
  { db := { exercises := [], exercisesNextId := 1, workouts := [], sets := [],
            templates := [], templatesNextId := 1, scheduledWorkouts := [],
            scheduledNextId := 1,
            deletedItems :=
              [{ id := 1, type := .template, localId := 4, name := some "A",
                 date := none, deletedAt := 0 },
               { id := 2, type := .template, localId := 5, name := some "B",
                 date := none, deletedAt := 0 },
               { id := 3, type := .exercise, localId := 6, name := some "Curl",
                 date := none, deletedAt := 0 }],
            settings := { muscleGroups := none, equipment := none,
                          restTimerEnabled := none, restTimerDefault := none } },
    remote := { exercises := [{ id := 1, local_id := "6", name := "Curl",
                                muscle_group := .arr ["Arms"],
                                equipment := some "Dumbbell", deleted := false }],
                templates := [{ id := 2, local_id := "5", user_id := "u",
                                name := "B", exercises := [], created_at := 0,
                                updated_at := none }],
                scheduledWorkouts := [], workouts := [], workoutSets := [],
                userSettings := [], nextId := 3 } }

/-- Concrete world for the C8 witness: one exercise tombstone whose hard
delete will fail with the referential-integrity code. -/
def c8World : World :=
  { db := { exercises := [], exercisesNextId := 1, workouts := [], sets := [],
            templates := [], templatesNextId := 1, scheduledWorkouts := [],
            scheduledNextId := 1,
            deletedItems := [{ id := 7, type := .exercise, localId := 9,
                               name := some "Bench", date := none,
                               deletedAt := 0 }],
            settings := { muscleGroups := none, equipment := none,
                          restTimerEnabled := none, restTimerDefault := none } },
    remote := { exercises := [{ id := 1, local_id := "9", name := "Bench",
                                muscle_group := .arr ["Chest"],
                                equipment := some "Barbell", deleted := false }],
                templates := [], scheduledWorkouts := [], workouts := [],
                workoutSets := [], userSettings := [], nextId := 2 } }

/-- The tombstone in `c8World`. -/
def c8Item : DeletedItem :=
  { id := 7, type := .exercise, localId := 9, name := some "Bench",
    date := none, deletedAt := 0 }

/-- Oracle for the C8 witness: the hard delete reports the referential
integrity violation and the soft delete succeeds. -/
def c8Oracle : DeletionOracle :=
  { templateDeleteError := fun _ => none,
    scheduledDeleteError := fun _ => none,
    exerciseDeleteError := fun _ => some "23503",
    exerciseSoftDeleteError := fun _ => none }

/-- Concrete world for the C10 witness: seven completed workouts with sets,
so that a successful sync of workout 1 both marks it synced and prunes the
two oldest completed workouts. -/
def c10World : World :=
  { db := { exercises := [{ id := 1, name := "Bench", muscleGroups := ["Chest"],
                            equipment := "Barbell" }],
            exercisesNextId := 2,
            workouts :=
              [{ id := 1, name := "W1", startTime := 10, endTime := some 17,
                 status := .completed, synced := false },
               { id := 2, name := "W2", startTime := 2, endTime := some 12,
                 status := .completed, synced := true },
               { id := 3, name := "W3", startTime := 3, endTime := some 13,
                 status := .completed, synced := true },
               { id := 4, name := "W4", startTime := 4, endTime := some 14,
                 status := .completed, synced := true },
               { id := 5, name := "W5", startTime := 5, endTime := some 15,
                 status := .completed, synced := true },
               { id := 6, name := "W6", startTime := 6, endTime := some 16,
                 status := .completed, synced := true },
               { id := 7, name := "W7", startTime := 1, endTime := some 11,
                 status := .completed, synced := true }],
            sets := [{ id := 1, workoutId := "1", exerciseId := "1",
                       instanceId := "a", setNumber := 1, weight := 100,
                       reps := 5, rpe := none, completed := true,
                       timestamp := 10 },
                     { id := 2, workoutId := "7", exerciseId := "1",
                       instanceId := "b", setNumber := 1, weight := 90,
                       reps := 5, rpe := none, completed := true,
                       timestamp := 1 }],
            templates := [], templatesNextId := 1, scheduledWorkouts := [],
            scheduledNextId := 1, deletedItems := [],
            settings := { muscleGroups := none, equipment := none,
                          restTimerEnabled := none, restTimerDefault := none } },
    remote := { exercises := [], templates := [], scheduledWorkouts := [],
                workouts := [], workoutSets := [], userSettings := [],
                nextId := 1 } }

/-- Concrete world for the C6 witness: one exercise (id 5, "Squat") and one
template that references it, with an empty remote store. -/
def c6WitnessWorld : World :=
  { db := { exercises := [{ id := 5, name := "Squat", muscleGroups := ["Legs"],
                            equipment := "Barbell" }],
            exercisesNextId := 6, workouts := [], sets := [],
            templates := [{ id := 1, name := "T",
                            exercises := [{ exerciseId := "5", exerciseName := none,
                                            instanceId := none, sets := [] }],
                            createdAt := 0, lastUsed := none, synced := false }],
            templatesNextId := 2, scheduledWorkouts := [], scheduledNextId := 1,
            deletedItems := [],
            settings := { muscleGroups := none, equipment := none,
                          restTimerEnabled := none, restTimerDefault := none } },
    remote := { exercises := [], templates := [], scheduledWorkouts := [],
                workouts := [], workoutSets := [], userSettings := [],
                nextId := 1 } }

/-- The row the template upload inserts for `c6WitnessWorld` at time 3. -/
def c6Row : RemoteTemplate :=
  { id := 1, local_id := "1", user_id := "u", name := "T",
    exercises := [{ exerciseId := "5", exerciseName := some "Squat",
                    instanceId := none, sets := [] }],
    created_at := 3, updated_at := some 3 }

/-- World refuting C4's natural-key reading of remote-deletion detection:
the remote store still holds a template named "A" for user "u", but its
`local_id` tag ("2") differs from the stringified id ("1") of the synced
local template named "A", so the download's deletion pass removes the local
record although its natural key is present remotely. -/
def c4World : World :=
  { db := { exercises := [], exercisesNextId := 1, workouts := [], sets := [],
            templates := [{ id := 1, name := "A", exercises := [],
                            createdAt := 5, lastUsed := some 5, synced := true }],
            templatesNextId := 2, scheduledWorkouts := [], scheduledNextId := 1,
            deletedItems := [],
            settings := { muscleGroups := none, equipment := none,
                          restTimerEnabled := none, restTimerDefault := none } },
    remote := { exercises := [],
                templates := [{ id := 10, local_id := "2", user_id := "u",
                                name := "A", exercises := [], created_at := 0,
                                updated_at := some 0 }],
                scheduledWorkouts := [], workouts := [], workoutSets := [],
                userSettings := [], nextId := 11 } }

/-- World for the C4 witness: one synced local template whose stringified id
matches the remote row's `local_id` tag (it survives the template download),
and one synced local scheduled workout with no remote row at all (the
scheduled download deletes it, since that pass has no empty-data guard). -/
def c4AmWorld : World :=
  { db := { exercises := [], exercisesNextId := 1, workouts := [], sets := [],
            templates := [{ id := 1, name := "A", exercises := [],
                            createdAt := 0, lastUsed := some 5, synced := true }],
            templatesNextId := 2,
            scheduledWorkouts := [{ id := 1, templateId := 1,
                                    templateName := "A", date := "2025-01-01",
                                    notes := none, exercises := [],
                                    completed := false, synced := true }],
            scheduledNextId := 2, deletedItems := [],
            settings := { muscleGroups := none, equipment := none,
                          restTimerEnabled := none, restTimerDefault := none } },
    remote := { exercises := [],
                templates := [{ id := 10, local_id := "1", user_id := "u",
                                name := "A", exercises := [], created_at := 0,
                                updated_at := some 0 }],
                scheduledWorkouts := [], workouts := [], workoutSets := [],
                userSettings := [], nextId := 11 } }

/-- World refuting C3's last-writer-wins reading of the scheduled-workout
download: the scheduled tables carry no timestamp columns at all, and the
matched local record is overwritten (notes, exercises, completed copied from
the cloud row) purely because the serialized exercises differ. -/
def c3World : World :=
  { db := { exercises := [], exercisesNextId := 1, workouts := [], sets := [],
            templates := [], templatesNextId := 1,
            scheduledWorkouts := [{ id := 1, templateId := 1,
                                    templateName := "A", date := "2025-01-01",
                                    notes := none, exercises := [],
                                    completed := false, synced := true }],
            scheduledNextId := 2, deletedItems := [],
            settings := { muscleGroups := none, equipment := none,
                          restTimerEnabled := none, restTimerDefault := none } },
    remote := { exercises := [], templates := [],
                scheduledWorkouts :=
                  [{ id := 10, local_id := "1", user_id := "u",
                     template_name := "A", date := "2025-01-01",
                     notes := some "n",
                     exercises := [{ exerciseId := "1",
                                     exerciseName := some "x",
                                     instanceId := none, sets := [] }],
                     completed := false }],
                workouts := [], workoutSets := [], userSettings := [],
                nextId := 11 } }

/-- World for the C3 witness: a local template matched by a strictly newer
remote row (it gets overwritten) and a local scheduled workout matched by a
remote row with identical serialized exercises (it is left unchanged). -/
def c3AmWorld : World :=
  { db := { exercises := [], exercisesNextId := 1, workouts := [], sets := [],
            templates := [{ id := 1, name := "A", exercises := [],
                            createdAt := 0, lastUsed := some 5,
                            synced := true }],
            templatesNextId := 2,
            scheduledWorkouts := [{ id := 1, templateId := 1,
                                    templateName := "B", date := "2025-01-01",
                                    notes := none, exercises := [],
                                    completed := false, synced := true }],
            scheduledNextId := 2, deletedItems := [],
            settings := { muscleGroups := none, equipment := none,
                          restTimerEnabled := none, restTimerDefault := none } },
    remote := { exercises := [],
                templates := [{ id := 10, local_id := "1", user_id := "u",
                                name := "A", exercises := [], created_at := 0,
                                updated_at := some 9 }],
                scheduledWorkouts :=
                  [{ id := 11, local_id := "1", user_id := "u",
                     template_name := "B", date := "2025-01-01",
                     notes := some "n", exercises := [], completed := true }],
                workouts := [], workoutSets := [], userSettings := [],
                nextId := 12 } }

/-- The fully-synced relation between the two stores as observed by a run at
time `now`: no pending tombstones, a canonical settings row stamped `now`,
every local exercise / template / scheduled workout mirrored by exactly one
remote row with the exact upload payload (templates stamped `updated_at =
now`), every user remote row matched back by a local record that the
download would leave unchanged, local timestamps not older than the cloud
ones, no unsynced completed workouts, and no local duplicates.  A
`fullCloudSync user now` run is the identity exactly on such worlds. -/
def syncedSettings (user : String) (now : Nat) (w : World) : Prop :=
  (w.remote.userSettings.map (fun r => r.id)).Nodup ∧
  ((w.remote.userSettings.filter (fun r => r.user_id == user)).map
    (fun r => (r.muscle_groups, r.equipment, r.rest_timer_enabled,
      r.rest_timer_seconds, r.updated_at)) =
   [(w.db.settings.muscleGroups, w.db.settings.equipment,
     w.db.settings.restTimerEnabled == some "true",
     w.db.settings.restTimerDefault.getD 90, now)]) ∧
  (w.db.settings.restTimerEnabled = some "true" ∨
    w.db.settings.restTimerEnabled = some "false") ∧
  w.db.settings.restTimerDefault.isSome = true

instance (user : String) (now : Nat) (w : World) :
    Decidable (syncedSettings user now w) := by
  unfold syncedSettings
  infer_instance

def syncedExercises (w : World) : Prop :=
  (∀ e ∈ w.db.exercises,
    (w.remote.exercises.filter (fun x => x.local_id == toString e.id)).map
      (fun r => (r.name, r.muscle_group, r.equipment)) =
    [(e.name, MuscleGroupField.arr e.muscleGroups, some e.equipment)]) ∧
  (∀ ce ∈ w.remote.exercises, ce.deleted = false →
    ((∃ le ∈ w.db.exercises, lowerStr le.name = lowerStr ce.name) ∧
     ∀ le ∈ w.db.exercises, lowerStr le.name = lowerStr ce.name →
       (le.muscleGroups = normalizeCloudMG ce.muscle_group ∧
        ce.equipment = some le.equipment)))

instance (w : World) : Decidable (syncedExercises w) := by
  unfold syncedExercises
  infer_instance

def syncedTemplates (user : String) (now : Nat) (w : World) : Prop :=
  (w.remote.templates.map (fun r => r.id)).Nodup ∧
  (w.db.templates.map (fun t => t.id)).Nodup ∧
  (w.db.templates.map (fun t => lowerStr t.name)).Nodup ∧
  (∀ t ∈ w.db.templates, t.synced = true ∧
    (w.remote.templates.filter
      (fun r => r.user_id == user && r.name == t.name)).map
      (fun r => (r.local_id, r.exercises, r.updated_at)) =
    [(toString t.id,
      convertExercisesToNamesForCloud w.db.exercises t.exercises,
      some now)]) ∧
  (∀ ct ∈ w.remote.templates, ct.user_id = user →
    ((∃ lt ∈ w.db.templates, lowerStr lt.name = lowerStr ct.name) ∧
     ∀ lt ∈ w.db.templates, lowerStr lt.name = lowerStr ct.name →
       ¬(lt.lastUsed.getD lt.createdAt < ct.updated_at.getD ct.created_at)))

instance (user : String) (now : Nat) (w : World) :
    Decidable (syncedTemplates user now w) := by
  unfold syncedTemplates
  infer_instance

def syncedScheduled (user : String) (w : World) : Prop :=
  (w.remote.scheduledWorkouts.map (fun r => r.id)).Nodup ∧
  (w.db.scheduledWorkouts.map (fun s => s.id)).Nodup ∧
  (w.db.scheduledWorkouts.map
    (fun s => s.date ++ "-" ++ lowerStr s.templateName)).Nodup ∧
  (∀ s ∈ w.db.scheduledWorkouts, s.synced = true ∧
    (w.remote.scheduledWorkouts.filter
      (fun r => r.user_id == user && r.date == s.date &&
        r.template_name == s.templateName)).map
      (fun r => (r.local_id, r.notes, r.exercises, r.completed)) =
    [(toString s.id, s.notes,
      convertExercisesToNamesForCloud w.db.exercises s.exercises,
      s.completed)]) ∧
  (∀ cw ∈ w.remote.scheduledWorkouts, cw.user_id = user →
    ((∃ lw ∈ w.db.scheduledWorkouts,
        lw.date ++ "-" ++ lowerStr lw.templateName =
        cw.date ++ "-" ++ lowerStr cw.template_name) ∧
     ∀ lw ∈ w.db.scheduledWorkouts,
       lw.date ++ "-" ++ lowerStr lw.templateName =
         cw.date ++ "-" ++ lowerStr cw.template_name →
       cw.exercises = lw.exercises))

instance (user : String) (w : World) : Decidable (syncedScheduled user w) := by
  unfold syncedScheduled
  infer_instance

def syncedWorkouts (w : World) : Prop :=
  ∀ wk ∈ w.db.workouts, wk.status = WorkoutStatus.completed →
    wk.synced = true

instance (w : World) : Decidable (syncedWorkouts w) := by
  unfold syncedWorkouts
  infer_instance

/-- The fully-synced relation between the two stores as observed by a run at
time `now`: no pending tombstones, a canonical settings row stamped `now`,
every local exercise / template / scheduled workout mirrored by exactly one
remote row holding the exact upload payload (templates stamped `updated_at =
now`), every user remote row matched back by a local record the download
leaves unchanged (local timestamps not older than the cloud ones, equal
serialized scheduled exercises), no unsynced completed workouts, and no
local duplicates.  A `fullCloudSync user now` run is the identity exactly on
such worlds. -/
def SyncedState (user : String) (now : Nat) (w : World) : Prop :=
  w.db.deletedItems = [] ∧
  syncedSettings user now w ∧
  syncedExercises w ∧
  syncedTemplates user now w ∧
  syncedScheduled user w ∧
  syncedWorkouts w

instance (user : String) (now : Nat) (w : World) :
    Decidable (SyncedState user now w) := by
  unfold SyncedState
  infer_instance

/-- The empty world on which the C2 counterexample runs `fullCloudSync`
twice, at times 1 and 2. -/
def c2World : World :=
  { db := { exercises := [], exercisesNextId := 1, workouts := [], sets := [],
            templates := [], templatesNextId := 1, scheduledWorkouts := [],
            scheduledNextId := 1, deletedItems := [],
            settings := { muscleGroups := none, equipment := none,
                          restTimerEnabled := none, restTimerDefault := none } },
    remote := { exercises := [], templates := [], scheduledWorkouts := [],
                workouts := [], workoutSets := [], userSettings := [],
                nextId := 1 } }

/-- A concrete world in `SyncedState "u" 5`: one exercise, one template and
one scheduled workout, each mirrored exactly by its remote row; canonical
settings row stamped 5; one synced completed workout. -/
def c2SyncedWorld : World :=
  { db := { exercises := [{ id := 1, name := "Bench",
                            muscleGroups := ["Chest"],
                            equipment := "Barbell" }],
            exercisesNextId := 2,
            workouts := [{ id := 1, name := "W", startTime := 0,
                           endTime := some 1, status := .completed,
                           synced := true }],
            sets := [],
            templates := [{ id := 1, name := "T",
                            exercises := [{ exerciseId := "1",
                                            exerciseName := none,
                                            instanceId := none, sets := [] }],
                            createdAt := 0, lastUsed := some 5,
                            synced := true }],
            templatesNextId := 2,
            scheduledWorkouts := [{ id := 1, templateId := 1,
                                    templateName := "T",
                                    date := "2025-01-01",
                                    notes := some "note",
                                    exercises := [{ exerciseId := "1",
                                                    exerciseName := some "Bench",
                                                    instanceId := none,
                                                    sets := [] }],
                                    completed := false, synced := true }],
            scheduledNextId := 2, deletedItems := [],
            settings := { muscleGroups := some ["Chest"],
                          equipment := some ["Barbell"],
                          restTimerEnabled := some "true",
                          restTimerDefault := some 60 } },
    remote := { exercises := [{ id := 2, local_id := "1", name := "Bench",
                                muscle_group := .arr ["Chest"],
                                equipment := some "Barbell",
                                deleted := false }],
                templates := [{ id := 3, local_id := "1", user_id := "u",
                                name := "T",
                                exercises := [{ exerciseId := "1",
                                                exerciseName := some "Bench",
                                                instanceId := none,
                                                sets := [] }],
                                created_at := 0, updated_at := some 5 }],
                scheduledWorkouts := [{ id := 4, local_id := "1",
                                        user_id := "u", template_name := "T",
                                        date := "2025-01-01",
                                        notes := some "note",
                                        exercises := [{ exerciseId := "1",
                                                        exerciseName := some "Bench",
                                                        instanceId := none,
                                                        sets := [] }],
                                        completed := false }],
                workouts := [], workoutSets := [],
                userSettings := [{ id := 5, user_id := "u",
                                   muscle_groups := some ["Chest"],
                                   equipment := some ["Barbell"],
                                   rest_timer_enabled := true,
                                   rest_timer_seconds := 60,
                                   updated_at := 5 }],
                nextId := 6 } }

-- ## General lemmas about the embedding's building blocks

theorem foldl_id {α β : Type} (f : β → α → β) (s : β) (l : List α)
    (h : ∀ x ∈ l, f s x = s) : l.foldl f s = s := by
  induction l with
  | nil => rfl
  | cons a l ih =>
    rw [List.foldl_cons, h a (List.mem_cons_self a l)]
    exact ih (fun x hx => h x (List.mem_cons_of_mem a hx))

theorem jsGet_eq_some_of_mem {β : Type} (ps : List (String × β)) (k : String)
    (v : β) (hnd : (ps.map Prod.fst).Nodup) (hmem : (k, v) ∈ ps) :
    jsGet ps k = some v := by
  have key : ∀ (l : List (String × β)), (l.map Prod.fst).Nodup → (k, v) ∈ l →
      l.find? (fun p => p.1 == k) = some (k, v) := by
    intro l
    induction l with
    | nil => intro _ h; cases h
    | cons a l ih =>
      intro hnd hmem
      rcases List.mem_cons.mp hmem with h | h
      · subst h
        simp [List.find?]
      · have ha : a.1 ≠ k := by
          intro hk
          have : k ∈ l.map Prod.fst := List.mem_map_of_mem Prod.fst h
          rw [List.map_cons, List.nodup_cons] at hnd
          exact hnd.1 (hk ▸ this)
        have hnd' : (l.map Prod.fst).Nodup := by
          rw [List.map_cons, List.nodup_cons] at hnd
          exact hnd.2
        simp only [List.find?]
        rw [show (a.1 == k) = false from beq_eq_false_iff_ne.mpr ha]
        exact ih hnd' h
  have h1 : (ps.reverse.map Prod.fst).Nodup := by
    rw [List.map_reverse]
    exact List.nodup_reverse.mpr hnd
  have h2 : (k, v) ∈ ps.reverse := List.mem_reverse.mpr hmem
  unfold jsGet
  rw [key ps.reverse h1 h2]
  rfl

theorem jsGet_mem {β : Type} (ps : List (String × β)) (k : String) (v : β)
    (h : jsGet ps k = some v) : (k, v) ∈ ps := by
  unfold jsGet at h
  cases hf : ps.reverse.find? (fun p => p.1 == k) with
  | none => rw [hf] at h; cases h
  | some p =>
    rw [hf] at h
    have hp : p ∈ ps.reverse := List.mem_of_find?_eq_some hf
    have hk : p.1 = k := by
      have := List.find?_some hf
      exact eq_of_beq this
    have hv : p.2 = v := by
      simpa using h
    have : p = (k, v) := Prod.ext hk hv
    rw [← this]
    exact List.mem_reverse.mp hp

theorem insertSortedBy_perm {α : Type} (lt : α → α → Bool) (a : α)
    (l : List α) : (insertSortedBy lt a l).Perm (a :: l) := by
  induction l with
  | nil => exact List.Perm.refl _
  | cons b l ih =>
    unfold insertSortedBy
    by_cases h : lt a b
    · rw [if_pos h]
    · rw [if_neg h]
      exact (List.Perm.cons b ih).trans (List.Perm.swap a b l)

theorem sortBy_perm {α : Type} (lt : α → α → Bool) (l : List α) :
    (sortBy lt l).Perm l := by
  induction l with
  | nil => exact List.Perm.refl _
  | cons a l ih =>
    unfold sortBy
    exact (insertSortedBy_perm lt a (sortBy lt l)).trans (List.Perm.cons a ih)

theorem mem_sortBy {α : Type} (lt : α → α → Bool) (l : List α) (x : α) :
    x ∈ sortBy lt l ↔ x ∈ l :=
  (sortBy_perm lt l).mem_iff

theorem find?_eq_some_of_filter_singleton {α : Type} (p : α → Bool)
    (l : List α) (r : α) (h : l.filter p = [r]) : l.find? p = some r := by
  induction l with
  | nil => simp at h
  | cons a l ih =>
    by_cases ha : p a
    · rw [List.filter_cons_of_pos ha] at h
      have har : a = r := (List.cons_eq_cons.mp h).1
      rw [List.find?_cons_of_pos _ ha, har]
    · rw [List.filter_cons_of_neg ha] at h
      rw [List.find?_cons_of_neg _ ha]
      exact ih h

-- ## Claim C5 (name round-trip through the cloud boundary)

/-- C5, counterexample.  For the one-exercise catalog (id 1, name "Bench")
and the singleton reference list with bare `exerciseId` "1", converting to
cloud form and back does not return the input unchanged: the cloud-inbound
converter keeps the `exerciseName` field that the outbound converter
attached, so the resulting entry differs from the original. -/
theorem C5_roundtrip_counterexample :
    convertExercisesFromCloud
      [{ id := 1, name := "Bench", muscleGroups := ["Chest"], equipment := "Barbell" }]
      (convertExercisesToNamesForCloud
        [{ id := 1, name := "Bench", muscleGroups := ["Chest"], equipment := "Barbell" }]
        [{ exerciseId := "1", exerciseName := none, instanceId := none, sets := [] }]) ≠
      [{ exerciseId := "1", exerciseName := none, instanceId := none, sets := [] }] := by
  decide

/-- C5, amended: on the same device, for an exercise `E` in the catalog with
a non-empty name, unique stringified id and catalog-unique case-insensitive
name, the round trip preserves the entry except that `exerciseName` is now
`some E.name`; in particular the `exerciseId` component is unchanged. -/
theorem C5_roundtrip_amended (cat : List Exercise) (E : Exercise)
    (inst : Option String) (sets : List TemplateSet)
    (hmem : E ∈ cat) (hname : E.name ≠ "")
    (hndName : (cat.map (fun e => lowerStr e.name)).Nodup)
    (hndId : (cat.map (fun e => toString e.id)).Nodup) :
    convertExercisesFromCloud cat
      (convertExercisesToNamesForCloud cat
        [{ exerciseId := toString E.id, exerciseName := none,
           instanceId := inst, sets := sets }]) =
      [{ exerciseId := toString E.id, exerciseName := some E.name,
         instanceId := inst, sets := sets }] := by
  have hpair1 : (toString E.id, E.name) ∈ cat.map (fun e => (toString e.id, e.name)) :=
    List.mem_map_of_mem (fun e => (toString e.id, e.name)) hmem
  have hkeys1 : ((cat.map (fun e => (toString e.id, e.name))).map Prod.fst).Nodup := by
    rw [List.map_map]
    exact hndId
  have hget1 : jsGet (cat.map (fun e => (toString e.id, e.name))) (toString E.id)
      = some E.name :=
    jsGet_eq_some_of_mem _ _ _ hkeys1 hpair1
  have hpair2 : (lowerStr E.name, toString E.id) ∈
      cat.map (fun e => (lowerStr e.name, toString e.id)) :=
    List.mem_map_of_mem (fun e => (lowerStr e.name, toString e.id)) hmem
  have hkeys2 : ((cat.map (fun e => (lowerStr e.name, toString e.id))).map Prod.fst).Nodup := by
    rw [List.map_map]
    exact hndName
  have hget2 : jsGet (cat.map (fun e => (lowerStr e.name, toString e.id))) (lowerStr E.name)
      = some (toString E.id) :=
    jsGet_eq_some_of_mem _ _ _ hkeys2 hpair2
  simp only [convertExercisesToNamesForCloud, List.map_cons, List.map_nil, hget1, jsOr]
  rw [if_neg hname]
  simp only [convertExercisesFromCloud, List.map_cons, List.map_nil]
  rw [if_neg hname, hget2]

/-- C5, witness for the amended round-trip theorem at the one-exercise
catalog. -/
theorem C5_roundtrip_amended_witness :
    convertExercisesFromCloud
      [{ id := 1, name := "Bench", muscleGroups := ["Chest"], equipment := "Barbell" }]
      (convertExercisesToNamesForCloud
        [{ id := 1, name := "Bench", muscleGroups := ["Chest"], equipment := "Barbell" }]
        [{ exerciseId := toString (1 : Nat), exerciseName := none,
           instanceId := none, sets := [] }]) =
      [{ exerciseId := toString (1 : Nat), exerciseName := some "Bench",
         instanceId := none, sets := [] }] :=
  C5_roundtrip_amended
    [{ id := 1, name := "Bench", muscleGroups := ["Chest"], equipment := "Barbell" }]
    { id := 1, name := "Bench", muscleGroups := ["Chest"], equipment := "Barbell" }
    none [] (by decide) (by decide) (by decide) (by decide)

-- ## Claim C6 (uploads always attach exercise names)

theorem foldl_invariant {α β : Type} (f : β → α → β) (P : β → Prop)
    (l : List α) (s : β) (h0 : P s)
    (hstep : ∀ b a, a ∈ l → P b → P (f b a)) : P (l.foldl f s) := by
  induction l generalizing s with
  | nil => exact h0
  | cons a l ih =>
    rw [List.foldl_cons]
    exact ih (f s a) (hstep s a (List.mem_cons_self a l) h0)
      (fun b x hx hb => hstep b x (List.mem_cons_of_mem a hx) hb)

theorem convert_payloadNameOk (cat : List Exercise)
    (exs : List TemplateExercise) :
    ∀ ex ∈ convertExercisesToNamesForCloud cat exs, payloadNameOk cat ex := by
  intro ex hex
  unfold convertExercisesToNamesForCloud at hex
  simp only [List.mem_map] at hex
  obtain ⟨ex0, _, rfl⟩ := hex
  cases hget : jsGet (cat.map (fun e => (toString e.id, e.name))) ex0.exerciseId with
  | none =>
    right
    simp [jsOr, hget]
  | some n =>
    by_cases hn : n = ""
    · right
      simp [jsOr, hget, hn]
    · left
      have hmem : (ex0.exerciseId, n) ∈ cat.map (fun e => (toString e.id, e.name)) :=
        jsGet_mem _ _ _ hget
      simp only [List.mem_map] at hmem
      obtain ⟨e, he, heq⟩ := hmem
      refine ⟨e, he, ?_, ?_, ?_⟩
      · exact congrArg Prod.fst heq
      · have : e.name = n := congrArg Prod.snd heq
        rw [this]; exact hn
      · have : e.name = n := congrArg Prod.snd heq
        simp [jsOr, hget, hn, this]

/-- C6, counterexample.  With a catalog whose only exercise (id 1) has the
empty string as its name, uploading a template that references id 1 writes
the fallback string as the payload `exerciseName`, even though a local
exercise with that id exists — refuting the claim that the payload name is
the referenced exercise's current local name whenever the id resolves. -/
theorem C6_payload_name_counterexample :
    ((syncTemplatesToSupabase "u" 1
        { db := { exercises := [{ id := 1, name := "", muscleGroups := ["Chest"],
                                  equipment := "Barbell" }],
                  exercisesNextId := 2, workouts := [], sets := [],
                  templates := [{ id := 1, name := "T",
                                  exercises := [{ exerciseId := "1", exerciseName := none,
                                                  instanceId := none, sets := [] }],
                                  createdAt := 0, lastUsed := none, synced := false }],
                  templatesNextId := 2, scheduledWorkouts := [], scheduledNextId := 1,
                  deletedItems := [],
                  settings := { muscleGroups := none, equipment := none,
                                restTimerEnabled := none, restTimerDefault := none } },
          remote := { exercises := [], templates := [], scheduledWorkouts := [],
                      workouts := [], workoutSets := [], userSettings := [],
                      nextId := 1 } }).1.remote.templates.map
        (fun r => r.exercises.map (fun ex => ex.exerciseName))) =
      [[some "Unknown Exercise"]] := by
  decide

/-- C6, amended: every remote template (and scheduled-workout) row after an
upload is either a pre-existing untouched row or carries, on every exercise
entry, an `exerciseName` that is the current local name of the referenced
exercise — unless no local exercise has that id or its name is the empty
string (JS falsiness), in which case it is the fixed fallback string. -/
theorem syncTemplatesStep_invariant (user : String) (now : Nat) (w : World)
    (acc : World × (Nat × Nat)) (t : WorkoutTemplate)
    (h : acc.1.db.exercises = w.db.exercises ∧
      ∀ r ∈ acc.1.remote.templates,
        r ∈ w.remote.templates ∨ ∀ ex ∈ r.exercises, payloadNameOk w.db.exercises ex) :
    (syncTemplatesStep user now acc t).1.db.exercises = w.db.exercises ∧
      ∀ r ∈ (syncTemplatesStep user now acc t).1.remote.templates,
        r ∈ w.remote.templates ∨ ∀ ex ∈ r.exercises, payloadNameOk w.db.exercises ex := by
  obtain ⟨hex, hrows⟩ := h
  unfold syncTemplatesStep
  cases hexist : acc.1.remote.templates.filter
      (fun r => r.user_id == user && r.name == t.name) with
  | cons first rest =>
    simp only [hexist]
    refine ⟨hex, ?_⟩
    intro r hr
    rw [hex] at hr
    have hmem : r ∈ acc.1.remote.templates.map (fun r =>
        if r.id = first.id then
          { r with local_id := toString t.id,
                   exercises := convertExercisesToNamesForCloud w.db.exercises t.exercises,
                   updated_at := some now }
        else r) := by
      by_cases hrest : rest.isEmpty
      · rw [if_pos hrest] at hr
        exact hr
      · rw [if_neg hrest] at hr
        exact List.mem_of_mem_filter hr
    rcases List.mem_map.mp hmem with ⟨r0, hr0, rfl⟩
    by_cases hid : r0.id = first.id
    · rw [if_pos hid]
      right
      intro ex hx
      exact convert_payloadNameOk _ _ ex hx
    · rw [if_neg hid]
      exact hrows r0 hr0
  | nil =>
    simp only [hexist]
    refine ⟨hex, ?_⟩
    intro r hr
    rw [hex] at hr
    rcases List.mem_append.mp hr with h | h
    · exact hrows r h
    · rcases List.mem_singleton.mp h with rfl
      right
      intro ex hx
      exact convert_payloadNameOk _ _ ex hx

theorem syncScheduledStep_invariant (user : String) (w : World)
    (acc : World × (Nat × Nat)) (s : ScheduledWorkout)
    (h : acc.1.db.exercises = w.db.exercises ∧
      ∀ r ∈ acc.1.remote.scheduledWorkouts,
        r ∈ w.remote.scheduledWorkouts ∨ ∀ ex ∈ r.exercises, payloadNameOk w.db.exercises ex) :
    (syncScheduledStep user acc s).1.db.exercises = w.db.exercises ∧
      ∀ r ∈ (syncScheduledStep user acc s).1.remote.scheduledWorkouts,
        r ∈ w.remote.scheduledWorkouts ∨ ∀ ex ∈ r.exercises, payloadNameOk w.db.exercises ex := by
  obtain ⟨hex, hrows⟩ := h
  unfold syncScheduledStep
  cases hexist : acc.1.remote.scheduledWorkouts.filter
      (fun r => r.user_id == user && r.date == s.date &&
        r.template_name == s.templateName) with
  | cons first rest =>
    simp only [hexist]
    refine ⟨hex, ?_⟩
    intro r hr
    rw [hex] at hr
    have hmem : r ∈ acc.1.remote.scheduledWorkouts.map (fun r =>
        if r.id = first.id then
          { r with local_id := toString s.id, notes := s.notes,
                   exercises := convertExercisesToNamesForCloud w.db.exercises s.exercises,
                   completed := s.completed }
        else r) := by
      by_cases hrest : rest.isEmpty
      · rw [if_pos hrest] at hr
        exact hr
      · rw [if_neg hrest] at hr
        exact List.mem_of_mem_filter hr
    rcases List.mem_map.mp hmem with ⟨r0, hr0, rfl⟩
    by_cases hid : r0.id = first.id
    · rw [if_pos hid]
      right
      intro ex hx
      exact convert_payloadNameOk _ _ ex hx
    · rw [if_neg hid]
      exact hrows r0 hr0
  | nil =>
    simp only [hexist]
    refine ⟨hex, ?_⟩
    intro r hr
    rw [hex] at hr
    rcases List.mem_append.mp hr with h | h
    · exact hrows r h
    · rcases List.mem_singleton.mp h with rfl
      right
      intro ex hx
      exact convert_payloadNameOk _ _ ex hx

theorem C6_upload_names_amended (user : String) (now : Nat) (w : World) :
    (∀ r ∈ (syncTemplatesToSupabase user now w).1.remote.templates,
      r ∈ w.remote.templates ∨ ∀ ex ∈ r.exercises, payloadNameOk w.db.exercises ex) ∧
    (∀ r ∈ (syncScheduledWorkoutsToSupabase user w).1.remote.scheduledWorkouts,
      r ∈ w.remote.scheduledWorkouts ∨ ∀ ex ∈ r.exercises, payloadNameOk w.db.exercises ex) := by
  constructor
  · have key := foldl_invariant (syncTemplatesStep user now)
      (fun v => v.1.db.exercises = w.db.exercises ∧
        ∀ r ∈ v.1.remote.templates,
          r ∈ w.remote.templates ∨ ∀ ex ∈ r.exercises, payloadNameOk w.db.exercises ex)
      w.db.templates (w, (0, 0))
      ⟨rfl, fun r hr => Or.inl hr⟩
      (fun b a _ hb => syncTemplatesStep_invariant user now w b a hb)
    exact key.2
  · have key := foldl_invariant (syncScheduledStep user)
      (fun v => v.1.db.exercises = w.db.exercises ∧
        ∀ r ∈ v.1.remote.scheduledWorkouts,
          r ∈ w.remote.scheduledWorkouts ∨ ∀ ex ∈ r.exercises, payloadNameOk w.db.exercises ex)
      w.db.scheduledWorkouts (w, (0, 0))
      ⟨rfl, fun r hr => Or.inl hr⟩
      (fun b a _ hb => syncScheduledStep_invariant user w b a hb)
    exact key.2

/-- C6, witness: the amended theorem applied to the row the upload inserts
for a one-template world whose catalog has exercise 5 named "Squat". -/
theorem C6_upload_names_amended_witness :
    c6Row ∈ c6WitnessWorld.remote.templates ∨
      ∀ ex ∈ c6Row.exercises, payloadNameOk c6WitnessWorld.db.exercises ex :=
  (C6_upload_names_amended "u" 3 c6WitnessWorld).1 c6Row (by decide)

-- ## Deletion-flush lemmas (shared by C1, C8, C9)

theorem syncDeletionsStep_deletedItems (o : DeletionOracle) (user : String)
    (acc : World × (Nat × Nat)) (item : DeletedItem) :
    (syncDeletionsStep o user acc item).1.db.deletedItems =
      if (tombstoneError o item).isSome then acc.1.db.deletedItems
      else acc.1.db.deletedItems.filter (fun d => !(d.id == item.id)) := by
  unfold syncDeletionsStep tombstoneError
  cases item.type with
  | template =>
    cases o.templateDeleteError item with
    | some c => simp
    | none => simp
  | scheduled_workout =>
    cases o.scheduledDeleteError item with
    | some c => simp
    | none => simp
  | exercise =>
    cases o.exerciseDeleteError item with
    | none => simp
    | some code =>
      by_cases hc : code = "23503"
      · subst hc
        cases o.exerciseSoftDeleteError item with
        | none => simp
        | some c2 => simp
      · simp [hc]

theorem syncDeletionsStep_counts (o : DeletionOracle) (user : String)
    (acc : World × (Nat × Nat)) (item : DeletedItem) :
    (syncDeletionsStep o user acc item).2 =
      if (tombstoneError o item).isSome then (acc.2.1, acc.2.2 + 1)
      else (acc.2.1 + 1, acc.2.2) := by
  unfold syncDeletionsStep tombstoneError
  cases item.type with
  | template =>
    cases o.templateDeleteError item with
    | some c => simp
    | none => simp
  | scheduled_workout =>
    cases o.scheduledDeleteError item with
    | some c => simp
    | none => simp
  | exercise =>
    cases o.exerciseDeleteError item with
    | none => simp
    | some code =>
      by_cases hc : code = "23503"
      · subst hc
        cases o.exerciseSoftDeleteError item with
        | none => simp
        | some c2 => simp
      · simp [hc]

theorem syncDeletions_foldl_deletedItems (o : DeletionOracle) (user : String)
    (l : List DeletedItem) :
    ∀ (acc : World × (Nat × Nat)),
      ((l.foldl (syncDeletionsStep o user) acc).1.db.deletedItems) =
        acc.1.db.deletedItems.filter
          (fun d => !(l.any (fun j => (tombstoneError o j).isNone && j.id == d.id))) := by
  induction l with
  | nil =>
    intro acc
    simp
  | cons j l ih =>
    intro acc
    rw [List.foldl_cons, ih]
    rw [syncDeletionsStep_deletedItems]
    cases hj : (tombstoneError o j).isSome with
    | true =>
      rw [if_pos rfl]
      apply List.filter_congr
      intro d _
      have hjn : (tombstoneError o j).isNone = false := by
        cases h : tombstoneError o j
        · rw [h] at hj; cases hj
        · simp [h]
      simp [List.any_cons, hjn]
    | false =>
      rw [if_neg Bool.false_ne_true]
      rw [List.filter_filter]
      apply List.filter_congr
      intro d _
      have hjn : (tombstoneError o j).isNone = true := by
        cases h : tombstoneError o j
        · simp [h]
        · rw [h] at hj; cases hj
      by_cases hdj : d.id = j.id
      · simp [List.any_cons, hjn, hdj]
      · have hdj' : j.id ≠ d.id := fun h => hdj h.symm
        simp [List.any_cons, hjn, Bool.not_or, Bool.and_comm,
          show (d.id == j.id) = false from beq_eq_false_iff_ne.mpr hdj,
          show (j.id == d.id) = false from beq_eq_false_iff_ne.mpr hdj']

theorem syncDeletions_deletedItems_eq (o : DeletionOracle) (user : String)
    (w : World) (hnd : (w.db.deletedItems.map (fun d => d.id)).Nodup) :
    (syncDeletionsToSupabase o user w).1.db.deletedItems =
      w.db.deletedItems.filter (fun item => (tombstoneError o item).isSome) := by
  unfold syncDeletionsToSupabase
  by_cases hemp : w.db.deletedItems.isEmpty
  · rw [if_pos hemp]
    have h0 : w.db.deletedItems = [] := List.isEmpty_iff.mp hemp
    rw [h0]
    rfl
  · rw [if_neg hemp]
    rw [syncDeletions_foldl_deletedItems]
    apply List.filter_congr
    intro d hd
    cases hsucc : (tombstoneError o d).isSome with
    | true =>
      rw [Bool.not_eq_true']
      rw [List.any_eq_false]
      intro j hj
      intro hcontra
      rw [Bool.and_eq_true] at hcontra
      have hid : j.id = d.id := by simpa using hcontra.2
      have hjd : j = d :=
        List.inj_on_of_nodup_map hnd hj hd hid
      subst hjd
      have hnone : tombstoneError o j = none :=
        Option.isNone_iff_eq_none.mp hcontra.1
      simp [hnone] at hsucc
    | false =>
      have hdn : (tombstoneError o d).isNone = true := by
        cases h : tombstoneError o d
        · simp
        · rw [h] at hsucc; cases hsucc
      have hP : (fun j => (tombstoneError o j).isNone && j.id == d.id) d = true := by
        simp [hdn]
      have hany : (w.db.deletedItems.any
          (fun j => (tombstoneError o j).isNone && j.id == d.id)) = true :=
        List.any_eq_true.mpr ⟨d, hd, hP⟩
      simp [hany]

-- ## Claim C1 (tombstone removed iff remote deletion succeeded)

/-- C1: after a deletion flush, a tombstone remains in the local
`deletedItems` collection exactly when its remote deletion (with the
soft-delete fallback for exercises) reported an error: the final collection
is the initial one filtered to the tombstones whose effective outcome was an
error, so each tombstone is removed iff its remote deletion succeeded and is
retried on the next flush otherwise. -/
theorem C1_tombstone_kept_iff_error (o : DeletionOracle) (user : String)
    (w : World) (hnd : (w.db.deletedItems.map (fun d => d.id)).Nodup) :
    (syncDeletionsToSupabase o user w).1.db.deletedItems =
      w.db.deletedItems.filter (fun item => (tombstoneError o item).isSome) :=
  syncDeletions_deletedItems_eq o user w hnd

/-- C1, witness: the kept-iff-error characterization at a three-tombstone
world where one template deletion fails, one succeeds, and an exercise
deletion soft-deletes after a referential-integrity error. -/
theorem C1_tombstone_kept_iff_error_witness :
    (syncDeletionsToSupabase c1Oracle "u" c1World).1.db.deletedItems =
      c1World.db.deletedItems.filter
        (fun item => (tombstoneError c1Oracle item).isSome) :=
  C1_tombstone_kept_iff_error c1Oracle "u" c1World (by decide)

-- ## Claim C9 (template tombstones delete remotely by local_id, not name)

/-- C9, counterexample.  In `c9World` the template "Push Day" was deleted
locally; its tombstone records local id 1, but the remote row (same user,
same name) carries another device's tag `local_id` 2.  The flush deletes
nothing remotely — the row named "Push Day" survives — yet the tombstone is
removed and reported synced, refuting the claim that remote template rows
are removed by case-insensitive name match. -/
theorem C9_tombstone_counterexample :
    ((syncDeletionsToSupabase noDeletionErrors "u" c9World).1.remote.templates.map
        (fun r => r.name)) = ["Push Day"] ∧
      (syncDeletionsToSupabase noDeletionErrors "u" c9World).1.db.deletedItems = [] := by
  decide

/-- C9, amended: flushing a single template tombstone removes from the
remote store exactly the template rows of the current user whose `local_id`
tag equals the stringified tombstoned local id (rows that merely share the
name survive), and the local tombstone collection is empty afterwards. -/
theorem C9_tombstone_amended (user : String) (w : World) (item : DeletedItem)
    (hitems : w.db.deletedItems = [item])
    (htype : item.type = DeletedItemType.template) :
    (syncDeletionsToSupabase noDeletionErrors user w).1.remote.templates =
      w.remote.templates.filter
        (fun r => !(r.user_id == user && r.local_id == toString item.localId)) ∧
    (syncDeletionsToSupabase noDeletionErrors user w).1.db.deletedItems = [] := by
  unfold syncDeletionsToSupabase
  rw [hitems]
  rw [if_neg (by exact Bool.false_ne_true)]
  rw [List.foldl_cons, List.foldl_nil]
  unfold syncDeletionsStep
  rw [htype]
  unfold noDeletionErrors
  simp
  intro a ha
  rw [hitems] at ha
  rcases List.mem_singleton.mp ha with rfl
  rfl

/-- C9, witness for the amended single-tombstone theorem, at `c9World`. -/
theorem C9_tombstone_amended_witness :
    (syncDeletionsToSupabase noDeletionErrors "u" c9World).1.remote.templates =
      c9World.remote.templates.filter
        (fun r => !(r.user_id == "u" && r.local_id == toString (1 : Nat))) ∧
    (syncDeletionsToSupabase noDeletionErrors "u" c9World).1.db.deletedItems = [] :=
  C9_tombstone_amended "u" c9World
    { id := 1, type := .template, localId := 1, name := some "Push Day",
      date := none, deletedAt := 0 }
    (by decide) (by decide)

-- ## Claim C8 (referential-integrity fallback to soft delete)

theorem syncDeletions_foldl_counts (o : DeletionOracle) (user : String)
    (l : List DeletedItem) :
    ∀ (acc : World × (Nat × Nat)),
      (l.foldl (syncDeletionsStep o user) acc).2 =
        (acc.2.1 + l.countP (fun d => (tombstoneError o d).isNone),
         acc.2.2 + l.countP (fun d => (tombstoneError o d).isSome)) := by
  induction l with
  | nil =>
    intro acc
    simp
  | cons j l ih =>
    intro acc
    rw [List.foldl_cons, ih, syncDeletionsStep_counts]
    cases hj : (tombstoneError o j).isSome with
    | true =>
      rw [if_pos rfl]
      have hjn : (tombstoneError o j).isNone = false := by
        cases h : tombstoneError o j
        · rw [h] at hj; cases hj
        · simp [h]
      refine Prod.ext ?_ ?_ <;> simp [List.countP_cons, hj, hjn] <;> omega
    | false =>
      rw [if_neg Bool.false_ne_true]
      have hjn : (tombstoneError o j).isNone = true := by
        cases h : tombstoneError o j
        · simp [h]
        · rw [h] at hj; cases hj
      refine Prod.ext ?_ ?_ <;> simp [List.countP_cons, hj, hjn] <;> omega

theorem syncDeletionsStep_exercises (o : DeletionOracle) (user : String)
    (acc : World × (Nat × Nat)) (item : DeletedItem) :
    (syncDeletionsStep o user acc item).1.remote.exercises =
      if item.type = DeletedItemType.exercise then
        match o.exerciseDeleteError item with
        | none =>
          acc.1.remote.exercises.filter
            (fun e => !(e.local_id == toString item.localId))
        | some code =>
          if code = "23503" ∧ o.exerciseSoftDeleteError item = none then
            acc.1.remote.exercises.map (fun e =>
              if e.local_id = toString item.localId
                then { e with deleted := true } else e)
          else acc.1.remote.exercises
      else acc.1.remote.exercises := by
  unfold syncDeletionsStep
  cases htype : item.type with
  | template =>
    cases o.templateDeleteError item with
    | some c => simp
    | none => simp
  | scheduled_workout =>
    cases o.scheduledDeleteError item with
    | some c => simp
    | none => simp
  | exercise =>
    cases h1 : o.exerciseDeleteError item with
    | none => simp
    | some code =>
      by_cases hc : code = "23503"
      · subst hc
        cases h2 : o.exerciseSoftDeleteError item with
        | none => simp
        | some c2 => simp
      · simp [hc]

theorem syncDeletionsStep_preserves_softflag (o : DeletionOracle)
    (user : String) (lid : String) (acc : World × (Nat × Nat))
    (item : DeletedItem)
    (h : ∀ r ∈ acc.1.remote.exercises, r.local_id = lid → r.deleted = true) :
    ∀ r ∈ (syncDeletionsStep o user acc item).1.remote.exercises,
      r.local_id = lid → r.deleted = true := by
  intro r hr
  rw [syncDeletionsStep_exercises] at hr
  by_cases ht : item.type = DeletedItemType.exercise
  · rw [if_pos ht] at hr
    cases h1 : o.exerciseDeleteError item with
    | none =>
      rw [h1] at hr
      exact h r (List.mem_of_mem_filter hr)
    | some code =>
      rw [h1] at hr
      simp only [] at hr
      by_cases hcs : code = "23503" ∧ o.exerciseSoftDeleteError item = none
      · rw [if_pos hcs] at hr
        rcases List.mem_map.mp hr with ⟨r0, hr0, rfl⟩
        by_cases h0 : r0.local_id = toString item.localId
        · rw [if_pos h0]
          intro _
          rfl
        · rw [if_neg h0]
          exact h r0 hr0
      · rw [if_neg hcs] at hr
        exact h r hr
  · rw [if_neg ht] at hr
    exact h r hr

theorem syncDeletionsStep_sets_softflag (o : DeletionOracle) (user : String)
    (acc : World × (Nat × Nat)) (item : DeletedItem)
    (htype : item.type = DeletedItemType.exercise)
    (hhard : o.exerciseDeleteError item = some "23503")
    (hsoft : o.exerciseSoftDeleteError item = none) :
    ∀ r ∈ (syncDeletionsStep o user acc item).1.remote.exercises,
      r.local_id = toString item.localId → r.deleted = true := by
  intro r hr
  rw [syncDeletionsStep_exercises, if_pos htype, hhard] at hr
  simp only [] at hr
  rw [if_pos ⟨trivial, hsoft⟩] at hr
  rcases List.mem_map.mp hr with ⟨r0, hr0, rfl⟩
  by_cases h0 : r0.local_id = toString item.localId
  · rw [if_pos h0]
    intro _
    rfl
  · rw [if_neg h0]
    intro hrl
    exact absurd hrl h0

theorem syncDeletions_foldl_softflag (o : DeletionOracle) (user : String)
    (l : List DeletedItem) (item : DeletedItem) (hmem : item ∈ l)
    (htype : item.type = DeletedItemType.exercise)
    (hhard : o.exerciseDeleteError item = some "23503")
    (hsoft : o.exerciseSoftDeleteError item = none) :
    ∀ (acc : World × (Nat × Nat)),
      ∀ r ∈ ((l.foldl (syncDeletionsStep o user) acc).1.remote.exercises),
        r.local_id = toString item.localId → r.deleted = true := by
  induction l with
  | nil => cases hmem
  | cons j l ih =>
    intro acc
    rcases List.mem_cons.mp hmem with rfl | hmem'
    · rw [List.foldl_cons]
      exact foldl_invariant (syncDeletionsStep o user)
        (fun v => ∀ r ∈ v.1.remote.exercises,
          r.local_id = toString item.localId → r.deleted = true)
        l _
        (syncDeletionsStep_sets_softflag o user acc item htype hhard hsoft)
        (fun b a _ hb =>
          syncDeletionsStep_preserves_softflag o user (toString item.localId) b a hb)
    · rw [List.foldl_cons]
      exact ih hmem' _

/-- C8: for an exercise tombstone whose remote hard delete fails with the
referential-integrity code 23503, the flush retries as a soft delete: when
the soft delete succeeds, the tombstone is removed and every remote exercise
row carrying the tombstoned `local_id` has its `deleted` flag set; when the
soft delete fails, or the hard delete fails with any other code, the
tombstone stays.  The returned counters report exactly the tombstones whose
effective outcome (after the fallback) was success as synced and the rest as
failed. -/
theorem C8_exercise_soft_delete_fallback (o : DeletionOracle) (user : String)
    (w : World) (item : DeletedItem) (hmem : item ∈ w.db.deletedItems)
    (htype : item.type = DeletedItemType.exercise)
    (hnd : (w.db.deletedItems.map (fun d => d.id)).Nodup) :
    ((syncDeletionsToSupabase o user w).2 =
      (w.db.deletedItems.countP (fun d => (tombstoneError o d).isNone),
       w.db.deletedItems.countP (fun d => (tombstoneError o d).isSome))) ∧
    (o.exerciseDeleteError item = some "23503" →
      o.exerciseSoftDeleteError item = none →
      (item ∉ (syncDeletionsToSupabase o user w).1.db.deletedItems ∧
        ∀ r ∈ (syncDeletionsToSupabase o user w).1.remote.exercises,
          r.local_id = toString item.localId → r.deleted = true)) ∧
    (∀ c, o.exerciseDeleteError item = some c → c ≠ "23503" →
      item ∈ (syncDeletionsToSupabase o user w).1.db.deletedItems) ∧
    (o.exerciseDeleteError item = some "23503" →
      ∀ c, o.exerciseSoftDeleteError item = some c →
      item ∈ (syncDeletionsToSupabase o user w).1.db.deletedItems) := by
  have hne : ¬(w.db.deletedItems.isEmpty = true) := by
    cases h : w.db.deletedItems with
    | nil => rw [h] at hmem; cases hmem
    | cons a l => simp [h]
  refine ⟨?_, ?_, ?_, ?_⟩
  · unfold syncDeletionsToSupabase
    rw [if_neg hne, syncDeletions_foldl_counts]
    simp
  · intro hhard hsoft
    have herr : tombstoneError o item = none := by
      simp [tombstoneError, htype, hhard, hsoft]
    constructor
    · rw [syncDeletions_deletedItems_eq o user w hnd]
      intro hcontra
      have := (List.mem_filter.mp hcontra).2
      rw [herr] at this
      cases this
    · unfold syncDeletionsToSupabase
      rw [if_neg hne]
      exact syncDeletions_foldl_softflag o user w.db.deletedItems item hmem
        htype hhard hsoft (w, (0, 0))
  · intro c hhard hc
    have herr : tombstoneError o item = some c := by
      simp [tombstoneError, htype, hhard, hc]
    rw [syncDeletions_deletedItems_eq o user w hnd]
    refine List.mem_filter.mpr ⟨hmem, ?_⟩
    rw [herr]
    rfl
  · intro hhard c hsoft
    have herr : tombstoneError o item = some c := by
      simp [tombstoneError, htype, hhard, hsoft]
    rw [syncDeletions_deletedItems_eq o user w hnd]
    refine List.mem_filter.mpr ⟨hmem, ?_⟩
    rw [herr]
    rfl

/-- C8, witness: the soft-delete branch of the theorem at `c8World` with the
referential-integrity oracle — the tombstone is gone and the remote row
carrying the tombstoned tag is flagged deleted. -/
theorem C8_exercise_soft_delete_fallback_witness :
    c8Item ∉ (syncDeletionsToSupabase c8Oracle "u" c8World).1.db.deletedItems ∧
      ∀ r ∈ (syncDeletionsToSupabase c8Oracle "u" c8World).1.remote.exercises,
        r.local_id = toString c8Item.localId → r.deleted = true :=
  (C8_exercise_soft_delete_fallback c8Oracle "u" c8World c8Item
    (by decide) (by decide) (by decide)).2.1 rfl rfl

-- ## Claim C10 (successful workout sync prunes local history)

theorem getSupabaseExerciseId_db (lid : String) (w : World) :
    (getSupabaseExerciseId lid w).1.db = w.db := by
  unfold getSupabaseExerciseId
  cases h1 : w.remote.exercises.find? (fun e => e.local_id == lid) with
  | some row => rfl
  | none =>
    cases h2 : w.db.exercises.find? (fun e => toString e.id == lid) with
    | none => rfl
    | some le => rfl

theorem buildSetsStep_db (wid : Nat) (acc : World × List RemoteWorkoutSet)
    (s : WorkoutSet) : (buildSetsStep wid acc s).1.db = acc.1.db := by
  unfold buildSetsStep
  have hdb := getSupabaseExerciseId_db s.exerciseId acc.1
  cases hg : getSupabaseExerciseId s.exerciseId acc.1 with
  | mk w' rid =>
    rw [hg] at hdb
    cases rid with
    | none => exact hdb
    | some eid => exact hdb

theorem buildSets_foldl_db (wid : Nat) (sets : List WorkoutSet) :
    ∀ (acc : World × List RemoteWorkoutSet),
      (sets.foldl (buildSetsStep wid) acc).1.db = acc.1.db := by
  induction sets with
  | nil => intro acc; rfl
  | cons s sets ih =>
    intro acc
    rw [List.foldl_cons, ih]
    exact buildSetsStep_db wid acc s

theorem cleanup_foldl_workouts (ds : List Workout) :
    ∀ (db : LocalDB), (ds.foldl cleanupDeleteStep db).workouts =
      db.workouts.filter
        (fun x => !(ds.any (fun d => (!(d.id == 0)) && x.id == d.id))) := by
  induction ds with
  | nil => intro db; simp
  | cons d ds ih =>
    intro db
    rw [List.foldl_cons, ih]
    unfold cleanupDeleteStep
    by_cases hd : d.id = 0
    · rw [if_pos hd]
      apply List.filter_congr
      intro x _
      simp [List.any_cons, hd]
    · rw [if_neg hd]
      simp only
      rw [List.filter_filter]
      apply List.filter_congr
      intro x _
      by_cases hx : x.id = d.id
      · simp [List.any_cons, hd, hx]
      · simp [List.any_cons, hd, hx, Bool.not_or, Bool.and_comm,
          show (d.id == 0) = false from beq_eq_false_iff_ne.mpr hd]

theorem countP_and_le {α : Type} (c k : α → Bool) (L S : List α) (n : Nat)
    (hperm : S.Perm (L.filter c)) (hzero : ∀ d ∈ S.drop n, k d = false) :
    L.countP (fun a => c a && k a) ≤ n := by
  have h1 : L.countP (fun a => c a && k a) = (L.filter c).countP k := by
    rw [List.countP_filter]
    congr 1
    funext a
    exact Bool.and_comm _ _
  have h2 : (L.filter c).countP k = S.countP k := (hperm.countP_eq k).symm
  have h3 : S.countP k = (S.take n).countP k + (S.drop n).countP k := by
    conv_lhs => rw [← List.take_append_drop n S]
    rw [List.countP_append]
  have h4 : (S.drop n).countP k = 0 := by
    rw [List.countP_eq_zero]
    intro a ha
    simp [hzero a ha]
  have h5 : (S.take n).countP k ≤ (S.take n).length := List.countP_le_length _
  have h6 : (S.take n).length ≤ n := by
    rw [List.length_take]
    exact Nat.min_le_left _ _
  omega

theorem cleanupOldWorkouts_completed_le (db : LocalDB)
    (hids : ∀ wk ∈ db.workouts, wk.id ≠ 0) :
    ((cleanupOldWorkouts 5 db).workouts.filter
      (fun wk => wk.status == WorkoutStatus.completed)).length ≤ 5 := by
  unfold cleanupOldWorkouts
  have hperm := sortBy_perm (fun a b => (b.endTime.getD 0) < (a.endTime.getD 0))
    (db.workouts.filter (fun w => w.status == WorkoutStatus.completed))
  by_cases hlen : 5 < (sortBy (fun a b => (b.endTime.getD 0) < (a.endTime.getD 0))
      (db.workouts.filter (fun w => w.status == WorkoutStatus.completed))).length
  · rw [if_pos hlen]
    simp only
    rw [cleanup_foldl_workouts]
    rw [← List.countP_eq_length_filter, List.countP_filter]
    apply countP_and_le _ _ _
      (sortBy (fun a b => (b.endTime.getD 0) < (a.endTime.getD 0))
        (db.workouts.filter (fun w => w.status == WorkoutStatus.completed))) 5 hperm
    intro d hd
    have hdS : d ∈ sortBy (fun a b => (b.endTime.getD 0) < (a.endTime.getD 0))
        (db.workouts.filter (fun w => w.status == WorkoutStatus.completed)) :=
      List.mem_of_mem_drop hd
    have hdL : d ∈ db.workouts :=
      List.mem_of_mem_filter (hperm.subset hdS)
    have hid0 : d.id ≠ 0 := hids d hdL
    have hany : (((sortBy (fun a b => (b.endTime.getD 0) < (a.endTime.getD 0))
        (db.workouts.filter (fun w => w.status == WorkoutStatus.completed))).drop 5).any
          (fun x => (!(x.id == 0)) && d.id == x.id)) = true :=
      List.any_eq_true.mpr ⟨d, hd, by simp [hid0]⟩
    simp [hany]
  · rw [if_neg hlen]
    have hl := hperm.length_eq
    omega

theorem syncToSupabase_spec (o : WorkoutSyncOracle) (workoutId : Nat) (w : World) :
    (fun res : World × Bool =>
      (res.2 = false → res.1.db = w.db) ∧
      (res.2 = true →
        res.1.db = cleanupOldWorkouts 5 (markWorkoutSynced workoutId w.db)))
    (syncToSupabase o workoutId w) := by
  unfold syncToSupabase
  cases hfind : w.db.workouts.find? (fun wk => wk.id == workoutId) with
  | none => exact ⟨fun _ => rfl, fun h => by cases h⟩
  | some workout =>
    simp only []
    split
    · exact ⟨fun _ => rfl, fun h => by cases h⟩
    · split
      · exact ⟨fun _ => rfl, fun h => by cases h⟩
      · split
        · exact ⟨fun _ => buildSets_foldl_db _ _ _, fun h => by cases h⟩
        · split
          · exact ⟨fun _ => buildSets_foldl_db _ _ _, fun h => by cases h⟩
          · refine ⟨(fun h => nomatch h), fun _ => ?_⟩
            show cleanupOldWorkouts 5 _ = _
            rw [buildSets_foldl_db]
            rfl

theorem markWorkoutSynced_ids (workoutId : Nat) (db : LocalDB)
    (hids : ∀ wk ∈ db.workouts, wk.id ≠ 0) :
    ∀ wk ∈ (markWorkoutSynced workoutId db).workouts, wk.id ≠ 0 := by
  intro wk hwk
  unfold markWorkoutSynced at hwk
  rcases List.mem_map.mp hwk with ⟨wk0, hwk0, rfl⟩
  by_cases h0 : wk0.id = workoutId
  · rw [if_pos h0]
    exact hids wk0 hwk0
  · rw [if_neg h0]
    exact hids wk0 hwk0

/-- C10: a successful single-workout sync leaves the local store equal to
the pruned store: the workout is marked synced and then all but the 5 most
recent completed workouts are deleted together with their sets (so at most 5
completed workouts remain, when ids are well-formed); a sync that returns
`false` leaves the whole local store — in particular the workout and set
collections — unchanged. -/
theorem C10_sync_prunes_history (o : WorkoutSyncOracle) (workoutId : Nat)
    (w : World) :
    ((syncToSupabase o workoutId w).2 = true →
      (syncToSupabase o workoutId w).1.db =
        cleanupOldWorkouts 5 (markWorkoutSynced workoutId w.db) ∧
      ((∀ wk ∈ w.db.workouts, wk.id ≠ 0) →
        ((syncToSupabase o workoutId w).1.db.workouts.filter
          (fun wk => wk.status == WorkoutStatus.completed)).length ≤ 5)) ∧
    ((syncToSupabase o workoutId w).2 = false →
      (syncToSupabase o workoutId w).1.db = w.db) := by
  have hspec := syncToSupabase_spec o workoutId w
  refine ⟨fun htrue => ⟨hspec.2 htrue, fun hids => ?_⟩, fun hfalse => hspec.1 hfalse⟩
  rw [hspec.2 htrue]
  exact cleanupOldWorkouts_completed_le (markWorkoutSynced workoutId w.db)
    (markWorkoutSynced_ids workoutId w.db hids)

/-- C10, witness: at `c10World` the sync of workout 1 succeeds and the local
store equals the mark-synced-then-prune-to-5 state. -/
theorem C10_sync_prunes_history_witness :
    (syncToSupabase noWorkoutErrors 1 c10World).1.db =
      cleanupOldWorkouts 5 (markWorkoutSynced 1 c10World.db) ∧
    ((syncToSupabase noWorkoutErrors 1 c10World).1.db.workouts.filter
      (fun wk => wk.status == WorkoutStatus.completed)).length ≤ 5 :=
  have h := (C10_sync_prunes_history noWorkoutErrors 1 c10World).1 (by decide)
  ⟨h.1, h.2 (by decide)⟩

-- ## Claim C7 (upload collapses remote natural-key duplicates)

theorem map_eq_self_of_forall {α : Type} (f : α → α) (l : List α)
    (h : ∀ a ∈ l, f a = a) : l.map f = l := by
  induction l with
  | nil => rfl
  | cons a l ih =>
    rw [List.map_cons, h a (List.mem_cons_self a l)]
    rw [ih (fun x hx => h x (List.mem_cons_of_mem a hx))]

theorem syncTemplatesStep_inv (user : String) (now : Nat)
    (acc : World × (Nat × Nat)) (t : WorkoutTemplate)
    (hinv : remoteTmplInv acc.1.remote) :
    remoteTmplInv (syncTemplatesStep user now acc t).1.remote := by
  obtain ⟨hnd, hbound⟩ := hinv
  unfold syncTemplatesStep
  cases hexist : acc.1.remote.templates.filter
      (fun r => r.user_id == user && r.name == t.name) with
  | nil =>
    simp only [hexist]
    constructor
    · rw [List.map_append]
      rw [List.nodup_append]
      refine ⟨hnd, List.nodup_singleton _, ?_⟩
      intro a ha hb
      rcases List.mem_map.mp ha with ⟨r, hr, rfl⟩
      have hb' : r.id = acc.1.remote.nextId := by
        simpa using hb
      exact absurd hb' (Nat.ne_of_lt (hbound r hr))
    · intro r hr
      rcases List.mem_append.mp hr with h | h
      · exact Nat.lt_succ_of_lt (hbound r h)
      · rcases List.mem_singleton.mp h with rfl
        exact Nat.lt_succ_self _
  | cons first rest =>
    simp only [hexist]
    have hmapid : (acc.1.remote.templates.map (fun r =>
        if r.id = first.id then
          { r with local_id := toString t.id,
                   exercises := convertExercisesToNamesForCloud acc.1.db.exercises t.exercises,
                   updated_at := some now }
        else r)).map (fun r => r.id) =
        acc.1.remote.templates.map (fun r => r.id) := by
      rw [List.map_map]
      apply List.map_congr_left
      intro r _
      by_cases h : r.id = first.id
      · simp [h]
      · simp [h]
    by_cases hrest : rest.isEmpty
    · rw [if_pos hrest]
      constructor
      · rw [hmapid]; exact hnd
      · intro r hr
        rcases List.mem_map.mp hr with ⟨r0, hr0, rfl⟩
        by_cases h : r0.id = first.id
        · rw [if_pos h]
          exact hbound r0 hr0
        · rw [if_neg h]
          exact hbound r0 hr0
    · rw [if_neg hrest]
      constructor
      · exact List.Nodup.sublist
          (List.Sublist.map (fun (r : RemoteTemplate) => r.id) (List.filter_sublist _))
          (by rw [hmapid]; exact hnd)
      · intro r hr
        have hr' := List.mem_of_mem_filter hr
        rcases List.mem_map.mp hr' with ⟨r0, hr0, rfl⟩
        by_cases h : r0.id = first.id
        · rw [if_pos h]
          exact hbound r0 hr0
        · rw [if_neg h]
          exact hbound r0 hr0

theorem filter_comm_helper {α : Type} (p q : α → Bool) (l : List α) :
    (l.filter q).filter p = (l.filter p).filter q := by
  rw [List.filter_filter, List.filter_filter]
  exact List.filter_congr (fun a _ => Bool.and_comm _ _)

theorem syncTemplatesStep_filter_ne (user : String) (now : Nat)
    (acc : World × (Nat × Nat)) (t : WorkoutTemplate) (name : String)
    (hinv : remoteTmplInv acc.1.remote) (hne : t.name ≠ name) :
    (syncTemplatesStep user now acc t).1.remote.templates.filter
        (fun r => r.user_id == user && r.name == name) =
      acc.1.remote.templates.filter
        (fun r => r.user_id == user && r.name == name) := by
  obtain ⟨hnd, hbound⟩ := hinv
  unfold syncTemplatesStep
  cases hexist : acc.1.remote.templates.filter
      (fun r => r.user_id == user && r.name == t.name) with
  | nil =>
    simp only [hexist]
    rw [List.filter_append]
    have hne' : (t.name == name) = false := beq_eq_false_iff_ne.mpr hne
    simp [hne']
  | cons first rest =>
    have hfirstPt : first ∈ acc.1.remote.templates.filter
        (fun r => r.user_id == user && r.name == t.name) := by
      rw [hexist]
      exact List.mem_cons_self _ _
    have hfirstmem := List.mem_of_mem_filter hfirstPt
    have hfirstname : first.name = t.name := by
      have h2 := (List.mem_filter.mp hfirstPt).2
      rw [Bool.and_eq_true] at h2
      exact eq_of_beq h2.2
    have hup : ((acc.1.remote.templates.map (fun r =>
        if r.id = first.id then
          { r with local_id := toString t.id,
                   exercises := convertExercisesToNamesForCloud acc.1.db.exercises t.exercises,
                   updated_at := some now }
        else r)).filter (fun r => r.user_id == user && r.name == name)) =
        acc.1.remote.templates.filter (fun r => r.user_id == user && r.name == name) := by
      rw [List.filter_map]
      have h1 : acc.1.remote.templates.filter
          ((fun (r : RemoteTemplate) => r.user_id == user && r.name == name) ∘ (fun r =>
            if r.id = first.id then
              { r with local_id := toString t.id,
                       exercises := convertExercisesToNamesForCloud acc.1.db.exercises t.exercises,
                       updated_at := some now }
            else r)) =
          acc.1.remote.templates.filter (fun r => r.user_id == user && r.name == name) := by
        apply List.filter_congr
        intro r _
        by_cases h : r.id = first.id
        · simp [Function.comp, h]
        · simp [Function.comp, h]
      rw [h1]
      apply map_eq_self_of_forall
      intro r hr
      have hPr := (List.mem_filter.mp hr).2
      rw [Bool.and_eq_true] at hPr
      have hrname : r.name = name := eq_of_beq hPr.2
      have hrid : r.id ≠ first.id := by
        intro hid
        have hre : r = first :=
          List.inj_on_of_nodup_map hnd (List.mem_of_mem_filter hr) hfirstmem hid
        apply hne
        rw [← hfirstname, ← hre]
        exact hrname
      rw [if_neg hrid]
    simp only [hexist]
    by_cases hrest : rest.isEmpty
    · rw [if_pos hrest]
      exact hup
    · rw [if_neg hrest]
      rw [filter_comm_helper, hup]
      apply List.filter_eq_self.mpr
      intro r hr
      have hPr := (List.mem_filter.mp hr).2
      rw [Bool.and_eq_true] at hPr
      have hrname : r.name = name := eq_of_beq hPr.2
      have hnotin : r.id ∉ rest.map (fun e => e.id) := by
        intro hin
        rcases List.mem_map.mp hin with ⟨r', hr', hid⟩
        have hr'Pt : r' ∈ acc.1.remote.templates.filter
            (fun x => x.user_id == user && x.name == t.name) := by
          rw [hexist]
          exact List.mem_cons_of_mem _ hr'
        have hre : r' = r :=
          List.inj_on_of_nodup_map hnd (List.mem_of_mem_filter hr'Pt)
            (List.mem_of_mem_filter hr) hid
        have h2 := (List.mem_filter.mp hr'Pt).2
        rw [Bool.and_eq_true] at h2
        have : r.name = t.name := by
          rw [← hre]
          exact eq_of_beq h2.2
        exact hne (by rw [← this, hrname])
      simpa using hnotin

theorem syncTemplatesStep_filter_self_nil (user : String) (now : Nat)
    (acc : World × (Nat × Nat)) (t : WorkoutTemplate)
    (hnil : acc.1.remote.templates.filter
      (fun r => r.user_id == user && r.name == t.name) = []) :
    (syncTemplatesStep user now acc t).1.remote.templates.filter
        (fun r => r.user_id == user && r.name == t.name) =
      [{ id := acc.1.remote.nextId, local_id := toString t.id, user_id := user,
         name := t.name,
         exercises := convertExercisesToNamesForCloud acc.1.db.exercises t.exercises,
         created_at := now, updated_at := some now }] := by
  unfold syncTemplatesStep
  simp only [hnil]
  rw [List.filter_append, hnil]
  simp

theorem syncTemplatesStep_filter_self_cons (user : String) (now : Nat)
    (acc : World × (Nat × Nat)) (t : WorkoutTemplate)
    (first : RemoteTemplate) (rest : List RemoteTemplate)
    (hinv : remoteTmplInv acc.1.remote)
    (hcons : acc.1.remote.templates.filter
      (fun r => r.user_id == user && r.name == t.name) = first :: rest) :
    ((syncTemplatesStep user now acc t).1.remote.templates.filter
        (fun r => r.user_id == user && r.name == t.name)).map (fun r => r.id) =
      [first.id] := by
  obtain ⟨hnd, hbound⟩ := hinv
  have hfiltid : (acc.1.remote.templates.filter
      (fun r => r.user_id == user && r.name == t.name)).map (fun r => r.id) =
      first.id :: rest.map (fun r => r.id) := by
    rw [hcons, List.map_cons]
  have hfiltnd : ((acc.1.remote.templates.filter
      (fun r => r.user_id == user && r.name == t.name)).map (fun r => r.id)).Nodup :=
    List.Nodup.sublist
      (List.Sublist.map (fun (r : RemoteTemplate) => r.id) (List.filter_sublist _))
      hnd
  have hfirstnotin : first.id ∉ rest.map (fun r => r.id) := by
    rw [hfiltid] at hfiltnd
    exact (List.nodup_cons.mp hfiltnd).1
  unfold syncTemplatesStep
  simp only [hcons]
  have hup : ((acc.1.remote.templates.map (fun r =>
      if r.id = first.id then
        { r with local_id := toString t.id,
                 exercises := convertExercisesToNamesForCloud acc.1.db.exercises t.exercises,
                 updated_at := some now }
      else r)).filter (fun r => r.user_id == user && r.name == t.name)) =
      (acc.1.remote.templates.filter
        (fun r => r.user_id == user && r.name == t.name)).map (fun r =>
          if r.id = first.id then
            { r with local_id := toString t.id,
                     exercises := convertExercisesToNamesForCloud acc.1.db.exercises t.exercises,
                     updated_at := some now }
          else r) := by
    rw [List.filter_map]
    congr 1
    apply List.filter_congr
    intro r _
    by_cases h : r.id = first.id
    · simp [Function.comp, h]
    · simp [Function.comp, h]
  by_cases hrest : rest.isEmpty
  · rw [if_pos hrest]
    rw [hup, hcons]
    have hrest' : rest = [] := List.isEmpty_iff.mp hrest
    rw [hrest']
    simp
  · rw [if_neg hrest]
    rw [filter_comm_helper, hup, hcons]
    rw [List.map_cons, if_pos rfl]
    rw [List.filter_cons]
    have hkeep : (!(rest.map (fun e => e.id)).contains
        ({ first with local_id := toString t.id,
                      exercises := convertExercisesToNamesForCloud acc.1.db.exercises t.exercises,
                      updated_at := some now } : RemoteTemplate).id) = true := by
      simpa using hfirstnotin
    rw [if_pos hkeep]
    have hdrop : (rest.map (fun r =>
        if r.id = first.id then
          { r with local_id := toString t.id,
                   exercises := convertExercisesToNamesForCloud acc.1.db.exercises t.exercises,
                   updated_at := some now }
        else r)).filter (fun a => !(rest.map (fun e => e.id)).contains a.id) = [] := by
      rw [List.filter_eq_nil_iff]
      intro a ha
      rcases List.mem_map.mp ha with ⟨r', hr', rfl⟩
      have hid : (if r'.id = first.id then
          ({ r' with local_id := toString t.id,
                     exercises := convertExercisesToNamesForCloud acc.1.db.exercises t.exercises,
                     updated_at := some now } : RemoteTemplate)
        else r').id = r'.id := by
        by_cases h : r'.id = first.id
        · rw [if_pos h]
        · rw [if_neg h]
      rw [hid]
      have hin : r'.id ∈ rest.map (fun e => e.id) := List.mem_map_of_mem _ hr'
      simp [hin]
    rw [hdrop]
    simp

theorem syncTemplates_foldl_single (user : String) (now : Nat) (name : String)
    (ts : List WorkoutTemplate) :
    ∀ (acc : World × (Nat × Nat)) (i : Nat), remoteTmplInv acc.1.remote →
      ((acc.1.remote.templates.filter
        (fun r => r.user_id == user && r.name == name)).map (fun r => r.id) = [i]) →
      ((((ts.foldl (syncTemplatesStep user now) acc).1.remote.templates.filter
          (fun r => r.user_id == user && r.name == name)).map (fun r => r.id)) = [i]) ∧
      remoteTmplInv ((ts.foldl (syncTemplatesStep user now) acc).1.remote) := by
  induction ts with
  | nil =>
    intro acc i hinv hsingle
    exact ⟨hsingle, hinv⟩
  | cons t' ts ih =>
    intro acc i hinv hsingle
    rw [List.foldl_cons]
    have hinv' := syncTemplatesStep_inv user now acc t' hinv
    by_cases hname : t'.name = name
    · subst hname
      have hlen : (acc.1.remote.templates.filter
          (fun r => r.user_id == user && r.name == t'.name)).length = 1 := by
        have hc := congrArg List.length hsingle
        simpa using hc
      obtain ⟨r, hr⟩ := List.length_eq_one.mp hlen
      have hri : r.id = i := by
        rw [hr] at hsingle
        simpa using hsingle
      have hstep := syncTemplatesStep_filter_self_cons user now acc t' r [] hinv hr
      exact ih _ i hinv' (hri ▸ hstep)
    · have hstep := syncTemplatesStep_filter_ne user now acc t' name hinv hname
      apply ih _ i hinv'
      rw [hstep]
      exact hsingle

theorem syncTemplates_foldl_collapse (user : String) (now : Nat) (name : String)
    (ts : List WorkoutTemplate) :
    ∀ (acc : World × (Nat × Nat)), remoteTmplInv acc.1.remote →
      (∃ t' ∈ ts, t'.name = name) →
      ((((ts.foldl (syncTemplatesStep user now) acc).1.remote.templates.filter
          (fun r => r.user_id == user && r.name == name)).length = 1) ∧
       (∀ first rest, acc.1.remote.templates.filter
           (fun r => r.user_id == user && r.name == name) = first :: rest →
         (((ts.foldl (syncTemplatesStep user now) acc).1.remote.templates.filter
            (fun r => r.user_id == user && r.name == name)).map (fun r => r.id)) =
           [first.id])) := by
  induction ts with
  | nil =>
    intro acc _ hrel
    rcases hrel with ⟨t', ht', _⟩
    cases ht'
  | cons t' ts ih =>
    intro acc hinv hrel
    rw [List.foldl_cons]
    have hinv' := syncTemplatesStep_inv user now acc t' hinv
    by_cases hname : t'.name = name
    · subst hname
      cases hexist : acc.1.remote.templates.filter
          (fun r => r.user_id == user && r.name == t'.name) with
      | nil =>
        have hstep := syncTemplatesStep_filter_self_nil user now acc t' hexist
        have hsingle : ((syncTemplatesStep user now acc t').1.remote.templates.filter
            (fun r => r.user_id == user && r.name == t'.name)).map (fun r => r.id) =
            [acc.1.remote.nextId] := by
          rw [hstep]
          rfl
        obtain ⟨hfin, _⟩ := syncTemplates_foldl_single user now t'.name ts _ _ hinv' hsingle
        constructor
        · have hc := congrArg List.length hfin
          simpa using hc
        · intro first rest heq
          exact absurd heq (by simp)
      | cons f0 r0 =>
        have hstep := syncTemplatesStep_filter_self_cons user now acc t' f0 r0 hinv hexist
        obtain ⟨hfin, _⟩ := syncTemplates_foldl_single user now t'.name ts _ _ hinv' hstep
        constructor
        · have hc := congrArg List.length hfin
          simpa using hc
        · intro first rest heq
          have hff : f0 = first := (List.cons_eq_cons.mp heq).1
          rw [← hff]
          exact hfin
    · have hstep := syncTemplatesStep_filter_ne user now acc t' name hinv hname
      have hrel' : ∃ t'' ∈ ts, t''.name = name := by
        rcases hrel with ⟨t'', ht'', hn⟩
        rcases List.mem_cons.mp ht'' with rfl | h
        · exact absurd hn hname
        · exact ⟨t'', h, hn⟩
      obtain ⟨h1, h2⟩ := ih _ hinv' hrel'
      refine ⟨h1, ?_⟩
      intro first rest heq
      apply h2
      rw [hstep]
      exact heq

/-- C7: one call to the template upload phase, on a world whose remote
template table has well-formed row ids and which locally contains a template
named `t.name`, leaves exactly one remote row with the natural key
`(user, t.name)`; moreover when the remote store already held matching rows
`first :: rest`, the surviving row is the updated `first` (same row id) and
every other matching row has been deleted. -/
theorem C7_upload_dedup (user : String) (now : Nat) (w : World)
    (t : WorkoutTemplate) (hmem : t ∈ w.db.templates)
    (hinv : remoteTmplInv w.remote) :
    (((syncTemplatesToSupabase user now w).1.remote.templates.filter
        (fun r => r.user_id == user && r.name == t.name)).length = 1) ∧
    (∀ first rest, w.remote.templates.filter
        (fun r => r.user_id == user && r.name == t.name) = first :: rest →
      (((syncTemplatesToSupabase user now w).1.remote.templates.filter
          (fun r => r.user_id == user && r.name == t.name)).map (fun r => r.id)) =
        [first.id]) := by
  unfold syncTemplatesToSupabase
  exact syncTemplates_foldl_collapse user now t.name w.db.templates
    (w, (0, 0)) hinv ⟨t, hmem, rfl⟩

/-- C7, witness: at `c7World` (two remote duplicates of "A"), the upload
leaves exactly one row — the first duplicate, updated in place. -/
theorem C7_upload_dedup_witness :
    (((syncTemplatesToSupabase "u" 3 c7World).1.remote.templates.filter
        (fun r => r.user_id == "u" && r.name == "A")).length = 1) ∧
    (((syncTemplatesToSupabase "u" 3 c7World).1.remote.templates.filter
        (fun r => r.user_id == "u" && r.name == "A")).map (fun r => r.id)) = [1] :=
  have h := C7_upload_dedup "u" 3 c7World
    { id := 1, name := "A", exercises := [], createdAt := 0, lastUsed := none,
      synced := false }
    (by decide) (by decide)
  ⟨h.1, h.2
    { id := 1, local_id := "9", user_id := "u", name := "A", exercises := [],
      created_at := 0, updated_at := some 0 }
    [{ id := 2, local_id := "8", user_id := "u", name := "A", exercises := [],
       created_at := 0, updated_at := some 0 }]
    (by decide)⟩

-- ## Claim C4 (remote-deletion detection is by local_id tag, not natural key)

theorem mem_map_of_map_keep {α β : Type} (g : α → β) (f : α → α)
    (hf : ∀ x, g (f x) = g x) (l : List α) (i : β)
    (h : i ∈ l.map g) : i ∈ (l.map f).map g := by
  obtain ⟨x, hx, hxi⟩ := List.mem_map.mp h
  refine List.mem_map.mpr ⟨f x, List.mem_map_of_mem f hx, ?_⟩
  rw [hf x]
  exact hxi

theorem mem_map_filter_keep {α β : Type} (g : α → β) (p : α → Bool)
    (l : List α) (i : β) (h : i ∈ l.map g)
    (hkeep : ∀ x ∈ l, g x = i → p x = true) :
    i ∈ (l.filter p).map g := by
  obtain ⟨x, hx, hxi⟩ := List.mem_map.mp h
  exact List.mem_map.mpr ⟨x, List.mem_filter.mpr ⟨hx, hkeep x hx hxi⟩, hxi⟩

theorem not_mem_map_filter {α β : Type} (g : α → β) (p : α → Bool)
    (l : List α) (i : β) (h : i ∉ l.map g) :
    i ∉ (l.filter p).map g :=
  fun hc => h ((List.Sublist.map g (List.filter_sublist l)).subset hc)

theorem mem_map_sortBy {α β : Type} (lt : α → α → Bool) (l : List α)
    (g : α → β) (b : β) : b ∈ (sortBy lt l).map g ↔ b ∈ l.map g := by
  constructor
  · intro h
    obtain ⟨x, hx, hxi⟩ := List.mem_map.mp h
    exact List.mem_map.mpr ⟨x, (mem_sortBy _ _ _).mp hx, hxi⟩
  · intro h
    obtain ⟨x, hx, hxi⟩ := List.mem_map.mp h
    exact List.mem_map.mpr ⟨x, (mem_sortBy _ _ _).mpr hx, hxi⟩

theorem contains_eq_false_of_not_mem {α : Type} [BEq α] [LawfulBEq α]
    (l : List α) (a : α) (h : a ∉ l) : l.contains a = false := by
  cases hc : l.contains a with
  | false => rfl
  | true => exact absurd (by simpa using hc) h

theorem contains_eq_true_of_mem {α : Type} [BEq α] [LawfulBEq α]
    (l : List α) (a : α) (h : a ∈ l) : l.contains a = true := by
  simpa using h

theorem fetchTemplatesStep_mem (m : List (String × WorkoutTemplate))
    (db : LocalDB) (ct : RemoteTemplate) (i : Nat)
    (h : i ∈ db.templates.map (fun x => x.id)) :
    i ∈ (fetchTemplatesStep m db ct).templates.map (fun x => x.id) := by
  cases hj : jsGet m (lowerStr ct.name) with
  | none =>
    simp only [fetchTemplatesStep, hj, List.map_append, List.mem_append]
    exact Or.inl h
  | some lt =>
    simp only [fetchTemplatesStep, hj]
    split
    · refine mem_map_of_map_keep _ _ ?_ _ _ h
      intro x
      dsimp only
      split
      · rfl
      · rfl
    · exact h

theorem tmplRemoteDeletionStep_mem (cloudIds : List String) (db : LocalDB)
    (t' : WorkoutTemplate) (i : Nat)
    (hcond : cloudIds.contains (toString t'.id) = true ∨ t'.id ≠ i)
    (h : i ∈ db.templates.map (fun x => x.id)) :
    i ∈ (tmplRemoteDeletionStep cloudIds db t').templates.map (fun x => x.id) := by
  unfold tmplRemoteDeletionStep
  by_cases hc : cloudIds.contains (toString t'.id) = true
  · rw [if_pos hc]
    exact h
  · rw [if_neg hc]
    have hne : t'.id ≠ i := hcond.resolve_left hc
    refine mem_map_filter_keep _ _ _ _ h ?_
    intro x _ hxi
    simp [hxi]
    exact Ne.symm hne

theorem tmplRemoteDeletionStep_kill (cloudIds : List String) (db : LocalDB)
    (t' : WorkoutTemplate)
    (hc : cloudIds.contains (toString t'.id) = false) :
    t'.id ∉ (tmplRemoteDeletionStep cloudIds db t').templates.map
      (fun x => x.id) := by
  unfold tmplRemoteDeletionStep
  rw [if_neg (by rw [hc]; exact Bool.false_ne_true)]
  intro hmem
  obtain ⟨x, hx, hxi⟩ := List.mem_map.mp hmem
  have hp := (List.mem_filter.mp hx).2
  simp [hxi] at hp

theorem tmplRemoteDeletionStep_absent (cloudIds : List String) (db : LocalDB)
    (t' : WorkoutTemplate) (i : Nat)
    (h : i ∉ db.templates.map (fun x => x.id)) :
    i ∉ (tmplRemoteDeletionStep cloudIds db t').templates.map (fun x => x.id) := by
  unfold tmplRemoteDeletionStep
  by_cases hc : cloudIds.contains (toString t'.id) = true
  · rw [if_pos hc]
    exact h
  · rw [if_neg hc]
    exact not_mem_map_filter _ _ _ _ h

theorem fetchTemplates_foldl_mem (m : List (String × WorkoutTemplate))
    (data : List RemoteTemplate) (db : LocalDB) (i : Nat)
    (h : i ∈ db.templates.map (fun x => x.id)) :
    i ∈ ((data.foldl (fetchTemplatesStep m) db).templates.map (fun x => x.id)) :=
  foldl_invariant (fetchTemplatesStep m)
    (fun d => i ∈ d.templates.map (fun x => x.id)) data db h
    (fun d a _ hd => fetchTemplatesStep_mem m d a i hd)

theorem tmplDeletion_foldl_mem (cloudIds : List String)
    (ts : List WorkoutTemplate) (db : LocalDB) (i : Nat)
    (hsafe : ∀ t' ∈ ts, cloudIds.contains (toString t'.id) = true ∨ t'.id ≠ i)
    (h : i ∈ db.templates.map (fun x => x.id)) :
    i ∈ ((ts.foldl (tmplRemoteDeletionStep cloudIds) db).templates.map
      (fun x => x.id)) :=
  foldl_invariant (tmplRemoteDeletionStep cloudIds)
    (fun d => i ∈ d.templates.map (fun x => x.id)) ts db h
    (fun d a ha hd => tmplRemoteDeletionStep_mem cloudIds d a i (hsafe a ha) hd)

theorem tmplDeletion_foldl_absent (cloudIds : List String)
    (ts : List WorkoutTemplate) (db : LocalDB) (i : Nat)
    (h : i ∉ db.templates.map (fun x => x.id)) :
    i ∉ ((ts.foldl (tmplRemoteDeletionStep cloudIds) db).templates.map
      (fun x => x.id)) :=
  foldl_invariant (tmplRemoteDeletionStep cloudIds)
    (fun d => i ∉ d.templates.map (fun x => x.id)) ts db h
    (fun d a _ hd => tmplRemoteDeletionStep_absent cloudIds d a i hd)

theorem fetchScheduledStep_mem (m : List (String × ScheduledWorkout))
    (db : LocalDB) (cw : RemoteScheduledWorkout) (i : Nat)
    (h : i ∈ db.scheduledWorkouts.map (fun x => x.id)) :
    i ∈ (fetchScheduledStep m db cw).scheduledWorkouts.map (fun x => x.id) := by
  cases hj : jsGet m (cw.date ++ "-" ++ lowerStr cw.template_name) with
  | none =>
    simp only [fetchScheduledStep, hj, List.map_append, List.mem_append]
    exact Or.inl h
  | some lw =>
    simp only [fetchScheduledStep, hj]
    split
    · refine mem_map_of_map_keep _ _ ?_ _ _ h
      intro x
      dsimp only
      split
      · rfl
      · rfl
    · exact h

theorem schedRemoteDeletionStep_mem (cloudIds : List String) (db : LocalDB)
    (s' : ScheduledWorkout) (i : Nat)
    (hcond : cloudIds.contains (toString s'.id) = true ∨ s'.id ≠ i)
    (h : i ∈ db.scheduledWorkouts.map (fun x => x.id)) :
    i ∈ (schedRemoteDeletionStep cloudIds db s').scheduledWorkouts.map
      (fun x => x.id) := by
  unfold schedRemoteDeletionStep
  by_cases hc : cloudIds.contains (toString s'.id) = true
  · rw [if_pos hc]
    exact h
  · rw [if_neg hc]
    have hne : s'.id ≠ i := hcond.resolve_left hc
    refine mem_map_filter_keep _ _ _ _ h ?_
    intro x _ hxi
    simp [hxi]
    exact Ne.symm hne

theorem schedRemoteDeletionStep_kill (cloudIds : List String) (db : LocalDB)
    (s' : ScheduledWorkout)
    (hc : cloudIds.contains (toString s'.id) = false) :
    s'.id ∉ (schedRemoteDeletionStep cloudIds db s').scheduledWorkouts.map
      (fun x => x.id) := by
  unfold schedRemoteDeletionStep
  rw [if_neg (by rw [hc]; exact Bool.false_ne_true)]
  intro hmem
  obtain ⟨x, hx, hxi⟩ := List.mem_map.mp hmem
  have hp := (List.mem_filter.mp hx).2
  simp [hxi] at hp

theorem schedRemoteDeletionStep_absent (cloudIds : List String) (db : LocalDB)
    (s' : ScheduledWorkout) (i : Nat)
    (h : i ∉ db.scheduledWorkouts.map (fun x => x.id)) :
    i ∉ (schedRemoteDeletionStep cloudIds db s').scheduledWorkouts.map
      (fun x => x.id) := by
  unfold schedRemoteDeletionStep
  by_cases hc : cloudIds.contains (toString s'.id) = true
  · rw [if_pos hc]
    exact h
  · rw [if_neg hc]
    exact not_mem_map_filter _ _ _ _ h

theorem fetchScheduled_foldl_mem (m : List (String × ScheduledWorkout))
    (data : List RemoteScheduledWorkout) (db : LocalDB) (i : Nat)
    (h : i ∈ db.scheduledWorkouts.map (fun x => x.id)) :
    i ∈ ((data.foldl (fetchScheduledStep m) db).scheduledWorkouts.map
      (fun x => x.id)) :=
  foldl_invariant (fetchScheduledStep m)
    (fun d => i ∈ d.scheduledWorkouts.map (fun x => x.id)) data db h
    (fun d a _ hd => fetchScheduledStep_mem m d a i hd)

theorem schedDeletion_foldl_mem (cloudIds : List String)
    (ss : List ScheduledWorkout) (db : LocalDB) (i : Nat)
    (hsafe : ∀ s' ∈ ss, cloudIds.contains (toString s'.id) = true ∨ s'.id ≠ i)
    (h : i ∈ db.scheduledWorkouts.map (fun x => x.id)) :
    i ∈ ((ss.foldl (schedRemoteDeletionStep cloudIds) db).scheduledWorkouts.map
      (fun x => x.id)) :=
  foldl_invariant (schedRemoteDeletionStep cloudIds)
    (fun d => i ∈ d.scheduledWorkouts.map (fun x => x.id)) ss db h
    (fun d a ha hd => schedRemoteDeletionStep_mem cloudIds d a i (hsafe a ha) hd)

theorem schedDeletion_foldl_absent (cloudIds : List String)
    (ss : List ScheduledWorkout) (db : LocalDB) (i : Nat)
    (h : i ∉ db.scheduledWorkouts.map (fun x => x.id)) :
    i ∉ ((ss.foldl (schedRemoteDeletionStep cloudIds) db).scheduledWorkouts.map
      (fun x => x.id)) :=
  foldl_invariant (schedRemoteDeletionStep cloudIds)
    (fun d => i ∉ d.scheduledWorkouts.map (fun x => x.id)) ss db h
    (fun d a _ hd => schedRemoteDeletionStep_absent cloudIds d a i hd)

theorem tmpl_presence_iff (user : String) (w : World) (t : WorkoutTemplate)
    (ht : t ∈ w.db.templates) (hts : t.synced = true)
    (hnt : (w.db.templates.map (fun x => x.id)).Nodup) :
    t.id ∈ (fetchTemplatesFromSupabase user w).db.templates.map (fun x => x.id) ↔
      (w.remote.templates.filter (fun r => r.user_id == user) = [] ∨
        toString t.id ∈ (w.remote.templates.filter
          (fun r => r.user_id == user)).map (fun r => r.local_id)) := by
  by_cases hempty : (sortBy tmplFetchBefore
      (w.remote.templates.filter (fun r => r.user_id == user))).isEmpty = true
  · have hnil : w.remote.templates.filter (fun r => r.user_id == user) = [] := by
      have hperm := sortBy_perm tmplFetchBefore
        (w.remote.templates.filter (fun r => r.user_id == user))
      rw [List.isEmpty_iff.mp hempty] at hperm
      have hl := hperm.length_eq
      simp only [List.length_nil] at hl
      exact List.eq_nil_of_length_eq_zero hl.symm
    simp only [fetchTemplatesFromSupabase]
    rw [if_pos hempty]
    constructor
    · intro _
      exact Or.inl hnil
    · intro _
      exact List.mem_map_of_mem _ ht
  · simp only [fetchTemplatesFromSupabase]
    rw [if_neg hempty]
    constructor
    · intro hpres
      by_cases htag : toString t.id ∈ (w.remote.templates.filter
          (fun r => r.user_id == user)).map (fun r => r.local_id)
      · exact Or.inr htag
      · exfalso
        have htagS : toString t.id ∉ (sortBy tmplFetchBefore
            (w.remote.templates.filter (fun r => r.user_id == user))).map
            (fun r => r.local_id) := by
          intro hc
          exact htag ((mem_map_sortBy _ _ _ _).mp hc)
        have hcontains := contains_eq_false_of_not_mem _ _ htagS
        have htS : t ∈ w.db.templates.filter (fun x => x.synced) :=
          List.mem_filter.mpr ⟨ht, hts⟩
        obtain ⟨pre, post, hsplit⟩ := List.append_of_mem htS
        rw [hsplit, List.foldl_append, List.foldl_cons] at hpres
        exact tmplDeletion_foldl_absent _ post _ t.id
          (tmplRemoteDeletionStep_kill _ _ t hcontains) hpres
    · rintro (hnil | htag)
      · exact absurd (by rw [hnil]; rfl) hempty
      · refine tmplDeletion_foldl_mem _ _ _ _ ?_
          (fetchTemplates_foldl_mem _ _ _ _ (List.mem_map_of_mem _ ht))
        intro t' ht'
        by_cases hid : t'.id = t.id
        · left
          have hteq : t' = t := List.inj_on_of_nodup_map hnt
            (List.mem_of_mem_filter ht') ht hid
          rw [hteq]
          apply contains_eq_true_of_mem
          rw [mem_map_sortBy]
          exact htag
        · right
          exact hid

theorem sched_presence_iff (user : String) (w : World) (s : ScheduledWorkout)
    (hs : s ∈ w.db.scheduledWorkouts) (hss : s.synced = true)
    (hns : (w.db.scheduledWorkouts.map (fun x => x.id)).Nodup) :
    s.id ∈ (fetchScheduledWorkoutsFromSupabase user w).db.scheduledWorkouts.map
        (fun x => x.id) ↔
      toString s.id ∈ (w.remote.scheduledWorkouts.filter
        (fun r => r.user_id == user)).map (fun r => r.local_id) := by
  simp only [fetchScheduledWorkoutsFromSupabase]
  constructor
  · intro hpres
    by_contra htag
    have htagS : toString s.id ∉ (sortBy (fun a b => decide (a.date < b.date))
        (w.remote.scheduledWorkouts.filter (fun r => r.user_id == user))).map
        (fun r => r.local_id) := by
      intro hc
      exact htag ((mem_map_sortBy _ _ _ _).mp hc)
    have hcontains := contains_eq_false_of_not_mem _ _ htagS
    have hsS : s ∈ w.db.scheduledWorkouts.filter (fun x => x.synced) :=
      List.mem_filter.mpr ⟨hs, hss⟩
    obtain ⟨pre, post, hsplit⟩ := List.append_of_mem hsS
    rw [hsplit, List.foldl_append, List.foldl_cons] at hpres
    exact schedDeletion_foldl_absent _ post _ s.id
      (schedRemoteDeletionStep_kill _ _ s hcontains) hpres
  · intro htag
    refine schedDeletion_foldl_mem _ _ _ _ ?_
      (fetchScheduled_foldl_mem _ _ _ _ (List.mem_map_of_mem _ hs))
    intro s' hs'
    by_cases hid : s'.id = s.id
    · left
      have hseq : s' = s := List.inj_on_of_nodup_map hns
        (List.mem_of_mem_filter hs') hs hid
      rw [hseq]
      apply contains_eq_true_of_mem
      rw [mem_map_sortBy]
      exact htag
    · right
      exact hid

/-- C4, counterexample: the remote store still holds a template with the
natural key (user "u", name "A"), yet the download deletes the synced local
template named "A", because the deletion pass compares `local_id` tags
("2" against "1"), not natural keys. -/
theorem C4_deletion_by_localid_counterexample :
    ((c4World.remote.templates.filter (fun r => r.user_id == "u")).map
        (fun r => lowerStr r.name) = [lowerStr "A"]) ∧
    (c4World.db.templates.map (fun x => (x.name, x.synced)) = [("A", true)]) ∧
    (fetchTemplatesFromSupabase "u" c4World).db.templates = [] := by
  decide

/-- C4, amended: after the template download, a synced local template (with
locally unique ids) survives iff the user's remote row set is empty (the
early return skips the deletion pass) or its stringified local id occurs
among the fetched rows' `local_id` tags; after the scheduled-workout
download, a synced local record survives iff its stringified id occurs among
the fetched `local_id` tags — with no empty-set exemption.  The natural key
plays no role in either deletion pass. -/
theorem C4_presence_amended (user : String) (w : World)
    (t : WorkoutTemplate) (s : ScheduledWorkout)
    (ht : t ∈ w.db.templates) (hts : t.synced = true)
    (hnt : (w.db.templates.map (fun x => x.id)).Nodup)
    (hs : s ∈ w.db.scheduledWorkouts) (hss : s.synced = true)
    (hns : (w.db.scheduledWorkouts.map (fun x => x.id)).Nodup) :
    (t.id ∈ (fetchTemplatesFromSupabase user w).db.templates.map
        (fun x => x.id) ↔
      (w.remote.templates.filter (fun r => r.user_id == user) = [] ∨
        toString t.id ∈ (w.remote.templates.filter
          (fun r => r.user_id == user)).map (fun r => r.local_id))) ∧
    (s.id ∈ (fetchScheduledWorkoutsFromSupabase user w).db.scheduledWorkouts.map
        (fun x => x.id) ↔
      toString s.id ∈ (w.remote.scheduledWorkouts.filter
        (fun r => r.user_id == user)).map (fun r => r.local_id)) :=
  ⟨tmpl_presence_iff user w t ht hts hnt,
   sched_presence_iff user w s hs hss hns⟩

/-- C4, witness: at `c4AmWorld` the matched-tag template survives the
download while the scheduled workout, having no remote rows, is deleted. -/
theorem C4_presence_amended_witness :
    ((1 : Nat) ∈ (fetchTemplatesFromSupabase "u" c4AmWorld).db.templates.map
        (fun x => x.id) ↔
      (c4AmWorld.remote.templates.filter (fun r => r.user_id == "u") = [] ∨
        toString (1 : Nat) ∈ (c4AmWorld.remote.templates.filter
          (fun r => r.user_id == "u")).map (fun r => r.local_id))) ∧
    ((1 : Nat) ∈ (fetchScheduledWorkoutsFromSupabase
        "u" c4AmWorld).db.scheduledWorkouts.map (fun x => x.id) ↔
      toString (1 : Nat) ∈ (c4AmWorld.remote.scheduledWorkouts.filter
        (fun r => r.user_id == "u")).map (fun r => r.local_id)) :=
  C4_presence_amended "u" c4AmWorld
    { id := 1, name := "A", exercises := [], createdAt := 0,
      lastUsed := some 5, synced := true }
    { id := 1, templateId := 1, templateName := "A", date := "2025-01-01",
      notes := none, exercises := [], completed := false, synced := true }
    (by decide) (by decide) (by decide) (by decide) (by decide) (by decide)

-- ## Claim C3 (download merge policy: LWW for templates only)

/-- C3, counterexample: the scheduled-workout tables carry no timestamps, so
the download's merge is not last-writer-wins there — the matched local
record is overwritten (here its `notes` change) whenever the serialized
exercises differ, with no remote-newer precondition. -/
theorem C3_lww_counterexample :
    (c3World.db.scheduledWorkouts.map (fun x => (x.id, x.notes)) =
      [(1, none)]) ∧
    ((fetchScheduledWorkoutsFromSupabase "u" c3World).db.scheduledWorkouts.map
      (fun x => (x.id, x.notes)) = [(1, some "n")]) := by
  decide

theorem filter_id_singleton {α : Type} (g : α → Nat) (l : List α) (t : α)
    (hn : (l.map g).Nodup) (ht : t ∈ l) :
    l.filter (fun x => g x == g t) = [t] := by
  induction l with
  | nil => cases ht
  | cons a l ih =>
    rw [List.map_cons, List.nodup_cons] at hn
    rcases List.mem_cons.mp ht with rfl | hmem
    · have hnil : l.filter (fun x => g x == g t) = [] := by
        rw [List.filter_eq_nil_iff]
        intro x hx hc
        exact hn.1 (eq_of_beq hc ▸ List.mem_map_of_mem g hx)
      simp only [List.filter_cons]
      rw [if_pos (show (g t == g t) = true by simp), hnil]
    · have hne : ¬(g a == g t) = true := by
        intro hc
        exact hn.1 (eq_of_beq hc ▸ List.mem_map_of_mem g hmem)
      simp only [List.filter_cons]
      rw [if_neg hne]
      exact ih hn.2 hmem

theorem filter_singleton_split {α : Type} (p : α → Bool) (l : List α) (a : α)
    (h : l.filter p = [a]) :
    ∃ l1 l2, l = l1 ++ a :: l2 ∧ (∀ x ∈ l1, p x = false) ∧ p a = true ∧
      (∀ x ∈ l2, p x = false) := by
  induction l with
  | nil => simp at h
  | cons b l ih =>
    by_cases hb : p b = true
    · rw [List.filter_cons_of_pos hb] at h
      obtain ⟨hba, hrest⟩ := List.cons_eq_cons.mp h
      subst hba
      refine ⟨[], l, rfl, by simp, hb, ?_⟩
      intro x hx
      exact Bool.eq_false_iff.mpr (List.filter_eq_nil_iff.mp hrest x hx)
    · rw [List.filter_cons_of_neg hb] at h
      obtain ⟨l1, l2, heq, h1, hpa, h2⟩ := ih h
      refine ⟨b :: l1, l2, by rw [heq]; rfl, ?_, hpa, h2⟩
      intro x hx
      rcases List.mem_cons.mp hx with rfl | hx'
      · exact Bool.eq_false_iff.mpr hb
      · exact h1 x hx'

theorem fetchTemplatesStep_other (w : World) (t : WorkoutTemplate)
    (hnID : (w.db.templates.map (fun x => x.id)).Nodup)
    (ht : t ∈ w.db.templates) (htid : t.id < w.db.templatesNextId)
    (db' : LocalDB) (cur : WorkoutTemplate) (r : RemoteTemplate)
    (hr : lowerStr r.name ≠ lowerStr t.name)
    (hcur : db'.templates.filter (fun x => x.id == t.id) = [cur])
    (hnext : w.db.templatesNextId ≤ db'.templatesNextId)
    (hex : db'.exercises = w.db.exercises) :
    ((fetchTemplatesStep (w.db.templates.map (fun x => (lowerStr x.name, x)))
        db' r).templates.filter (fun x => x.id == t.id) = [cur]) ∧
    (w.db.templatesNextId ≤
      (fetchTemplatesStep (w.db.templates.map (fun x => (lowerStr x.name, x)))
        db' r).templatesNextId) ∧
    ((fetchTemplatesStep (w.db.templates.map (fun x => (lowerStr x.name, x)))
        db' r).exercises = w.db.exercises) := by
  cases hj : jsGet (w.db.templates.map (fun x => (lowerStr x.name, x)))
      (lowerStr r.name) with
  | none =>
    simp only [fetchTemplatesStep, hj]
    refine ⟨?_, by omega, hex⟩
    rw [List.filter_append, hcur]
    have hnil : List.filter (fun x => x.id == t.id)
        [({ id := db'.templatesNextId, name := r.name,
            exercises := convertExercisesFromCloud db'.exercises r.exercises,
            createdAt := r.created_at, lastUsed := r.updated_at,
            synced := false } : WorkoutTemplate)] = [] := by
      rw [List.filter_eq_nil_iff]
      intro x hx hc
      rw [List.mem_singleton] at hx
      rw [hx] at hc
      have : db'.templatesNextId = t.id := eq_of_beq hc
      omega
    rw [hnil]
    rfl
  | some lt' =>
    have hmemp := jsGet_mem _ _ _ hj
    obtain ⟨x0, hx0, hpair⟩ := List.mem_map.mp hmemp
    have hx0e : x0 = lt' := congrArg Prod.snd hpair
    have hname : lowerStr lt'.name = lowerStr r.name := by
      rw [← hx0e]
      exact congrArg Prod.fst hpair
    have hlid : lt'.id ≠ t.id := by
      intro hc
      have heq : lt' = t :=
        List.inj_on_of_nodup_map hnID (hx0e ▸ hx0) ht hc
      rw [heq] at hname
      exact hr hname.symm
    have hcurid : cur.id = t.id := by
      have hcm : cur ∈ db'.templates.filter (fun x => x.id == t.id) := by
        rw [hcur]
        exact List.mem_singleton_self cur
      exact eq_of_beq (List.mem_filter.mp hcm).2
    simp only [fetchTemplatesStep, hj]
    split
    · refine ⟨?_, hnext, hex⟩
      rw [List.filter_map]
      have hpc : db'.templates.filter ((fun x => x.id == t.id) ∘
          (fun x => if x.id = lt'.id then
            { x with
              exercises := convertExercisesFromCloud db'.exercises r.exercises,
              lastUsed := some (r.updated_at.getD r.created_at) }
          else x)) = db'.templates.filter (fun x => x.id == t.id) := by
        refine List.filter_congr ?_
        intro x _
        by_cases hcx : x.id = lt'.id
        · simp [Function.comp, hcx]
        · simp [Function.comp, hcx]
      rw [hpc, hcur]
      have hcne : ¬ cur.id = lt'.id := by
        rw [hcurid]
        exact fun hc => hlid hc.symm
      simp [hcne]
    · exact ⟨hcur, hnext, hex⟩

theorem fetchTemplatesStep_self (w : World) (t : WorkoutTemplate)
    (hnName : (w.db.templates.map (fun x => lowerStr x.name)).Nodup)
    (ht : t ∈ w.db.templates) (ct : RemoteTemplate)
    (hcname : lowerStr ct.name = lowerStr t.name)
    (db' : LocalDB)
    (hcur : db'.templates.filter (fun x => x.id == t.id) = [t])
    (hnext : w.db.templatesNextId ≤ db'.templatesNextId)
    (hex : db'.exercises = w.db.exercises) :
    ((fetchTemplatesStep (w.db.templates.map (fun x => (lowerStr x.name, x)))
        db' ct).templates.filter (fun x => x.id == t.id) =
      [if t.lastUsed.getD t.createdAt < ct.updated_at.getD ct.created_at then
        { t with
          exercises := convertExercisesFromCloud w.db.exercises ct.exercises,
          lastUsed := some (ct.updated_at.getD ct.created_at) }
      else t]) ∧
    (w.db.templatesNextId ≤
      (fetchTemplatesStep (w.db.templates.map (fun x => (lowerStr x.name, x)))
        db' ct).templatesNextId) ∧
    ((fetchTemplatesStep (w.db.templates.map (fun x => (lowerStr x.name, x)))
        db' ct).exercises = w.db.exercises) := by
  have hjs : jsGet (w.db.templates.map (fun x => (lowerStr x.name, x)))
      (lowerStr ct.name) = some t := by
    rw [hcname]
    refine jsGet_eq_some_of_mem _ _ _ ?_ (List.mem_map_of_mem _ ht)
    have hkeys : (w.db.templates.map (fun x => (lowerStr x.name, x))).map
        Prod.fst = w.db.templates.map (fun x => lowerStr x.name) := by
      rw [List.map_map]
      rfl
    rw [hkeys]
    exact hnName
  simp only [fetchTemplatesStep, hjs]
  by_cases hlw : t.lastUsed.getD t.createdAt < ct.updated_at.getD ct.created_at
  · rw [if_pos hlw, if_pos hlw]
    refine ⟨?_, hnext, hex⟩
    rw [List.filter_map]
    have hpc : db'.templates.filter ((fun x => x.id == t.id) ∘
        (fun x => if x.id = t.id then
          { x with
            exercises := convertExercisesFromCloud db'.exercises ct.exercises,
            lastUsed := some (ct.updated_at.getD ct.created_at) }
        else x)) = db'.templates.filter (fun x => x.id == t.id) := by
      refine List.filter_congr ?_
      intro x _
      by_cases hcx : x.id = t.id
      · simp [Function.comp, hcx]
      · simp [Function.comp, hcx]
    rw [hpc, hcur]
    simp [hex]
  · rw [if_neg hlw, if_neg hlw]
    exact ⟨hcur, hnext, hex⟩

theorem fetchTemplates_foldl_other (w : World) (t : WorkoutTemplate)
    (hnID : (w.db.templates.map (fun x => x.id)).Nodup)
    (ht : t ∈ w.db.templates) (htid : t.id < w.db.templatesNextId)
    (rs : List RemoteTemplate)
    (hrs : ∀ r ∈ rs, lowerStr r.name ≠ lowerStr t.name) :
    ∀ (db' : LocalDB) (cur : WorkoutTemplate),
      db'.templates.filter (fun x => x.id == t.id) = [cur] →
      w.db.templatesNextId ≤ db'.templatesNextId →
      db'.exercises = w.db.exercises →
      ((rs.foldl
          (fetchTemplatesStep (w.db.templates.map (fun x => (lowerStr x.name, x))))
          db').templates.filter (fun x => x.id == t.id) = [cur]) ∧
      (w.db.templatesNextId ≤
        (rs.foldl
          (fetchTemplatesStep (w.db.templates.map (fun x => (lowerStr x.name, x))))
          db').templatesNextId) ∧
      ((rs.foldl
          (fetchTemplatesStep (w.db.templates.map (fun x => (lowerStr x.name, x))))
          db').exercises = w.db.exercises) := by
  induction rs with
  | nil =>
    intro db' cur h1 h2 h3
    exact ⟨h1, h2, h3⟩
  | cons r rs ih =>
    intro db' cur h1 h2 h3
    rw [List.foldl_cons]
    obtain ⟨g1, g2, g3⟩ := fetchTemplatesStep_other w t hnID ht htid db' cur r
      (hrs r (List.mem_cons_self r rs)) h1 h2 h3
    exact ih (fun x hx => hrs x (List.mem_cons_of_mem r hx)) _ cur g1 g2 g3

theorem tmplRemoteDeletionStep_filter (cloudIds : List String) (db : LocalDB)
    (t' : WorkoutTemplate) (i : Nat) (cur : WorkoutTemplate)
    (hcond : cloudIds.contains (toString t'.id) = true ∨ t'.id ≠ i)
    (hcur : db.templates.filter (fun x => x.id == i) = [cur]) :
    (tmplRemoteDeletionStep cloudIds db t').templates.filter
      (fun x => x.id == i) = [cur] := by
  unfold tmplRemoteDeletionStep
  by_cases hc : cloudIds.contains (toString t'.id) = true
  · rw [if_pos hc]
    exact hcur
  · rw [if_neg hc]
    have hne : t'.id ≠ i := hcond.resolve_left hc
    rw [filter_comm_helper, hcur]
    have hki : cur.id = i := by
      have hcm : cur ∈ db.templates.filter (fun x => x.id == i) := by
        rw [hcur]
        exact List.mem_singleton_self cur
      exact eq_of_beq (List.mem_filter.mp hcm).2
    have hkeep : (!(cur.id == t'.id)) = true := by
      rw [hki]
      simp
      exact fun hc2 => hne hc2.symm
    simp [hkeep]

theorem tmplDeletion_foldl_filter (cloudIds : List String)
    (ts : List WorkoutTemplate) (db : LocalDB) (i : Nat)
    (cur : WorkoutTemplate)
    (hsafe : ∀ t' ∈ ts, cloudIds.contains (toString t'.id) = true ∨ t'.id ≠ i)
    (hcur : db.templates.filter (fun x => x.id == i) = [cur]) :
    (ts.foldl (tmplRemoteDeletionStep cloudIds) db).templates.filter
      (fun x => x.id == i) = [cur] :=
  foldl_invariant (tmplRemoteDeletionStep cloudIds)
    (fun d => d.templates.filter (fun x => x.id == i) = [cur]) ts db hcur
    (fun d a ha hd => tmplRemoteDeletionStep_filter cloudIds d a i cur
      (hsafe a ha) hd)

theorem tmpl_lww (user : String) (w : World) (t : WorkoutTemplate)
    (ct : RemoteTemplate) (ht : t ∈ w.db.templates)
    (hnID : (w.db.templates.map (fun x => x.id)).Nodup)
    (hnName : (w.db.templates.map (fun x => lowerStr x.name)).Nodup)
    (hltid : ∀ x ∈ w.db.templates, x.id < w.db.templatesNextId)
    (hct : (sortBy tmplFetchBefore (w.remote.templates.filter
        (fun r => r.user_id == user))).filter
        (fun r => lowerStr r.name == lowerStr t.name) = [ct])
    (hsurv : toString t.id ∈ (sortBy tmplFetchBefore
        (w.remote.templates.filter (fun r => r.user_id == user))).map
        (fun r => r.local_id) ∨ t.synced = false) :
    (fetchTemplatesFromSupabase user w).db.templates.filter
      (fun x => x.id == t.id) =
      [if t.lastUsed.getD t.createdAt < ct.updated_at.getD ct.created_at then
        { t with
          exercises := convertExercisesFromCloud w.db.exercises ct.exercises,
          lastUsed := some (ct.updated_at.getD ct.created_at) }
      else t] := by
  have hctm : ct ∈ sortBy tmplFetchBefore
      (w.remote.templates.filter (fun r => r.user_id == user)) := by
    have hm : ct ∈ (sortBy tmplFetchBefore (w.remote.templates.filter
        (fun r => r.user_id == user))).filter
        (fun r => lowerStr r.name == lowerStr t.name) := by
      rw [hct]
      exact List.mem_singleton_self ct
    exact List.mem_of_mem_filter hm
  have hdata_ne : ¬ (sortBy tmplFetchBefore (w.remote.templates.filter
      (fun r => r.user_id == user))).isEmpty = true := by
    intro hc
    rw [List.isEmpty_iff.mp hc] at hctm
    cases hctm
  simp only [fetchTemplatesFromSupabase]
  rw [if_neg hdata_ne]
  obtain ⟨l1, l2, hsplit, h1, hpct, h2⟩ := filter_singleton_split _ _ _ hct
  have htid := hltid t ht
  have hstart : w.db.templates.filter (fun x => x.id == t.id) = [t] :=
    filter_id_singleton (fun x => x.id) w.db.templates t hnID ht
  rw [hsplit, List.foldl_append, List.foldl_cons]
  obtain ⟨m1, m2, m3⟩ := fetchTemplates_foldl_other w t hnID ht htid l1
    (fun x hx => beq_eq_false_iff_ne.mp (h1 x hx)) w.db t hstart
    (Nat.le_refl _) rfl
  obtain ⟨s1, s2, s3⟩ := fetchTemplatesStep_self w t hnName ht ct
    (eq_of_beq hpct) _ m1 m2 m3
  obtain ⟨f1, f2, f3⟩ := fetchTemplates_foldl_other w t hnID ht htid l2
    (fun x hx => beq_eq_false_iff_ne.mp (h2 x hx)) _ _ s1 s2 s3
  refine tmplDeletion_foldl_filter _ _ _ _ _ ?_ f1
  intro t' ht'
  by_cases hid : t'.id = t.id
  · left
    have hteq : t' = t := List.inj_on_of_nodup_map hnID
      (List.mem_of_mem_filter ht') ht hid
    rw [hteq]
    rcases hsurv with hin | hsf
    · apply contains_eq_true_of_mem
      rw [hsplit] at hin
      exact hin
    · have hsy : t'.synced = true := (List.mem_filter.mp ht').2
      rw [hteq, hsf] at hsy
      cases hsy
  · right
    exact hid

theorem fetchScheduledStep_other (w : World) (s : ScheduledWorkout)
    (hnID : (w.db.scheduledWorkouts.map (fun x => x.id)).Nodup)
    (hs : s ∈ w.db.scheduledWorkouts)
    (hsid : s.id < w.db.scheduledNextId)
    (db' : LocalDB) (cur : ScheduledWorkout) (r : RemoteScheduledWorkout)
    (hr : r.date ++ "-" ++ lowerStr r.template_name ≠
      s.date ++ "-" ++ lowerStr s.templateName)
    (hcur : db'.scheduledWorkouts.filter (fun x => x.id == s.id) = [cur])
    (hnext : w.db.scheduledNextId ≤ db'.scheduledNextId)
    (hex : db'.exercises = w.db.exercises) :
    ((fetchScheduledStep (w.db.scheduledWorkouts.map
        (fun x => (x.date ++ "-" ++ lowerStr x.templateName, x)))
        db' r).scheduledWorkouts.filter (fun x => x.id == s.id) = [cur]) ∧
    (w.db.scheduledNextId ≤
      (fetchScheduledStep (w.db.scheduledWorkouts.map
        (fun x => (x.date ++ "-" ++ lowerStr x.templateName, x)))
        db' r).scheduledNextId) ∧
    ((fetchScheduledStep (w.db.scheduledWorkouts.map
        (fun x => (x.date ++ "-" ++ lowerStr x.templateName, x)))
        db' r).exercises = w.db.exercises) := by
  cases hj : jsGet (w.db.scheduledWorkouts.map
      (fun x => (x.date ++ "-" ++ lowerStr x.templateName, x)))
      (r.date ++ "-" ++ lowerStr r.template_name) with
  | none =>
    simp only [fetchScheduledStep, hj]
    refine ⟨?_, by omega, hex⟩
    rw [List.filter_append, hcur]
    have hnil : List.filter (fun x => x.id == s.id)
        [({ id := db'.scheduledNextId, templateId := 0,
            templateName := r.template_name, date := r.date,
            notes := r.notes,
            exercises := convertExercisesFromCloud db'.exercises r.exercises,
            completed := r.completed, synced := false } : ScheduledWorkout)] =
        [] := by
      rw [List.filter_eq_nil_iff]
      intro x hx hc
      rw [List.mem_singleton] at hx
      rw [hx] at hc
      have : db'.scheduledNextId = s.id := eq_of_beq hc
      omega
    rw [hnil]
    rfl
  | some lw' =>
    have hmemp := jsGet_mem _ _ _ hj
    obtain ⟨x0, hx0, hpair⟩ := List.mem_map.mp hmemp
    have hx0e : x0 = lw' := congrArg Prod.snd hpair
    have hkey : lw'.date ++ "-" ++ lowerStr lw'.templateName =
        r.date ++ "-" ++ lowerStr r.template_name := by
      rw [← hx0e]
      exact congrArg Prod.fst hpair
    have hlid : lw'.id ≠ s.id := by
      intro hc
      have heq : lw' = s :=
        List.inj_on_of_nodup_map hnID (hx0e ▸ hx0) hs hc
      rw [heq] at hkey
      exact hr hkey.symm
    have hcurid : cur.id = s.id := by
      have hcm : cur ∈ db'.scheduledWorkouts.filter (fun x => x.id == s.id) := by
        rw [hcur]
        exact List.mem_singleton_self cur
      exact eq_of_beq (List.mem_filter.mp hcm).2
    simp only [fetchScheduledStep, hj]
    split
    · refine ⟨?_, hnext, hex⟩
      rw [List.filter_map]
      have hpc : db'.scheduledWorkouts.filter ((fun x => x.id == s.id) ∘
          (fun x => if x.id = lw'.id then
            { x with
              exercises := convertExercisesFromCloud db'.exercises r.exercises,
              notes := r.notes, completed := r.completed }
          else x)) = db'.scheduledWorkouts.filter (fun x => x.id == s.id) := by
        refine List.filter_congr ?_
        intro x _
        by_cases hcx : x.id = lw'.id
        · simp [Function.comp, hcx]
        · simp [Function.comp, hcx]
      rw [hpc, hcur]
      have hcne : ¬ cur.id = lw'.id := by
        rw [hcurid]
        exact fun hc => hlid hc.symm
      simp [hcne]
    · exact ⟨hcur, hnext, hex⟩

theorem fetchScheduledStep_self (w : World) (s : ScheduledWorkout)
    (hnKey : (w.db.scheduledWorkouts.map
      (fun x => x.date ++ "-" ++ lowerStr x.templateName)).Nodup)
    (hs : s ∈ w.db.scheduledWorkouts) (cs : RemoteScheduledWorkout)
    (hkey : cs.date ++ "-" ++ lowerStr cs.template_name =
      s.date ++ "-" ++ lowerStr s.templateName)
    (db' : LocalDB)
    (hcur : db'.scheduledWorkouts.filter (fun x => x.id == s.id) = [s])
    (hnext : w.db.scheduledNextId ≤ db'.scheduledNextId)
    (hex : db'.exercises = w.db.exercises) :
    ((fetchScheduledStep (w.db.scheduledWorkouts.map
        (fun x => (x.date ++ "-" ++ lowerStr x.templateName, x)))
        db' cs).scheduledWorkouts.filter (fun x => x.id == s.id) =
      [if cs.exercises ≠ s.exercises then
        { s with
          exercises := convertExercisesFromCloud w.db.exercises cs.exercises,
          notes := cs.notes, completed := cs.completed }
      else s]) ∧
    (w.db.scheduledNextId ≤
      (fetchScheduledStep (w.db.scheduledWorkouts.map
        (fun x => (x.date ++ "-" ++ lowerStr x.templateName, x)))
        db' cs).scheduledNextId) ∧
    ((fetchScheduledStep (w.db.scheduledWorkouts.map
        (fun x => (x.date ++ "-" ++ lowerStr x.templateName, x)))
        db' cs).exercises = w.db.exercises) := by
  have hjs : jsGet (w.db.scheduledWorkouts.map
      (fun x => (x.date ++ "-" ++ lowerStr x.templateName, x)))
      (cs.date ++ "-" ++ lowerStr cs.template_name) = some s := by
    rw [hkey]
    refine jsGet_eq_some_of_mem _ _ _ ?_ (List.mem_map_of_mem _ hs)
    have hkeys : (w.db.scheduledWorkouts.map
        (fun x => (x.date ++ "-" ++ lowerStr x.templateName, x))).map
        Prod.fst = w.db.scheduledWorkouts.map
        (fun x => x.date ++ "-" ++ lowerStr x.templateName) := by
      rw [List.map_map]
      rfl
    rw [hkeys]
    exact hnKey
  simp only [fetchScheduledStep, hjs]
  by_cases hne : cs.exercises ≠ s.exercises
  · rw [if_pos hne, if_pos hne]
    refine ⟨?_, hnext, hex⟩
    rw [List.filter_map]
    have hpc : db'.scheduledWorkouts.filter ((fun x => x.id == s.id) ∘
        (fun x => if x.id = s.id then
          { x with
            exercises := convertExercisesFromCloud db'.exercises cs.exercises,
            notes := cs.notes, completed := cs.completed }
        else x)) = db'.scheduledWorkouts.filter (fun x => x.id == s.id) := by
      refine List.filter_congr ?_
      intro x _
      by_cases hcx : x.id = s.id
      · simp [Function.comp, hcx]
      · simp [Function.comp, hcx]
    rw [hpc, hcur]
    simp [hex]
  · rw [if_neg hne, if_neg hne]
    exact ⟨hcur, hnext, hex⟩

theorem fetchScheduled_foldl_other (w : World) (s : ScheduledWorkout)
    (hnID : (w.db.scheduledWorkouts.map (fun x => x.id)).Nodup)
    (hs : s ∈ w.db.scheduledWorkouts) (hsid : s.id < w.db.scheduledNextId)
    (rs : List RemoteScheduledWorkout)
    (hrs : ∀ r ∈ rs, r.date ++ "-" ++ lowerStr r.template_name ≠
      s.date ++ "-" ++ lowerStr s.templateName) :
    ∀ (db' : LocalDB) (cur : ScheduledWorkout),
      db'.scheduledWorkouts.filter (fun x => x.id == s.id) = [cur] →
      w.db.scheduledNextId ≤ db'.scheduledNextId →
      db'.exercises = w.db.exercises →
      ((rs.foldl (fetchScheduledStep (w.db.scheduledWorkouts.map
          (fun x => (x.date ++ "-" ++ lowerStr x.templateName, x))))
          db').scheduledWorkouts.filter (fun x => x.id == s.id) = [cur]) ∧
      (w.db.scheduledNextId ≤
        (rs.foldl (fetchScheduledStep (w.db.scheduledWorkouts.map
          (fun x => (x.date ++ "-" ++ lowerStr x.templateName, x))))
          db').scheduledNextId) ∧
      ((rs.foldl (fetchScheduledStep (w.db.scheduledWorkouts.map
          (fun x => (x.date ++ "-" ++ lowerStr x.templateName, x))))
          db').exercises = w.db.exercises) := by
  induction rs with
  | nil =>
    intro db' cur h1 h2 h3
    exact ⟨h1, h2, h3⟩
  | cons r rs ih =>
    intro db' cur h1 h2 h3
    rw [List.foldl_cons]
    obtain ⟨g1, g2, g3⟩ := fetchScheduledStep_other w s hnID hs hsid db' cur r
      (hrs r (List.mem_cons_self r rs)) h1 h2 h3
    exact ih (fun x hx => hrs x (List.mem_cons_of_mem r hx)) _ cur g1 g2 g3

theorem schedRemoteDeletionStep_filter (cloudIds : List String) (db : LocalDB)
    (s' : ScheduledWorkout) (i : Nat) (cur : ScheduledWorkout)
    (hcond : cloudIds.contains (toString s'.id) = true ∨ s'.id ≠ i)
    (hcur : db.scheduledWorkouts.filter (fun x => x.id == i) = [cur]) :
    (schedRemoteDeletionStep cloudIds db s').scheduledWorkouts.filter
      (fun x => x.id == i) = [cur] := by
  unfold schedRemoteDeletionStep
  by_cases hc : cloudIds.contains (toString s'.id) = true
  · rw [if_pos hc]
    exact hcur
  · rw [if_neg hc]
    have hne : s'.id ≠ i := hcond.resolve_left hc
    rw [filter_comm_helper, hcur]
    have hki : cur.id = i := by
      have hcm : cur ∈ db.scheduledWorkouts.filter (fun x => x.id == i) := by
        rw [hcur]
        exact List.mem_singleton_self cur
      exact eq_of_beq (List.mem_filter.mp hcm).2
    have hkeep : (!(cur.id == s'.id)) = true := by
      rw [hki]
      simp
      exact fun hc2 => hne hc2.symm
    simp [hkeep]

theorem schedDeletion_foldl_filter (cloudIds : List String)
    (ss : List ScheduledWorkout) (db : LocalDB) (i : Nat)
    (cur : ScheduledWorkout)
    (hsafe : ∀ s' ∈ ss, cloudIds.contains (toString s'.id) = true ∨ s'.id ≠ i)
    (hcur : db.scheduledWorkouts.filter (fun x => x.id == i) = [cur]) :
    (ss.foldl (schedRemoteDeletionStep cloudIds) db).scheduledWorkouts.filter
      (fun x => x.id == i) = [cur] :=
  foldl_invariant (schedRemoteDeletionStep cloudIds)
    (fun d => d.scheduledWorkouts.filter (fun x => x.id == i) = [cur]) ss db
    hcur
    (fun d a ha hd => schedRemoteDeletionStep_filter cloudIds d a i cur
      (hsafe a ha) hd)

theorem sched_exdiff (user : String) (w : World) (s : ScheduledWorkout)
    (cs : RemoteScheduledWorkout) (hs : s ∈ w.db.scheduledWorkouts)
    (hnID : (w.db.scheduledWorkouts.map (fun x => x.id)).Nodup)
    (hnKey : (w.db.scheduledWorkouts.map
      (fun x => x.date ++ "-" ++ lowerStr x.templateName)).Nodup)
    (hltid : ∀ x ∈ w.db.scheduledWorkouts, x.id < w.db.scheduledNextId)
    (hcs : (sortBy (fun a b => decide (a.date < b.date))
        (w.remote.scheduledWorkouts.filter (fun r => r.user_id == user))).filter
        (fun r => (r.date ++ "-" ++ lowerStr r.template_name) ==
          (s.date ++ "-" ++ lowerStr s.templateName)) = [cs])
    (hsurv : toString s.id ∈ (sortBy (fun a b => decide (a.date < b.date))
        (w.remote.scheduledWorkouts.filter (fun r => r.user_id == user))).map
        (fun r => r.local_id) ∨ s.synced = false) :
    (fetchScheduledWorkoutsFromSupabase user w).db.scheduledWorkouts.filter
      (fun x => x.id == s.id) =
      [if cs.exercises ≠ s.exercises then
        { s with
          exercises := convertExercisesFromCloud w.db.exercises cs.exercises,
          notes := cs.notes, completed := cs.completed }
      else s] := by
  simp only [fetchScheduledWorkoutsFromSupabase]
  obtain ⟨l1, l2, hsplit, h1, hpcs, h2⟩ := filter_singleton_split _ _ _ hcs
  have hsid := hltid s hs
  have hstart : w.db.scheduledWorkouts.filter (fun x => x.id == s.id) = [s] :=
    filter_id_singleton (fun x => x.id) w.db.scheduledWorkouts s hnID hs
  rw [hsplit, List.foldl_append, List.foldl_cons]
  obtain ⟨m1, m2, m3⟩ := fetchScheduled_foldl_other w s hnID hs hsid l1
    (fun x hx => beq_eq_false_iff_ne.mp (h1 x hx)) w.db s hstart
    (Nat.le_refl _) rfl
  obtain ⟨s1, s2, s3⟩ := fetchScheduledStep_self w s hnKey hs cs
    (eq_of_beq hpcs) _ m1 m2 m3
  obtain ⟨f1, f2, f3⟩ := fetchScheduled_foldl_other w s hnID hs hsid l2
    (fun x hx => beq_eq_false_iff_ne.mp (h2 x hx)) _ _ s1 s2 s3
  refine schedDeletion_foldl_filter _ _ _ _ _ ?_ f1
  intro s' hs'
  by_cases hid : s'.id = s.id
  · left
    have hseq : s' = s := List.inj_on_of_nodup_map hnID
      (List.mem_of_mem_filter hs') hs hid
    rw [hseq]
    rcases hsurv with hin | hsf
    · apply contains_eq_true_of_mem
      rw [hsplit] at hin
      exact hin
    · have hsy : s'.synced = true := (List.mem_filter.mp hs').2
      rw [hseq, hsf] at hsy
      cases hsy
  · right
    exact hid

/-- C3, amended: the download's merge is last-writer-wins for templates
only.  A local template matched by the unique same-named remote row is
overwritten (exercises, lastUsed) iff the cloud timestamp (`updated_at`
falling back to `created_at`) is strictly newer than the local one
(`lastUsed` falling back to `createdAt`), and is unchanged otherwise.  A
local scheduled workout matched by the unique remote row with the same
`(date, lowercased template name)` key is overwritten (exercises, notes,
completed) iff the serialized exercises differ — no timestamp is consulted,
because the scheduled tables carry none. -/
theorem C3_download_merge_amended (user : String) (w : World)
    (t : WorkoutTemplate) (ct : RemoteTemplate)
    (s : ScheduledWorkout) (cs : RemoteScheduledWorkout)
    (ht : t ∈ w.db.templates)
    (hnIDt : (w.db.templates.map (fun x => x.id)).Nodup)
    (hnName : (w.db.templates.map (fun x => lowerStr x.name)).Nodup)
    (hltT : ∀ x ∈ w.db.templates, x.id < w.db.templatesNextId)
    (hct : (sortBy tmplFetchBefore (w.remote.templates.filter
        (fun r => r.user_id == user))).filter
        (fun r => lowerStr r.name == lowerStr t.name) = [ct])
    (hsurvT : toString t.id ∈ (sortBy tmplFetchBefore
        (w.remote.templates.filter (fun r => r.user_id == user))).map
        (fun r => r.local_id) ∨ t.synced = false)
    (hs : s ∈ w.db.scheduledWorkouts)
    (hnIDs : (w.db.scheduledWorkouts.map (fun x => x.id)).Nodup)
    (hnKey : (w.db.scheduledWorkouts.map
      (fun x => x.date ++ "-" ++ lowerStr x.templateName)).Nodup)
    (hltS : ∀ x ∈ w.db.scheduledWorkouts, x.id < w.db.scheduledNextId)
    (hcs : (sortBy (fun a b => decide (a.date < b.date))
        (w.remote.scheduledWorkouts.filter (fun r => r.user_id == user))).filter
        (fun r => (r.date ++ "-" ++ lowerStr r.template_name) ==
          (s.date ++ "-" ++ lowerStr s.templateName)) = [cs])
    (hsurvS : toString s.id ∈ (sortBy (fun a b => decide (a.date < b.date))
        (w.remote.scheduledWorkouts.filter (fun r => r.user_id == user))).map
        (fun r => r.local_id) ∨ s.synced = false) :
    ((fetchTemplatesFromSupabase user w).db.templates.filter
        (fun x => x.id == t.id) =
      [if t.lastUsed.getD t.createdAt < ct.updated_at.getD ct.created_at then
        { t with
          exercises := convertExercisesFromCloud w.db.exercises ct.exercises,
          lastUsed := some (ct.updated_at.getD ct.created_at) }
      else t]) ∧
    ((fetchScheduledWorkoutsFromSupabase user w).db.scheduledWorkouts.filter
        (fun x => x.id == s.id) =
      [if cs.exercises ≠ s.exercises then
        { s with
          exercises := convertExercisesFromCloud w.db.exercises cs.exercises,
          notes := cs.notes, completed := cs.completed }
      else s]) :=
  ⟨tmpl_lww user w t ct ht hnIDt hnName hltT hct hsurvT,
   sched_exdiff user w s cs hs hnIDs hnKey hltS hcs hsurvS⟩

/-- C3, witness: at `c3AmWorld` the template is overwritten (cloud
`updated_at` 9 beats local `lastUsed` 5) while the scheduled workout is
left unchanged (equal serialized exercises), notes and all. -/
theorem C3_download_merge_amended_witness :
    ((fetchTemplatesFromSupabase "u" c3AmWorld).db.templates.filter
        (fun x => x.id == (1 : Nat)) =
      [{ id := 1, name := "A", exercises := [], createdAt := 0,
         lastUsed := some 9, synced := true }]) ∧
    ((fetchScheduledWorkoutsFromSupabase
        "u" c3AmWorld).db.scheduledWorkouts.filter
        (fun x => x.id == (1 : Nat)) =
      [{ id := 1, templateId := 1, templateName := "B", date := "2025-01-01",
         notes := none, exercises := [], completed := false,
         synced := true }]) :=
  have h := C3_download_merge_amended "u" c3AmWorld
    { id := 1, name := "A", exercises := [], createdAt := 0,
      lastUsed := some 5, synced := true }
    { id := 10, local_id := "1", user_id := "u", name := "A",
      exercises := [], created_at := 0, updated_at := some 9 }
    { id := 1, templateId := 1, templateName := "B", date := "2025-01-01",
      notes := none, exercises := [], completed := false, synced := true }
    { id := 11, local_id := "1", user_id := "u", template_name := "B",
      date := "2025-01-01", notes := some "n", exercises := [],
      completed := true }
    (by decide) (by decide) (by decide) (by decide) (by decide) (by decide)
    (by decide) (by decide) (by decide) (by decide) (by decide) (by decide)
  ⟨h.1.trans (by decide), h.2.trans (by decide)⟩

-- ## Claim C2 (idempotence of fullCloudSync)

theorem syncDeletions_empty (o : DeletionOracle) (user : String) (w : World)
    (h : w.db.deletedItems = []) :
    (syncDeletionsToSupabase o user w).1 = w := by
  simp only [syncDeletionsToSupabase, h]
  rfl

theorem collectDupIds_nil {α : Type} (key : α → String) (getId : α → Nat)
    (l : List α) : ∀ seen : List String, (l.map key).Nodup →
    (∀ x ∈ l, key x ∉ seen) → collectDupIds key getId l seen = [] := by
  induction l with
  | nil =>
    intro seen _ _
    rfl
  | cons t rest ih =>
    intro seen hnd hns
    rw [List.map_cons, List.nodup_cons] at hnd
    unfold collectDupIds
    have hc : seen.contains (key t) = false :=
      contains_eq_false_of_not_mem _ _ (hns t (List.mem_cons_self t rest))
    rw [if_neg (by rw [hc]; exact Bool.false_ne_true)]
    apply ih
    · exact hnd.2
    · intro x hx hmem
      rcases List.mem_cons.mp hmem with heq | hmem'
      · exact hnd.1 (heq ▸ List.mem_map_of_mem key hx)
      · exact hns x (List.mem_cons_of_mem t hx) hmem'

theorem cleanupLocalDuplicates_id (w : World)
    (h1 : (w.db.templates.map (fun t => lowerStr t.name)).Nodup)
    (h2 : (w.db.scheduledWorkouts.map
      (fun s => s.date ++ "-" ++ lowerStr s.templateName)).Nodup) :
    cleanupLocalDuplicates w = w := by
  have hc1 : collectDupIds (fun t => lowerStr t.name) (fun t => t.id)
      w.db.templates [] = [] :=
    collectDupIds_nil _ _ _ [] h1 (fun x _ h => (List.not_mem_nil _ h))
  have hc2 : collectDupIds (fun s => s.date ++ "-" ++ lowerStr s.templateName)
      (fun s => s.id) w.db.scheduledWorkouts [] = [] :=
    collectDupIds_nil _ _ _ [] h2 (fun x _ h => (List.not_mem_nil _ h))
  simp [cleanupLocalDuplicates, hc1, hc2]

theorem jsGet_none_not_mem {β : Type} (ps : List (String × β)) (k : String)
    (h : jsGet ps k = none) (v : β) : (k, v) ∉ ps := by
  intro hmem
  unfold jsGet at h
  have h2 : ps.reverse.find? (fun p => p.1 == k) = none :=
    Option.map_eq_none'.mp h
  rw [List.find?_eq_none] at h2
  have hv := h2 (k, v) (List.mem_reverse.mpr hmem)
  simp at hv

theorem syncUserSettings_id (user : String) (now : Nat) (w : World)
    (hnd : (w.remote.userSettings.map (fun r => r.id)).Nodup)
    (hrow : (w.remote.userSettings.filter (fun r => r.user_id == user)).map
      (fun r => (r.muscle_groups, r.equipment, r.rest_timer_enabled,
        r.rest_timer_seconds, r.updated_at)) =
     [(w.db.settings.muscleGroups, w.db.settings.equipment,
       w.db.settings.restTimerEnabled == some "true",
       w.db.settings.restTimerDefault.getD 90, now)]) :
    syncUserSettingsToSupabase user now w = w := by
  have hlen : (w.remote.userSettings.filter
      (fun r => r.user_id == user)).length = 1 := by
    simpa using congrArg List.length hrow
  obtain ⟨row, hfil⟩ := List.length_eq_one.mp hlen
  rw [hfil] at hrow
  simp only [List.map_cons, List.map_nil, List.cons.injEq, and_true,
    Prod.mk.injEq] at hrow
  obtain ⟨hmg, heqp, hen, hsec, hupd⟩ := hrow
  have hrm : row ∈ w.remote.userSettings.filter (fun r => r.user_id == user) := by
    rw [hfil]
    exact List.mem_singleton_self row
  have hrmem : row ∈ w.remote.userSettings := List.mem_of_mem_filter hrm
  have hruser : row.user_id = user := eq_of_beq (List.mem_filter.mp hrm).2
  simp only [syncUserSettingsToSupabase, hfil]
  rw [map_eq_self_of_forall]
  intro r hr
  by_cases hid : r.id = row.id
  · rw [if_pos hid]
    have hre : r = row := List.inj_on_of_nodup_map hnd hr hrmem hid
    subst hre
    rw [← hruser, ← hmg, ← heqp, ← hen, ← hsec, ← hupd]
  · rw [if_neg hid]

theorem fetchUserSettings_id (user : String) (now : Nat) (w : World)
    (hrow : (w.remote.userSettings.filter (fun r => r.user_id == user)).map
      (fun r => (r.muscle_groups, r.equipment, r.rest_timer_enabled,
        r.rest_timer_seconds, r.updated_at)) =
     [(w.db.settings.muscleGroups, w.db.settings.equipment,
       w.db.settings.restTimerEnabled == some "true",
       w.db.settings.restTimerDefault.getD 90, now)])
    (hon : w.db.settings.restTimerEnabled = some "true" ∨
      w.db.settings.restTimerEnabled = some "false")
    (hdef : w.db.settings.restTimerDefault.isSome = true) :
    fetchUserSettingsFromSupabase user w = w := by
  have hlen : (w.remote.userSettings.filter
      (fun r => r.user_id == user)).length = 1 := by
    simpa using congrArg List.length hrow
  obtain ⟨row, hfil⟩ := List.length_eq_one.mp hlen
  rw [hfil] at hrow
  simp only [List.map_cons, List.map_nil, List.cons.injEq, and_true,
    Prod.mk.injEq] at hrow
  obtain ⟨hmg, heqp, hen, hsec, -⟩ := hrow
  simp only [fetchUserSettingsFromSupabase, hfil]
  have hs1 : (if row.muscle_groups.isSome = true
      then { w.db.settings with muscleGroups := row.muscle_groups }
      else w.db.settings) = w.db.settings := by
    rw [hmg]
    split
    · rfl
    · rfl
  rw [hs1]
  have hs2 : (if row.equipment.isSome = true
      then { w.db.settings with equipment := row.equipment }
      else w.db.settings) = w.db.settings := by
    rw [heqp]
    split
    · rfl
    · rfl
  rw [hs2, hen, hsec]
  have hrest : (some (if (w.db.settings.restTimerEnabled == some "true") = true
      then "true" else "false") : Option String) =
      w.db.settings.restTimerEnabled := by
    rcases hon with he | he
    · rw [he]
      decide
    · rw [he]
      decide
  have hrdef : (some (w.db.settings.restTimerDefault.getD 90) : Option Nat) =
      w.db.settings.restTimerDefault := by
    obtain ⟨d, hd⟩ := Option.isSome_iff_exists.mp hdef
    rw [hd]
    rfl
  rw [hrest, hrdef]

theorem upsertRemoteExercise_id (r : RemoteDB) (lid name : String)
    (mg : MuscleGroupField) (eqp : Option String)
    (h : (r.exercises.filter (fun x => x.local_id == lid)).map
      (fun x => (x.name, x.muscle_group, x.equipment)) = [(name, mg, eqp)]) :
    (upsertRemoteExercise lid name mg eqp r).1 = r := by
  have hlen : (r.exercises.filter (fun x => x.local_id == lid)).length = 1 := by
    simpa using congrArg List.length h
  obtain ⟨row, hfil⟩ := List.length_eq_one.mp hlen
  rw [hfil] at h
  simp only [List.map_cons, List.map_nil, List.cons.injEq, and_true,
    Prod.mk.injEq] at h
  obtain ⟨hname, hmg, heqp⟩ := h
  have hfind : r.exercises.find? (fun x => x.local_id == lid) = some row :=
    find?_eq_some_of_filter_singleton _ _ _ hfil
  simp only [upsertRemoteExercise, hfind]
  rw [map_eq_self_of_forall]
  intro x hx
  by_cases hxl : x.local_id = lid
  · rw [if_pos hxl]
    have hxf : x ∈ r.exercises.filter (fun e => e.local_id == lid) :=
      List.mem_filter.mpr ⟨hx, by simp [hxl]⟩
    rw [hfil, List.mem_singleton] at hxf
    subst hxf
    rw [← hname, ← hmg, ← heqp]
  · rw [if_neg hxl]

theorem syncExercises_id (w : World)
    (hall : ∀ e ∈ w.db.exercises,
      (w.remote.exercises.filter (fun x => x.local_id == toString e.id)).map
        (fun x => (x.name, x.muscle_group, x.equipment)) =
      [(e.name, MuscleGroupField.arr e.muscleGroups, some e.equipment)]) :
    (syncExercises w).1 = w := by
  simp only [syncExercises]
  have hkey : (w.db.exercises.foldl syncExercisesStep (w.remote, 0)).1 =
      w.remote := by
    refine foldl_invariant syncExercisesStep (fun acc => acc.1 = w.remote)
      w.db.exercises (w.remote, 0) rfl ?_
    intro b a ha hb
    simp only [syncExercisesStep]
    rw [hb]
    exact upsertRemoteExercise_id w.remote (toString a.id) a.name
      (.arr a.muscleGroups) (some a.equipment) (hall a ha)
  rw [hkey]

theorem fetchExercisesStep_id (w : World) (ce : RemoteExercise)
    (hex : ∃ le ∈ w.db.exercises, lowerStr le.name = lowerStr ce.name)
    (hall : ∀ le ∈ w.db.exercises, lowerStr le.name = lowerStr ce.name →
      (le.muscleGroups = normalizeCloudMG ce.muscle_group ∧
       ce.equipment = some le.equipment)) :
    fetchExercisesStep (w.db.exercises.map (fun e => (lowerStr e.name, e)))
      w.db ce = w.db := by
  cases hj : jsGet (w.db.exercises.map (fun e => (lowerStr e.name, e)))
      (lowerStr ce.name) with
  | none =>
    exfalso
    obtain ⟨le, hle, hln⟩ := hex
    exact jsGet_none_not_mem _ _ hj le (hln ▸ List.mem_map_of_mem _ hle)
  | some le0 =>
    have hmem0 := jsGet_mem _ _ _ hj
    obtain ⟨x0, hx0, hpair⟩ := List.mem_map.mp hmem0
    have hx0e : x0 = le0 := congrArg Prod.snd hpair
    have hname : lowerStr le0.name = lowerStr ce.name := by
      rw [← hx0e]
      exact congrArg Prod.fst hpair
    obtain ⟨hmg, heqp⟩ := hall le0 (hx0e ▸ hx0) hname
    simp only [fetchExercisesStep, hj]
    have hnot : ¬(le0.muscleGroups ≠ normalizeCloudMG ce.muscle_group ∨
        ce.equipment ≠ some le0.equipment) := by
      rintro (hc | hc)
      · exact hc hmg
      · exact hc heqp
    rw [if_neg hnot]

theorem fetchExercises_id (w : World)
    (hX : ∀ ce ∈ w.remote.exercises, ce.deleted = false →
      ((∃ le ∈ w.db.exercises, lowerStr le.name = lowerStr ce.name) ∧
       ∀ le ∈ w.db.exercises, lowerStr le.name = lowerStr ce.name →
         (le.muscleGroups = normalizeCloudMG ce.muscle_group ∧
          ce.equipment = some le.equipment))) :
    fetchExercisesFromSupabase w = w := by
  by_cases hempty : (sortBy (fun a b => decide (a.name < b.name))
      (w.remote.exercises.filter (fun e => !e.deleted))).isEmpty = true
  · simp only [fetchExercisesFromSupabase]
    rw [if_pos hempty]
  · simp only [fetchExercisesFromSupabase]
    rw [if_neg hempty]
    have hfold : (sortBy (fun a b => decide (a.name < b.name))
        (w.remote.exercises.filter (fun e => !e.deleted))).foldl
        (fetchExercisesStep (w.db.exercises.map (fun e => (lowerStr e.name, e))))
        w.db = w.db := by
      refine foldl_id _ _ _ ?_
      intro ce hce
      have hmem := (mem_sortBy _ _ _).mp hce
      have hm := List.mem_filter.mp hmem
      have hdel : ce.deleted = false := by
        have := hm.2
        simp at this
        exact this
      obtain ⟨hex, hall⟩ := hX ce hm.1 hdel
      exact fetchExercisesStep_id w ce hex hall
    rw [hfold]

theorem syncTemplatesStep_id (user : String) (now : Nat) (w : World)
    (c : Nat × Nat) (t : WorkoutTemplate)
    (hnd : (w.remote.templates.map (fun r => r.id)).Nodup)
    (hndl : (w.db.templates.map (fun x => x.id)).Nodup)
    (ht : t ∈ w.db.templates) (hsy : t.synced = true)
    (hrow : (w.remote.templates.filter
      (fun r => r.user_id == user && r.name == t.name)).map
      (fun r => (r.local_id, r.exercises, r.updated_at)) =
      [(toString t.id,
        convertExercisesToNamesForCloud w.db.exercises t.exercises,
        some now)]) :
    syncTemplatesStep user now (w, c) t = (w, (c.1 + 1, c.2)) := by
  have hlen : (w.remote.templates.filter
      (fun r => r.user_id == user && r.name == t.name)).length = 1 := by
    simpa using congrArg List.length hrow
  obtain ⟨row, hfil⟩ := List.length_eq_one.mp hlen
  rw [hfil] at hrow
  simp only [List.map_cons, List.map_nil, List.cons.injEq, and_true,
    Prod.mk.injEq] at hrow
  obtain ⟨hlid, hexs, hupd⟩ := hrow
  have hrm : row ∈ w.remote.templates.filter
      (fun r => r.user_id == user && r.name == t.name) := by
    rw [hfil]
    exact List.mem_singleton_self row
  have hrmem : row ∈ w.remote.templates := List.mem_of_mem_filter hrm
  simp only [syncTemplatesStep, hfil, List.isEmpty_nil, if_true]
  rw [map_eq_self_of_forall, map_eq_self_of_forall]
  · intro r hr
    by_cases hid : r.id = row.id
    · rw [if_pos hid]
      have hre : r = row := List.inj_on_of_nodup_map hnd hr hrmem hid
      subst hre
      rw [← hlid, ← hexs, ← hupd]
    · rw [if_neg hid]
  · intro x hx
    by_cases hid : x.id = t.id
    · rw [if_pos hid]
      have hxe : x = t := List.inj_on_of_nodup_map hndl hx ht hid
      subst hxe
      rw [← hsy]
    · rw [if_neg hid]

theorem syncTemplates_id (user : String) (now : Nat) (w : World)
    (hnd : (w.remote.templates.map (fun r => r.id)).Nodup)
    (hndl : (w.db.templates.map (fun x => x.id)).Nodup)
    (hall : ∀ t ∈ w.db.templates, t.synced = true ∧
      (w.remote.templates.filter
        (fun r => r.user_id == user && r.name == t.name)).map
        (fun r => (r.local_id, r.exercises, r.updated_at)) =
      [(toString t.id,
        convertExercisesToNamesForCloud w.db.exercises t.exercises,
        some now)]) :
    (syncTemplatesToSupabase user now w).1 = w := by
  simp only [syncTemplatesToSupabase]
  refine foldl_invariant (syncTemplatesStep user now) (fun acc => acc.1 = w)
    w.db.templates (w, (0, 0)) rfl ?_
  intro b a ha hb
  obtain ⟨b1, b2⟩ := b
  simp only at hb
  rw [hb]
  rw [syncTemplatesStep_id user now w b2 a hnd hndl ha (hall a ha).1
    (hall a ha).2]

theorem fetchTemplatesStep_id2 (w : World) (ct : RemoteTemplate)
    (hex : ∃ lt ∈ w.db.templates, lowerStr lt.name = lowerStr ct.name)
    (hall : ∀ lt ∈ w.db.templates, lowerStr lt.name = lowerStr ct.name →
      ¬(lt.lastUsed.getD lt.createdAt < ct.updated_at.getD ct.created_at)) :
    fetchTemplatesStep (w.db.templates.map (fun t => (lowerStr t.name, t)))
      w.db ct = w.db := by
  cases hj : jsGet (w.db.templates.map (fun t => (lowerStr t.name, t)))
      (lowerStr ct.name) with
  | none =>
    exfalso
    obtain ⟨lt, hlt, hln⟩ := hex
    exact jsGet_none_not_mem _ _ hj lt (hln ▸ List.mem_map_of_mem _ hlt)
  | some lt0 =>
    have hmem0 := jsGet_mem _ _ _ hj
    obtain ⟨x0, hx0, hpair⟩ := List.mem_map.mp hmem0
    have hx0e : x0 = lt0 := congrArg Prod.snd hpair
    have hname : lowerStr lt0.name = lowerStr ct.name := by
      rw [← hx0e]
      exact congrArg Prod.fst hpair
    have hge := hall lt0 (hx0e ▸ hx0) hname
    simp only [fetchTemplatesStep, hj]
    rw [if_neg hge]

theorem fetchTemplates_id (user : String) (w : World)
    (hF : ∀ ct ∈ w.remote.templates, ct.user_id = user →
      ((∃ lt ∈ w.db.templates, lowerStr lt.name = lowerStr ct.name) ∧
       ∀ lt ∈ w.db.templates, lowerStr lt.name = lowerStr ct.name →
         ¬(lt.lastUsed.getD lt.createdAt < ct.updated_at.getD ct.created_at)))
    (hpres : ∀ t ∈ w.db.templates, t.synced = true →
      toString t.id ∈ (w.remote.templates.filter
        (fun r => r.user_id == user)).map (fun r => r.local_id)) :
    fetchTemplatesFromSupabase user w = w := by
  by_cases hempty : (sortBy tmplFetchBefore
      (w.remote.templates.filter (fun r => r.user_id == user))).isEmpty = true
  · simp only [fetchTemplatesFromSupabase]
    rw [if_pos hempty]
  · simp only [fetchTemplatesFromSupabase]
    rw [if_neg hempty]
    have hfold : (sortBy tmplFetchBefore
        (w.remote.templates.filter (fun r => r.user_id == user))).foldl
        (fetchTemplatesStep (w.db.templates.map (fun t => (lowerStr t.name, t))))
        w.db = w.db := by
      refine foldl_id _ _ _ ?_
      intro ct hct
      have hmem := (mem_sortBy _ _ _).mp hct
      have hm := List.mem_filter.mp hmem
      obtain ⟨hex, hall⟩ := hF ct hm.1 (eq_of_beq hm.2)
      exact fetchTemplatesStep_id2 w ct hex hall
    rw [hfold]
    have hdel : (w.db.templates.filter (fun t => t.synced)).foldl
        (tmplRemoteDeletionStep ((sortBy tmplFetchBefore
          (w.remote.templates.filter (fun r => r.user_id == user))).map
          (fun t => t.local_id))) w.db = w.db := by
      refine foldl_id _ _ _ ?_
      intro t' ht'
      have hm := List.mem_filter.mp ht'
      have hin := hpres t' hm.1 hm.2
      have hin' : toString t'.id ∈ (sortBy tmplFetchBefore
          (w.remote.templates.filter (fun r => r.user_id == user))).map
          (fun t => t.local_id) := by
        rw [mem_map_sortBy]
        exact hin
      unfold tmplRemoteDeletionStep
      rw [if_pos (contains_eq_true_of_mem _ _ hin')]
    rw [hdel]

theorem syncScheduledStep_id (user : String) (w : World)
    (c : Nat × Nat) (s : ScheduledWorkout)
    (hnd : (w.remote.scheduledWorkouts.map (fun r => r.id)).Nodup)
    (hndl : (w.db.scheduledWorkouts.map (fun x => x.id)).Nodup)
    (hs : s ∈ w.db.scheduledWorkouts) (hsy : s.synced = true)
    (hrow : (w.remote.scheduledWorkouts.filter
      (fun r => r.user_id == user && r.date == s.date &&
        r.template_name == s.templateName)).map
      (fun r => (r.local_id, r.notes, r.exercises, r.completed)) =
      [(toString s.id, s.notes,
        convertExercisesToNamesForCloud w.db.exercises s.exercises,
        s.completed)]) :
    syncScheduledStep user (w, c) s = (w, (c.1 + 1, c.2)) := by
  have hlen : (w.remote.scheduledWorkouts.filter
      (fun r => r.user_id == user && r.date == s.date &&
        r.template_name == s.templateName)).length = 1 := by
    simpa using congrArg List.length hrow
  obtain ⟨row, hfil⟩ := List.length_eq_one.mp hlen
  rw [hfil] at hrow
  simp only [List.map_cons, List.map_nil, List.cons.injEq, and_true,
    Prod.mk.injEq] at hrow
  obtain ⟨hlid, hnts, hexs, hcmp⟩ := hrow
  have hrm : row ∈ w.remote.scheduledWorkouts.filter
      (fun r => r.user_id == user && r.date == s.date &&
        r.template_name == s.templateName) := by
    rw [hfil]
    exact List.mem_singleton_self row
  have hrmem : row ∈ w.remote.scheduledWorkouts := List.mem_of_mem_filter hrm
  simp only [syncScheduledStep, hfil, List.isEmpty_nil, if_true]
  rw [map_eq_self_of_forall, map_eq_self_of_forall]
  · intro r hr
    by_cases hid : r.id = row.id
    · rw [if_pos hid]
      have hre : r = row := List.inj_on_of_nodup_map hnd hr hrmem hid
      subst hre
      rw [← hlid, ← hnts, ← hexs, ← hcmp]
    · rw [if_neg hid]
  · intro x hx
    by_cases hid : x.id = s.id
    · rw [if_pos hid]
      have hxe : x = s := List.inj_on_of_nodup_map hndl hx hs hid
      subst hxe
      rw [← hsy]
    · rw [if_neg hid]

theorem syncScheduled_id (user : String) (w : World)
    (hnd : (w.remote.scheduledWorkouts.map (fun r => r.id)).Nodup)
    (hndl : (w.db.scheduledWorkouts.map (fun x => x.id)).Nodup)
    (hall : ∀ s ∈ w.db.scheduledWorkouts, s.synced = true ∧
      (w.remote.scheduledWorkouts.filter
        (fun r => r.user_id == user && r.date == s.date &&
          r.template_name == s.templateName)).map
        (fun r => (r.local_id, r.notes, r.exercises, r.completed)) =
      [(toString s.id, s.notes,
        convertExercisesToNamesForCloud w.db.exercises s.exercises,
        s.completed)]) :
    (syncScheduledWorkoutsToSupabase user w).1 = w := by
  simp only [syncScheduledWorkoutsToSupabase]
  refine foldl_invariant (syncScheduledStep user) (fun acc => acc.1 = w)
    w.db.scheduledWorkouts (w, (0, 0)) rfl ?_
  intro b a ha hb
  obtain ⟨b1, b2⟩ := b
  simp only at hb
  rw [hb]
  rw [syncScheduledStep_id user w b2 a hnd hndl ha (hall a ha).1
    (hall a ha).2]

theorem fetchScheduledStep_id2 (w : World) (cw : RemoteScheduledWorkout)
    (hex : ∃ lw ∈ w.db.scheduledWorkouts,
      lw.date ++ "-" ++ lowerStr lw.templateName =
      cw.date ++ "-" ++ lowerStr cw.template_name)
    (hall : ∀ lw ∈ w.db.scheduledWorkouts,
      lw.date ++ "-" ++ lowerStr lw.templateName =
        cw.date ++ "-" ++ lowerStr cw.template_name →
      cw.exercises = lw.exercises) :
    fetchScheduledStep (w.db.scheduledWorkouts.map
      (fun x => (x.date ++ "-" ++ lowerStr x.templateName, x))) w.db cw =
      w.db := by
  cases hj : jsGet (w.db.scheduledWorkouts.map
      (fun x => (x.date ++ "-" ++ lowerStr x.templateName, x)))
      (cw.date ++ "-" ++ lowerStr cw.template_name) with
  | none =>
    exfalso
    obtain ⟨lw, hlw, hln⟩ := hex
    exact jsGet_none_not_mem _ _ hj lw (hln ▸ List.mem_map_of_mem _ hlw)
  | some lw0 =>
    have hmem0 := jsGet_mem _ _ _ hj
    obtain ⟨x0, hx0, hpair⟩ := List.mem_map.mp hmem0
    have hx0e : x0 = lw0 := congrArg Prod.snd hpair
    have hkey : lw0.date ++ "-" ++ lowerStr lw0.templateName =
        cw.date ++ "-" ++ lowerStr cw.template_name := by
      rw [← hx0e]
      exact congrArg Prod.fst hpair
    have heq := hall lw0 (hx0e ▸ hx0) hkey
    simp only [fetchScheduledStep, hj]
    rw [if_neg (fun hc => hc heq)]

theorem fetchScheduled_id (user : String) (w : World)
    (hG : ∀ cw ∈ w.remote.scheduledWorkouts, cw.user_id = user →
      ((∃ lw ∈ w.db.scheduledWorkouts,
          lw.date ++ "-" ++ lowerStr lw.templateName =
          cw.date ++ "-" ++ lowerStr cw.template_name) ∧
       ∀ lw ∈ w.db.scheduledWorkouts,
         lw.date ++ "-" ++ lowerStr lw.templateName =
           cw.date ++ "-" ++ lowerStr cw.template_name →
         cw.exercises = lw.exercises))
    (hpres : ∀ s ∈ w.db.scheduledWorkouts, s.synced = true →
      toString s.id ∈ (w.remote.scheduledWorkouts.filter
        (fun r => r.user_id == user)).map (fun r => r.local_id)) :
    fetchScheduledWorkoutsFromSupabase user w = w := by
  simp only [fetchScheduledWorkoutsFromSupabase]
  have hfold : (sortBy (fun a b => decide (a.date < b.date))
      (w.remote.scheduledWorkouts.filter (fun r => r.user_id == user))).foldl
      (fetchScheduledStep (w.db.scheduledWorkouts.map
        (fun s => (s.date ++ "-" ++ lowerStr s.templateName, s)))) w.db =
      w.db := by
    refine foldl_id _ _ _ ?_
    intro cw hcw
    have hmem := (mem_sortBy _ _ _).mp hcw
    have hm := List.mem_filter.mp hmem
    obtain ⟨hex, hall⟩ := hG cw hm.1 (eq_of_beq hm.2)
    exact fetchScheduledStep_id2 w cw hex hall
  rw [hfold]
  have hdel : (w.db.scheduledWorkouts.filter (fun s => s.synced)).foldl
      (schedRemoteDeletionStep ((sortBy (fun a b => decide (a.date < b.date))
        (w.remote.scheduledWorkouts.filter (fun r => r.user_id == user))).map
        (fun s => s.local_id))) w.db = w.db := by
    refine foldl_id _ _ _ ?_
    intro s' hs'
    have hm := List.mem_filter.mp hs'
    have hin := hpres s' hm.1 hm.2
    have hin' : toString s'.id ∈ (sortBy (fun a b => decide (a.date < b.date))
        (w.remote.scheduledWorkouts.filter (fun r => r.user_id == user))).map
        (fun s => s.local_id) := by
      rw [mem_map_sortBy]
      exact hin
    unfold schedRemoteDeletionStep
    rw [if_pos (contains_eq_true_of_mem _ _ hin')]
  rw [hdel]

theorem syncAllPending_id (o : WorkoutSyncOracle) (w : World)
    (hall : ∀ e ∈ w.db.exercises,
      (w.remote.exercises.filter (fun x => x.local_id == toString e.id)).map
        (fun x => (x.name, x.muscle_group, x.equipment)) =
      [(e.name, MuscleGroupField.arr e.muscleGroups, some e.equipment)])
    (hW : ∀ wk ∈ w.db.workouts, wk.status = WorkoutStatus.completed →
      wk.synced = true) :
    (syncAllPendingWorkouts o false w).1 = w := by
  simp only [syncAllPendingWorkouts]
  rw [syncExercises_id w hall]
  rw [if_neg Bool.false_ne_true]
  have hfil : (w.db.workouts.filter
      (fun wk => wk.status == WorkoutStatus.completed)).filter
      (fun wk => !wk.synced) = [] := by
    rw [List.filter_eq_nil_iff]
    intro wk hwk hc
    have hm := List.mem_filter.mp hwk
    have hsy := hW wk hm.1 (eq_of_beq hm.2)
    rw [hsy] at hc
    simp at hc
  rw [hfil, List.foldl_nil]

/-- C2, counterexample: two consecutive runs of `fullCloudSync` on the same
(empty) world, at clock values 1 and then 2, do not leave the remote store
unchanged — the second run rewrites the user-settings row's `updated_at`
from 1 to 2, so its write is not a no-op. -/
theorem C2_idempotence_counterexample :
    (fullCloudSync "u" 2 (fullCloudSync "u" 1 c2World)).remote ≠
      (fullCloudSync "u" 1 c2World).remote := by
  decide

/-- C2, amended: a `fullCloudSync user now` run is the identity on every
world in the fully-synced relation `SyncedState user now` (no tombstones,
canonical settings row stamped `now`, each local record mirrored by exactly
one remote row holding the exact upload payload, downloads that change
nothing, no unsynced completed workouts, no local duplicates); consequently
the run is idempotent on such worlds.  Without that relation — in particular
whenever the clock advances between runs — a second run rewrites
`updated_at` stamps, as the counterexample shows. -/
theorem C2_idempotence_amended (user : String) (now : Nat) (w : World)
    (h : SyncedState user now w) :
    fullCloudSync user now w = w ∧
    fullCloudSync user now (fullCloudSync user now w) =
      fullCloudSync user now w := by
  unfold SyncedState syncedSettings syncedExercises syncedTemplates
    syncedScheduled syncedWorkouts at h
  obtain ⟨hD, ⟨hS1, hS2, hS3, hS4⟩, ⟨hE2, hX2⟩, ⟨hT1, hT2, hN1, hT3, hF1⟩,
    ⟨hU0, hU2, hN2, hU1, hG1⟩, hW1⟩ := h
  have hpresT : ∀ t ∈ w.db.templates, t.synced = true →
      toString t.id ∈ (w.remote.templates.filter
        (fun r => r.user_id == user)).map (fun r => r.local_id) := by
    intro t ht _
    obtain ⟨-, hrow⟩ := hT3 t ht
    have hlen : (w.remote.templates.filter
        (fun r => r.user_id == user && r.name == t.name)).length = 1 := by
      simpa using congrArg List.length hrow
    obtain ⟨row, hfil⟩ := List.length_eq_one.mp hlen
    rw [hfil] at hrow
    simp only [List.map_cons, List.map_nil, List.cons.injEq, and_true,
      Prod.mk.injEq] at hrow
    have hrm : row ∈ w.remote.templates.filter
        (fun r => r.user_id == user && r.name == t.name) := by
      rw [hfil]
      exact List.mem_singleton_self row
    have hrmem := List.mem_of_mem_filter hrm
    have hpred := (List.mem_filter.mp hrm).2
    rw [Bool.and_eq_true] at hpred
    exact List.mem_map.mpr ⟨row, List.mem_filter.mpr ⟨hrmem, hpred.1⟩, hrow.1⟩
  have hpresS : ∀ s ∈ w.db.scheduledWorkouts, s.synced = true →
      toString s.id ∈ (w.remote.scheduledWorkouts.filter
        (fun r => r.user_id == user)).map (fun r => r.local_id) := by
    intro s hs _
    obtain ⟨-, hrow⟩ := hU1 s hs
    have hlen : (w.remote.scheduledWorkouts.filter
        (fun r => r.user_id == user && r.date == s.date &&
          r.template_name == s.templateName)).length = 1 := by
      simpa using congrArg List.length hrow
    obtain ⟨row, hfil⟩ := List.length_eq_one.mp hlen
    rw [hfil] at hrow
    simp only [List.map_cons, List.map_nil, List.cons.injEq, and_true,
      Prod.mk.injEq] at hrow
    have hrm : row ∈ w.remote.scheduledWorkouts.filter
        (fun r => r.user_id == user && r.date == s.date &&
          r.template_name == s.templateName) := by
      rw [hfil]
      exact List.mem_singleton_self row
    have hrmem := List.mem_of_mem_filter hrm
    have hpred := (List.mem_filter.mp hrm).2
    rw [Bool.and_eq_true, Bool.and_eq_true] at hpred
    exact List.mem_map.mpr ⟨row, List.mem_filter.mpr ⟨hrmem, hpred.1.1⟩,
      hrow.1⟩
  have hid : fullCloudSync user now w = w := by
    simp only [fullCloudSync]
    rw [syncDeletions_empty noDeletionErrors user w hD,
      syncUserSettings_id user now w hS1 hS2,
      fetchUserSettings_id user now w hS2 hS3 hS4,
      syncExercises_id w hE2,
      fetchExercises_id w hX2,
      syncTemplates_id user now w hT1 hT2 hT3,
      fetchTemplates_id user w hF1 hpresT,
      syncScheduled_id user w hU0 hU2 hU1,
      fetchScheduled_id user w hG1 hpresS,
      syncAllPending_id noWorkoutErrors w hE2 hW1,
      cleanupLocalDuplicates_id w hN1 hN2]
  refine ⟨hid, ?_⟩
  rw [hid]
  exact hid

/-- C2, witness: `c2SyncedWorld` is in `SyncedState "u" 5`, and a sync run
at time 5 leaves it untouched (hence running it twice changes nothing). -/
theorem C2_idempotence_amended_witness :
    fullCloudSync "u" 5 c2SyncedWorld = c2SyncedWorld ∧
    fullCloudSync "u" 5 (fullCloudSync "u" 5 c2SyncedWorld) =
      fullCloudSync "u" 5 c2SyncedWorld :=
  C2_idempotence_amended "u" 5 c2SyncedWorld (by decide)

end WorkoutApp
